import Mathlib

/-!
# linuxgpib: board and device bookkeeping over the Linux-GPIB adapter

A shallow embedding of the Go packages `linuxgpib` (`linuxgpib.go`) and
`linuxgpib/internal` (`internal/internal.go`, `internal/const.go`,
`internal/address.go`, `internal/ib.go`).

Conventions of the embedding:

* Go `int` and `time.Duration` are `Int` (durations in nanoseconds). The
  modelled code only compares, masks and copies these numbers.
* The constants of `internal/const.go` are cgo references into the C header
  `gpib/ib.h`; the header is not part of the repository, so the constants
  (and the two address macros) are a parameter `Consts` of every definition
  that uses them. `gpibUser` is the instance with the values of
  `gpib_user.h` of linux-gpib 4.1.0, from which `const.go` says it is derived.
* The C library is an external collaborator. Every call into it is recorded
  in `World.trace`, and what it answers is read from `World.adapter`, an
  arbitrary script indexed by the number of calls made so far.
* All exported operations run under the package mutex `mu`, so each one is
  an atomic transition on `World`.
* `options.logf` writes to an external sink and is not modelled; the one
  adapter call made while building a log line (`Ibvers` in `NewBoard`) is.
-/

namespace Linuxgpib

/-! ## Package `internal`: constants -/

/-- The cgo constants of `internal/const.go` that the modelled code uses, and
the macros `GetPAD`/`GetSAD` behind `Address.Primary`/`Address.Secondary`
(`internal/address.go`). Their values live in the C header. -/
structure Consts where
  DCAS : Int
  DTAS : Int
  LACS : Int
  TACS : Int
  ATN : Int
  CIC : Int
  REM : Int
  LOK : Int
  CMPL : Int
  EVENT : Int
  SPOLL : Int
  RQS : Int
  SRQI : Int
  END : Int
  TIMO : Int
  ERR : Int
  EDVR : Int
  ECIC : Int
  ENOL : Int
  EADR : Int
  EARG : Int
  ESAC : Int
  EABO : Int
  ENEB : Int
  EDMA : Int
  EOIP : Int
  ECAP : Int
  EFSO : Int
  EBUS : Int
  ESTB : Int
  ESRQ : Int
  ETAB : Int
  TNONE : Int
  T10us : Int
  T30us : Int
  T100us : Int
  T300us : Int
  T1ms : Int
  T3ms : Int
  T10ms : Int
  T30ms : Int
  T100ms : Int
  T300ms : Int
  T1s : Int
  T3s : Int
  T10s : Int
  T30s : Int
  T100s : Int
  T300s : Int
  T1000s : Int
  REOS : Int
  BIN : Int
  ValidNDAC : Int
  ValidNRFD : Int
  BusNRFD : Int
  GetPAD : Int → Int
  GetSAD : Int → Int

/-- The values of `gpib_user.h` and `ib.h` in linux-gpib 4.1.0. -/
def gpibUser : Consts where
  DCAS := 0x1
  DTAS := 0x2
  LACS := 0x4
  TACS := 0x8
  ATN := 0x10
  CIC := 0x20
  REM := 0x40
  LOK := 0x80
  CMPL := 0x100
  EVENT := 0x200
  SPOLL := 0x400
  RQS := 0x800
  SRQI := 0x1000
  END := 0x2000
  TIMO := 0x4000
  ERR := 0x8000
  EDVR := 0
  ECIC := 1
  ENOL := 2
  EADR := 3
  EARG := 4
  ESAC := 5
  EABO := 6
  ENEB := 7
  EDMA := 8
  EOIP := 10
  ECAP := 11
  EFSO := 12
  EBUS := 14
  ESTB := 15
  ESRQ := 16
  ETAB := 20
  TNONE := 0
  T10us := 1
  T30us := 2
  T100us := 3
  T300us := 4
  T1ms := 5
  T3ms := 6
  T10ms := 7
  T30ms := 8
  T100ms := 9
  T300ms := 10
  T1s := 11
  T3s := 12
  T10s := 13
  T30s := 14
  T100s := 15
  T300s := 16
  T1000s := 17
  REOS := 0x400
  BIN := 0x1000
  ValidNDAC := 0x02
  ValidNRFD := 0x04
  BusNRFD := 0x0400
  GetPAD := fun a => (a % 65536) % 256
  GetSAD := fun a => ((a % 65536) / 256) % 256

/-! ## Durations (`time.Duration`, nanoseconds) -/

/-- Go `time.Duration`: a signed count of nanoseconds. -/
abbrev Duration := Int

/-- Go `time.Microsecond`. -/
def Microsecond : Duration := 1000

/-- Go `time.Millisecond`. -/
def Millisecond : Duration := 1000000

/-- Go `time.Second`. -/
def Second : Duration := 1000000000

/-! ## Package `internal`: errors and status decoding -/

/-- The Go `error` values the two packages produce, identified by what a
caller can observe of them.

* `TimeoutErr` is the package variable `internal.TimeoutErr`, the only value
  of type `*timeoutError`.
* `errorString s` is `errors.New(s)`, or `fmt.Errorf` without `%w`: a value
  that carries its text and nothing else.
* `errnoError name n` is `fmt.Errorf(name + ": %v", syscall.Errno(n))`, whose
  text is `name`, a colon, and the system's message for errno `n`. -/
inductive Error where
  | TimeoutErr
  | errorString (s : String)
  | errnoError (name : String) (errno : Int)
deriving DecidableEq

/-- The method `func (t *timeoutError) Timeout() bool { return true }`. It is
declared on `*timeoutError` only: for the other error values the method does
not exist (`none`). -/
def Error.Timeout : Error → Option Bool
  | .TimeoutErr => some true
  | .errorString _ => none
  | .errnoError _ _ => none

/-- Go `os.IsTimeout` on the errors of this package, as used by
`TestTimeoutError`: the error has a `Timeout() bool` method and it returns
true. -/
def IsTimeout (e : Error) : Bool :=
  match e.Timeout with
  | some b => b
  | none => false

/-- The global registers `ibsta`, `iberr`, `ibcnt` of the C library
(`internal/status.go`: `Ibsta()`, `Iberr()`, `Ibcnt()`). -/
structure Regs where
  ibsta : Int
  iberr : Int
  ibcnt : Int
deriving DecidableEq

/-- The map literal `iberrStrings`. -/
def iberrStrings (k : Consts) : List (Int × String) :=
  [ (k.EDVR, "EDVR"), (k.ECIC, "ECIC"), (k.ENOL, "ENOL"), (k.EADR, "EADR"),
    (k.EARG, "EARG"), (k.ESAC, "ESAC"), (k.EABO, "EABO"), (k.ENEB, "ENEB"),
    (k.EDMA, "EDMA"), (k.EOIP, "EOIP"), (k.ECAP, "ECAP"), (k.EFSO, "EFSO"),
    (k.EBUS, "EBUS"), (k.ESTB, "ESTB"), (k.ESRQ, "ESRQ"), (k.ETAB, "ETAB") ]

/-- Go `formatIberr`: the name of the error enum constant, "UNKNOWN" when the
map has no entry. -/
def formatIberr (k : Consts) (iberr : Int) : String :=
  match (iberrStrings k).lookup iberr with
  | some s => s
  | none => "UNKNOWN"

/-- Go `internal.Err`; `none` is the nil error. The registers `r` are read
only on the `ERR` branch, as in the source. -/
def Err (k : Consts) (r : Regs) (ibsta : Int) : Option Error :=
  if Int.land ibsta k.TIMO ≠ 0 then
    some Error.TimeoutErr
  else if Int.land ibsta k.ERR ≠ 0 then
    let v := r.iberr
    if v = k.EDVR then
      some (Error.errnoError "EDVR" r.ibcnt)
    else if v = k.EFSO then
      some (Error.errnoError "EFSO" r.ibcnt)
    else
      some (Error.errorString (formatIberr k v))
  else
    none

/-- The slice literal `ibstaCodes`. -/
def ibstaCodes (k : Consts) : List Int :=
  [ k.DCAS, k.DTAS, k.LACS, k.TACS, k.ATN, k.CIC, k.REM, k.LOK, k.CMPL, k.EVENT, k.SPOLL,
    k.RQS, k.SRQI, k.END, k.TIMO, k.ERR ]

/-- The map literal `ibstaStrings`. -/
def ibstaStrings (k : Consts) : List (Int × String) :=
  [ (k.DCAS, "DCAS"), (k.DTAS, "DTAS"), (k.LACS, "LACS"), (k.TACS, "TACS"), (k.ATN, "ATN"),
    (k.CIC, "CIC"), (k.REM, "REM"), (k.LOK, "LOK"), (k.CMPL, "CMPL"), (k.EVENT, "EVENT"),
    (k.SPOLL, "SPOLL"), (k.RQS, "RQS"), (k.SRQI, "SRQI"), (k.END, "END"), (k.TIMO, "TIMO"),
    (k.ERR, "ERR") ]

/-- Go `internal.FormatIbsta`: the loop runs over `ibstaCodes` from its last
entry down to its first, appends the name of every code with
`ibsta&code != 0`, and the names are joined by single spaces. A map lookup
that finds nothing yields the empty string. -/
def FormatIbsta (k : Consts) (ibsta : Int) : String :=
  String.intercalate " "
    (((ibstaCodes k).reverse.filter (fun code => decide (Int.land ibsta code ≠ 0))).map
      (fun code => ((ibstaStrings k).lookup code).getD ""))

/-- The table literal that `internal.FormatIblines` ranges over: the valid bit
of a bus line, its state bit, and its name when the state bit is clear and
when it is set. -/
def iblinesTable : List (Int × Int × String × String) :=
  [ (0x80, 0x8000, "eoi", "EOI"),
    (0x40, 0x4000, "atn", "ATN"),
    (0x20, 0x2000, "srq", "SRQ"),
    (0x10, 0x1000, "ren", "REN"),
    (0x8, 0x800, "ifc", "IFC"),
    (0x4, 0x400, "nrfd", "NRFD"),
    (0x2, 0x200, "ndac", "NDAC"),
    (0x1, 0x100, "dav", "DAV") ]

/-- Go `internal.FormatIblines`. The slice `s` starts with
`strconv.FormatInt(int64(iblines), 16)`, a function of the standard library
that is the parameter `hex`; the loop appends a name for every line whose
valid bit is set; then comes the test `len(s) == 0`, and the join by single
spaces. -/
def FormatIblines (hex : Int → String) (iblines : Int) : String :=
  let s := [hex iblines] ++
    (iblinesTable.filter (fun l => decide (Int.land l.1 iblines ≠ 0))).map
      (fun l => if Int.land l.2.1 iblines = 0 then l.2.2.1 else l.2.2.2)
  if s.length = 0 then "unavailable" else String.intercalate " " s

/-! ## Package `internal`: timeout quantisation -/

/-- The table literal that `internal.Timeout` ranges over: threshold `D` and
constant `C`. -/
def timeoutTable (k : Consts) : List (Duration × Int) :=
  [ (0, k.TNONE),
    (10 * Microsecond, k.T10us),
    (30 * Microsecond, k.T30us),
    (100 * Microsecond, k.T100us),
    (300 * Microsecond, k.T300us),
    (1 * Millisecond, k.T1ms),
    (3 * Millisecond, k.T3ms),
    (10 * Millisecond, k.T10ms),
    (30 * Millisecond, k.T30ms),
    (100 * Millisecond, k.T100ms),
    (300 * Millisecond, k.T300ms),
    (1 * Second, k.T1s),
    (3 * Second, k.T3s),
    (10 * Second, k.T10s),
    (30 * Second, k.T30s),
    (100 * Second, k.T100s),
    (300 * Second, k.T300s) ]

/-- Go `internal.Timeout`: the constant of the first table row with
`d <= c.D`, and `T1000s` when the loop falls through. -/
def Timeout (k : Consts) (d : Duration) : Int :=
  match (timeoutTable k).find? (fun c => decide (d ≤ c.1)) with
  | some c => c.2
  | none => k.T1000s

/-- What each timeout constant stands for, from the comments of
`internal/const.go` ("Timeout of 10 usec (ideal)", ..., "Timeout of 1000 sec
(maximum)"): the ladder of finite magnitudes with their constants. -/
def ladder (k : Consts) : List (Duration × Int) :=
  [ (10 * Microsecond, k.T10us),
    (30 * Microsecond, k.T30us),
    (100 * Microsecond, k.T100us),
    (300 * Microsecond, k.T300us),
    (1 * Millisecond, k.T1ms),
    (3 * Millisecond, k.T3ms),
    (10 * Millisecond, k.T10ms),
    (30 * Millisecond, k.T30ms),
    (100 * Millisecond, k.T100ms),
    (300 * Millisecond, k.T300ms),
    (1 * Second, k.T1s),
    (3 * Second, k.T3s),
    (10 * Second, k.T10s),
    (30 * Second, k.T30s),
    (100 * Second, k.T100s),
    (300 * Second, k.T300s),
    (1000 * Second, k.T1000s) ]

/-- The meaning of every timeout constant: `TNONE` is "Infinite timeout
(disabled)" (`none`), the others are the finite magnitudes of `ladder`. -/
def denoted (k : Consts) : List (Option Duration × Int) :=
  (none, k.TNONE) :: (ladder k).map (fun e => (some e.1, e.2))

/-- A timeout of magnitude `m` (`none` = infinite) is not shorter than `d`. -/
def NotShorter (m : Option Duration) (d : Duration) : Prop :=
  match m with
  | none => True
  | some x => d ≤ x

instance (m : Option Duration) (d : Duration) : Decidable (NotShorter m d) := by
  unfold NotShorter
  cases m <;> infer_instance

/-! ## Package `linuxgpib`: options -/

/-- Go `options`. The logger and the activity callback are external objects
and are identified by a name; `none` is the nil value. `readEOS` is the byte
sequence of the Go string. -/
structure options where
  timeout : Duration
  readEOS : List Nat
  logger : Option Nat
  activity : Option Nat
deriving DecidableEq

/-- Go `defaultTimeout`. -/
def defaultTimeout : Duration := 10 * Second

/-- Go `newOptions`. -/
def newOptions : options :=
  { timeout := defaultTimeout, readEOS := [], logger := none, activity := none }

/-- Go `cloneOptions`: a copy of the struct. -/
def cloneOptions (o : options) : options := o

/-- Go `Option`, a `func(*options)`. The type `options` is unexported, so the
values a client can build are those of the four constructors `Log`,
`Timeout`, `ReadEOS` and `Activity`. -/
inductive Opt where
  | Log (l : Option Nat)
  | Timeout (d : Duration)
  | ReadEOS (char : List Nat)
  | Activity (f : Option Nat)
deriving DecidableEq

/-- Calling an `Option` on an `options` value. -/
def Opt.apply : Opt → options → options
  | .Log l, o => { o with logger := l }
  | .Timeout d, o => { o with timeout := d }
  | .ReadEOS char, o => { o with readEOS := char }
  | .Activity f, o => { o with activity := f }

/-- The loop `for _, opt := range opts { opt(o) }`. -/
def applyOpts (opts : List Opt) (o : options) : options :=
  opts.foldl (fun acc opt => opt.apply acc) o

/-! ## Go maps of type `map[int]bool`

`activeBoards` and `Board.activeDevices` only ever store the value `true`
and delete keys, so a map is the list of its keys. -/

/-- Go `m[key]` on a `map[int]bool`. -/
def mapGet (m : List Int) (key : Int) : Bool := decide (key ∈ m)

/-- Go `m[key] = true`. -/
def mapSet (m : List Int) (key : Int) : List Int :=
  if key ∈ m then m else m ++ [key]

/-- Go `delete(m, key)`. -/
def mapDelete (m : List Int) (key : Int) : List Int :=
  m.filter (fun x => decide (x ≠ key))

/-! ## Package `linuxgpib`: boards, devices and the world -/

/-- Go `Board`. -/
structure Board where
  index : Int
  options : options
  activeDevices : List Int
deriving DecidableEq

/-- Go `Device`. The field `board` is the `*Board` pointer, an address in
`World.boards`. -/
structure Device where
  addr : Int
  board : Nat
  ud : Int
  options : options
  isClosed : Bool
deriving DecidableEq

/-- What an operation does to its surroundings: a call into the C library
(named as in `internal/ib.go`, with the arguments passed), an invocation of
an activity callback, or a `time.Sleep`. -/
inductive Event where
  | Ibvers
  | Ibsre (ud v : Int)
  | Ibdev (board_index pad sad timo send_eoi eosmode : Int)
  | Ibclr (ud : Int)
  | Iblines (ud : Int)
  | Ibonl (ud onl : Int)
  | Ibrd (ud : Int) (len : Nat)
  | Ibtmo (ud v : Int)
  | Ibrsp (ud : Int)
  | Ibtrg (ud : Int)
  | Ibwrt (ud : Int) (buf : List Nat)
  | Ibsic (ud : Int)
  | Ibln (ud pad sad : Int)
  | activity (f : Nat) (busy : Bool)
  | Sleep (d : Duration)
deriving DecidableEq

/-- The event is a call into the low-level adapter. -/
def Event.isAdapterCall : Event → Bool
  | .activity _ _ => false
  | .Sleep _ => false
  | _ => true

/-- The event is an invocation of an activity callback. -/
def Event.isActivity : Event → Bool
  | .activity _ _ => true
  | _ => false

/-- What the C library answers to one call: the function's return value, the
value it writes through its out-parameter (`line_status`, `found_listener`,
`spr`), and the global registers after the call. -/
structure Reply where
  ret : Int
  out : Int
  regs : Regs
deriving DecidableEq

/-- The state of the process and of its surroundings.

* `activeBoards` is the package variable of that name.
* `boards`/`devices` hold the `Board`/`Device` objects allocated so far, at
  the addresses below `nboards`/`ndevices`.
* `regs` are the C library's global registers.
* `adapter` is what the C library will answer to its `calls`-th call, and
  `clock` what the `ticks`-th reading of `time.Now()` will return.
* `trace` lists the events so far, oldest first. -/
structure World where
  activeBoards : List Int
  boards : Nat → Board
  nboards : Nat
  devices : Nat → Device
  ndevices : Nat
  regs : Regs
  adapter : Nat → Reply
  calls : Nat
  clock : Nat → Int
  ticks : Nat
  trace : List Event

/-- Record an event that has no answer. -/
def World.emit (w : World) (e : Event) : World :=
  { w with trace := w.trace ++ [e] }

/-- A call into the C library: the call is recorded, the next answer of the
adapter is taken, and the global registers are overwritten. -/
def World.call (w : World) (e : Event) : Reply × World :=
  (w.adapter w.calls,
   { w with regs := (w.adapter w.calls).regs, calls := w.calls + 1, trace := w.trace ++ [e] })

/-- Go `time.Now()`, in nanoseconds. -/
def World.now (w : World) : Int × World :=
  (w.clock w.ticks, { w with ticks := w.ticks + 1 })

/-- Assignment through a `*Board`. -/
def World.setBoard (w : World) (b : Nat) (v : Board) : World :=
  { w with boards := Function.update w.boards b v }

/-- Assignment through a `*Device`. -/
def World.setDevice (w : World) (h : Nat) (v : Device) : World :=
  { w with devices := Function.update w.devices h v }

/-- The block
`if o.activity != nil { o.activity(true); defer o.activity(false) }`
followed by `body`: the deferred call runs when `body` is left, whatever it
returns. -/
def withActivity {α : Type} (activity : Option Nat) (body : World → α × World)
    (w : World) : α × World :=
  match activity with
  | none => body w
  | some f =>
    ((body (w.emit (Event.activity f true))).1,
     (body (w.emit (Event.activity f true))).2.emit (Event.activity f false))

/-- How a Go call ends: it returns a value, or it panics. -/
inductive Outcome (α : Type) where
  | ret (a : α)
  | panic
deriving DecidableEq

/-- The error `errors.New("already closed")`. -/
def alreadyClosed : Error := Error.errorString "already closed"

/-- Go `NewBoard`; the result is the address of the new `Board`. -/
def NewBoard (index : Int) (opts : List Opt) (w : World) : Except Error Nat × World :=
  if mapGet w.activeBoards index then
    (Except.error (Error.errorString ("board in use: " ++ toString index)), w)
  else
    (Except.ok w.nboards,
     { ({ w with activeBoards := mapSet w.activeBoards index }.emit Event.Ibvers) with
       boards := Function.update w.boards w.nboards
         { index := index, options := applyOpts opts newOptions, activeDevices := [] },
       nboards := w.nboards + 1 })

/-- The `switch len(o.readEOS)` of `Board.NewDevice`: the `eos` argument of
`Ibdev`, or `none` where the source returns "invalid read eos". -/
def eosMode (k : Consts) (readEOS : List Nat) : Option Int :=
  match readEOS with
  | [] => some 0
  | [c] => some (Int.lor (Int.lor k.BIN k.REOS) (c : Int))
  | _ => none

/-- The part of `Board.NewDevice` from "Open the device" on: the `Ibdev`
call, the check of the unit descriptor, and the bookkeeping. -/
def openDevice (k : Consts) (b : Nat) (addr : Int) (o : options) (eos : Int)
    (w : World) : Except Error Nat × World :=
  let c := w.call (Event.Ibdev (w.boards b).index (k.GetPAD addr) (k.GetSAD addr)
    (Timeout k o.timeout) 1 eos)
  if c.1.ret = -1 then
    match Err k c.2.regs c.2.regs.ibsta with
    | some err => (Except.error err, c.2)
    | none => (Except.error (Error.errorString "ibdev failed without setting an error"), c.2)
  else
    (Except.ok c.2.ndevices,
     { (c.2.setBoard b
          { c.2.boards b with activeDevices := mapSet (c.2.boards b).activeDevices addr }) with
       devices := Function.update c.2.devices c.2.ndevices
         { addr := addr, board := b, ud := c.1.ret, options := o, isClosed := false },
       ndevices := c.2.ndevices + 1 })

/-- Go `(*Board).NewDevice`; `b` is the receiver and the result is the
address of the new `Device`. -/
def Board.NewDevice (k : Consts) (b : Nat) (addr : Int) (opts : List Opt)
    (w : World) : Except Error Nat × World :=
  let o := applyOpts opts (cloneOptions (w.boards b).options)
  match eosMode k o.readEOS with
  | none =>
    (Except.error (Error.errorString "invalid read eos: must be a single character"), w)
  | some eos =>
    if mapGet (w.boards b).activeDevices addr then
      (Except.error (Error.errorString ("device already in use: " ++ toString addr)), w)
    else
      withActivity (w.boards b).options.activity (fun w1 =>
        if (w1.boards b).activeDevices.length = 0 then
          let c := w1.call (Event.Ibsre (w1.boards b).index 1)
          match Err k c.2.regs c.1.ret with
          | some _ => (Except.error (Error.errorString "ibsre failed"), c.2)
          | none => openDevice k b addr o eos c.2
        else
          openDevice k b addr o eos w1) w

/-- The `for` loop of `Device.Clear` for the device `d`, with `cleared` the
time taken before the loop. `fuel` bounds the number of iterations; `none`
means the loop is still running when the fuel is used up. -/
def clearLoop (k : Consts) (d : Device) (cleared : Int) :
    Nat → World → Option (Option Error × World)
  | 0, _ => none
  | fuel + 1, w =>
    let c := (w.emit (Event.Sleep (50 * Millisecond))).call
      (Event.Iblines (w.boards d.board).index)
    match Err k c.2.regs c.1.ret with
    | some err => some (some err, c.2)
    | none =>
      if Int.land c.1.out k.ValidNRFD = 0 then
        some (none, c.2.emit (Event.Sleep (1 * Second)))
      else if Int.land c.1.out k.BusNRFD = 0 then
        some (none, c.2)
      else if d.options.timeout ≠ 0 then
        if c.2.now.1 - cleared > d.options.timeout then
          some (some Error.TimeoutErr, c.2.now.2)
        else
          clearLoop k d cleared fuel c.2.now.2
      else
        clearLoop k d cleared fuel c.2

/-- Go `(*Device).Clear` on the device at address `h`. `none` means the
polling loop does not end within `fuel` iterations; the deferred activity
call then has not run. -/
def Device.Clear (k : Consts) (fuel : Nat) (h : Nat) (w : World) :
    Option (Option Error × World) :=
  let d := w.devices h
  if d.isClosed then
    some (some alreadyClosed, w)
  else
    let w1 := match d.options.activity with
      | none => w
      | some f => w.emit (Event.activity f true)
    let fin : Option Error × World → Option Error × World := fun r =>
      match d.options.activity with
      | none => r
      | some f => (r.1, r.2.emit (Event.activity f false))
    let c := w1.call (Event.Ibclr d.ud)
    match Err k c.2.regs c.1.ret with
    | some err => some (fin (some err, c.2))
    | none =>
      match clearLoop k d c.2.now.1 fuel c.2.now.2 with
      | none => none
      | some r => some (fin r)

/-- Go `(*Device).Close`. -/
def Device.Close (k : Consts) (h : Nat) (w : World) : Option Error × World :=
  let d := w.devices h
  if d.isClosed then
    (some alreadyClosed, w)
  else
    withActivity d.options.activity (fun w1 =>
      let w2 := w1.setDevice h { w1.devices h with isClosed := true }
      let w3 := w2.setBoard d.board
        { w2.boards d.board with
          activeDevices := mapDelete (w2.boards d.board).activeDevices d.addr }
      let c := w3.call (Event.Ibonl d.ud 0)
      match Err k c.2.regs c.1.ret with
      | some err => (some err, c.2)
      | none =>
        if (c.2.boards d.board).activeDevices.length = 0 then
          let c2 := c.2.call (Event.Ibsre (c.2.boards d.board).index 0)
          match Err k c2.2.regs c2.1.ret with
          | some _ => (some (Error.errorString "ibsre failed"), c2.2)
          | none => (none, c2.2)
        else
          (none, c.2)) w

/-- Go `(*Device).Read` into a buffer of length `len` and capacity `cap`;
the result is `(n, err)`. `Ibrd` takes `&buf[0]`, which panics on an empty
buffer, and the success branch evaluates `b[:n]`, which panics unless
`0 <= n <= cap(b)`. -/
def Device.Read (k : Consts) (h : Nat) (len cap : Nat) (w : World) :
    Outcome (Int × Option Error) × World :=
  let d := w.devices h
  if d.isClosed then
    (Outcome.ret (0, some alreadyClosed), w)
  else
    withActivity d.options.activity (fun w1 =>
      if len = 0 then
        (Outcome.panic, w1)
      else
        let c := w1.call (Event.Ibrd d.ud len)
        match Err k c.2.regs c.1.ret with
        | some err => (Outcome.ret (c.2.regs.ibcnt, some err), c.2)
        | none =>
          if 0 ≤ c.2.regs.ibcnt ∧ c.2.regs.ibcnt ≤ (cap : Int) then
            (Outcome.ret (c.2.regs.ibcnt, none), c.2)
          else
            (Outcome.panic, c.2)) w

/-- Go `(*Device).SetTimeout`. -/
def Device.SetTimeout (k : Consts) (h : Nat) (t : Duration) (w : World) :
    Option Error × World :=
  let d := w.devices h
  if d.isClosed then
    (some alreadyClosed, w)
  else
    withActivity d.options.activity (fun w1 =>
      let c := w1.call (Event.Ibtmo d.ud (Timeout k t))
      match Err k c.2.regs c.1.ret with
      | some err => (some err, c.2)
      | none => (none, c.2)) w

/-- Go `(*Device).Spoll`; the result is `(spr, err)`. -/
def Device.Spoll (k : Consts) (h : Nat) (w : World) : (Int × Option Error) × World :=
  let d := w.devices h
  if d.isClosed then
    ((0, some alreadyClosed), w)
  else
    withActivity d.options.activity (fun w1 =>
      let c := w1.call (Event.Ibrsp d.ud)
      match Err k c.2.regs c.1.ret with
      | some err => ((0, some err), c.2)
      | none => ((c.1.out, none), c.2)) w

/-- Go `(*Device).Trigger`. -/
def Device.Trigger (k : Consts) (h : Nat) (w : World) : Option Error × World :=
  let d := w.devices h
  if d.isClosed then
    (some alreadyClosed, w)
  else
    withActivity d.options.activity (fun w1 =>
      let c := w1.call (Event.Ibtrg d.ud)
      match Err k c.2.regs c.1.ret with
      | some err => (some err, c.2)
      | none => (none, c.2)) w

/-- Go `(*Device).Write`; the result is `(n, err)`. -/
def Device.Write (k : Consts) (h : Nat) (buf : List Nat) (w : World) :
    (Int × Option Error) × World :=
  let d := w.devices h
  if d.isClosed then
    ((0, some alreadyClosed), w)
  else
    withActivity d.options.activity (fun w1 =>
      let c := w1.call (Event.Ibwrt d.ud buf)
      ((c.2.regs.ibcnt, Err k c.2.regs c.1.ret), c.2)) w

/-- The loop `for i := 1; i <= 30; i++` of `Board.Enumerate`, with `n`
iterations left, the next address `i`, and the slice `ds` built so far. -/
def enumLoop (k : Consts) (index : Int) :
    Nat → Int → List Int → World → Except Error (List Int) × World
  | 0, _, ds, w => (Except.ok ds, w)
  | n + 1, i, ds, w =>
    let c := w.call (Event.Ibln index i 0)
    match Err k c.2.regs c.1.ret with
    | some err => (Except.error err, c.2)
    | none =>
      if c.1.out ≠ 0 then
        enumLoop k index n (i + 1) (ds ++ [i]) c.2
      else
        enumLoop k index n (i + 1) ds c.2

/-- Go `(*Board).Enumerate`. -/
def Board.Enumerate (k : Consts) (b : Nat) (w : World) :
    Except Error (List Int) × World :=
  withActivity (w.boards b).options.activity (fun w1 =>
    let c := w1.call (Event.Ibsic (w1.boards b).index)
    match Err k c.2.regs c.1.ret with
    | some err => (Except.error err, c.2)
    | none =>
      let c2 := c.2.call (Event.Iblines (c.2.boards b).index)
      match Err k c2.2.regs c2.1.ret with
      | some err => (Except.error err, c2.2)
      | none =>
        if Int.land c2.1.out k.ValidNDAC = 0 then
          (Except.error (Error.errorString "board does not support monitoring NDAC"), c2.2)
        else
          enumLoop k (c2.2.boards b).index 30 1 [] c2.2) w

/-- Go package-level `NewDevice`. -/
def NewDevice (k : Consts) (board addr : Int) (opts : List Opt) (w : World) :
    Except Error Nat × World :=
  match (NewBoard board opts w).1 with
  | Except.error err => (Except.error err, (NewBoard board opts w).2)
  | Except.ok b => Board.NewDevice k b addr [] (NewBoard board opts w).2

/-! ## Package `linuxgpib`: log lines -/

/-- Go `maxLogData`. -/
def maxLogData : Nat := 60

/-- Go `minLogHide`. -/
def minLogHide : Nat := 20

/-- Go `formatLog` on the bytes `b`. The verb `%q` of package `fmt` is the
standard library's quoting of a string; it is the parameter `quote`. `%d` of
`len(b)` is the decimal numeral. -/
def formatLog (quote : List Nat → String) (b : List Nat) : String :=
  if b.length > maxLogData then
    quote (b.take (maxLogData - minLogHide)) ++ "...(" ++ toString b.length ++ " bytes total)"
  else
    quote b

/-! ## Runs of the package -/

/-- The process before any operation: `activeBoards = map[int]bool{}`, no
object allocated, nothing done yet. The C library's registers, its answers
and the clock are arbitrary. -/
def World.init (regs : Regs) (adapter : Nat → Reply) (clock : Nat → Int) : World :=
  { activeBoards := []
    boards := fun _ => { index := 0, options := newOptions, activeDevices := [] }
    nboards := 0
    devices := fun _ =>
      { addr := 0, board := 0, ud := 0, options := newOptions, isClosed := false }
    ndevices := 0
    regs := regs
    adapter := adapter
    calls := 0
    clock := clock
    ticks := 0
    trace := [] }

/-- One completed call of an exported operation by a client. A client holds
only the `*Board` and `*Device` values that the package returned, so the
receivers are allocated addresses, and a Go slice has `len <= cap`. A call
of `Clear` whose loop never ends makes no step. -/
inductive Step (k : Consts) : World → World → Prop where
  | NewBoard (w : World) (index : Int) (opts : List Opt) :
      Step k w (NewBoard index opts w).2
  | NewDevice (w : World) (board addr : Int) (opts : List Opt) :
      Step k w (NewDevice k board addr opts w).2
  | BoardNewDevice (w : World) (b : Nat) (addr : Int) (opts : List Opt) :
      b < w.nboards → Step k w (Board.NewDevice k b addr opts w).2
  | Enumerate (w : World) (b : Nat) :
      b < w.nboards → Step k w (Board.Enumerate k b w).2
  | Clear (w : World) (fuel h : Nat) (r : Option Error × World) :
      h < w.ndevices → Device.Clear k fuel h w = some r → Step k w r.2
  | Close (w : World) (h : Nat) :
      h < w.ndevices → Step k w (Device.Close k h w).2
  | Read (w : World) (h len cap : Nat) :
      h < w.ndevices → len ≤ cap → Step k w (Device.Read k h len cap w).2
  | SetTimeout (w : World) (h : Nat) (t : Duration) :
      h < w.ndevices → Step k w (Device.SetTimeout k h t w).2
  | Spoll (w : World) (h : Nat) :
      h < w.ndevices → Step k w (Device.Spoll k h w).2
  | Trigger (w : World) (h : Nat) :
      h < w.ndevices → Step k w (Device.Trigger k h w).2
  | Write (w : World) (h : Nat) (buf : List Nat) :
      h < w.ndevices → Step k w (Device.Write k h buf w).2

/-- Any number of completed calls, one after the other. -/
def Steps (k : Consts) : World → World → Prop :=
  Relation.ReflTransGen (Step k)

/-- The worlds a process can be in. -/
def Reachable (k : Consts) (w : World) : Prop :=
  ∃ regs adapter clock, Steps k (World.init regs adapter clock) w

/-! ## Notions used in the statements -/

/-! A relation between the world before and the world after is a frame when
the elementary steps out of which the operations are built respect it. Every
operation other than `NewBoard` then respects it. -/

/-- The elementary steps of the operations on existing boards and devices. -/
structure IsFrame (R : World → World → Prop) : Prop where
  refl : ∀ w, R w w
  trans : ∀ {w v u}, R w v → R v u → R w u
  emit : ∀ w e, R w (w.emit e)
  call : ∀ w e, R w (w.call e).2
  now : ∀ w, R w w.now.2
  setActive : ∀ w b m, R w (w.setBoard b { w.boards b with activeDevices := m })
  setClosed : ∀ w h, R w (w.setDevice h { w.devices h with isClosed := true })
  newDev : ∀ w d, R w
    { w with devices := Function.update w.devices w.ndevices d, ndevices := w.ndevices + 1 }

/-- The registry and the identity of the boards are the same in both worlds. -/
def BoardsKept (w v : World) : Prop :=
  v.activeBoards = w.activeBoards ∧ v.nboards = w.nboards ∧
    ∀ b, (v.boards b).index = (w.boards b).index

/-- No device is lost and no closed device is open again. -/
def ClosedKept (w v : World) : Prop :=
  w.ndevices ≤ v.ndevices ∧
    ∀ h, h < w.ndevices → (w.devices h).isClosed = true → (v.devices h).isClosed = true

/-- Every allocated board has its index in the registry, and no two allocated
boards have the same index. -/
def BoardsWF (w : World) : Prop :=
  (∀ b, b < w.nboards → (w.boards b).index ∈ w.activeBoards) ∧
  (∀ b1 b2, b1 < w.nboards → b2 < w.nboards →
    (w.boards b1).index = (w.boards b2).index → b1 = b2)

/-- The events of an operation whose adapter calls are `es`, with the
activity callback `activity` invoked around them when there is one. -/
def bracket (activity : Option Nat) (es : List Event) : List Event :=
  match activity with
  | none => es
  | some f => [Event.activity f true] ++ es ++ [Event.activity f false]

/-- The error that `internal.Err` decodes from the answer of the adapter to
its `n`-th call (`none`: no error). -/
def errAt (k : Consts) (w : World) (n : Nat) : Option Error :=
  Err k (w.adapter n).regs (w.adapter n).ret

/-- The value that the adapter writes through the out-parameter of its `n`-th
call. -/
def outAt (w : World) (n : Nat) : Int :=
  (w.adapter n).out

/-- The `n`-th call of the adapter, taken as a bus-line query, succeeds and
reports NRFD valid and asserted. -/
def busyAt (k : Consts) (w : World) (n : Nat) : Prop :=
  errAt k w n = none ∧ Int.land (outAt w n) k.ValidNRFD ≠ 0 ∧
    Int.land (outAt w n) k.BusNRFD ≠ 0

instance (k : Consts) (w : World) (n : Nat) : Decidable (busyAt k w n) := by
  unfold busyAt
  infer_instance

/-- The events of `n` rounds of the polling loop of `Clear` that go on: the
50 ms sleep and the bus-line query of the board `index`. -/
def polls (index : Int) : Nat → List Event
  | 0 => []
  | n + 1 => Event.Sleep (50 * Millisecond) :: Event.Iblines index :: polls index n

/-- The listener probes of the board `index` at the primary addresses
`1, 2, ..., n`, in that order, with secondary address 0. -/
def probes (index : Int) (n : Nat) : List Event :=
  (List.range n).map (fun (j : Nat) => Event.Ibln index (1 + (j : Int)) 0)

/-- The primary addresses among `1, ..., n` whose probe signalled a listener,
when the probe of address `j + 1` is the call number `base + j` of the
adapter. -/
def listeners (w : World) (base n : Nat) : List Int :=
  ((List.range n).filter (fun j => decide (outAt w (base + j) ≠ 0))).map
    (fun (j : Nat) => 1 + (j : Int))

/-- The world in which the body of an operation starts: the activity callback
`activity`, when there is one, has been invoked with true. -/
def entered (activity : Option Nat) (w : World) : World :=
  match activity with
  | none => w
  | some f => w.emit (Event.activity f true)

/-- The world in which an operation ends when its body ends in `w`: the
deferred call of the activity callback, when there is one, has run. -/
def departed (activity : Option Nat) (w : World) : World :=
  match activity with
  | none => w
  | some f => w.emit (Event.activity f false)

/-- From `w` to `v` events were added, none of them an invocation of an
activity callback. -/
def Quiet (w v : World) : Prop :=
  ∃ es, v.trace = w.trace ++ es ∧ ∀ e ∈ es, Event.isActivity e = false

/-- From `w` to `v` the callback `f` was invoked with true, then events were
added that are not invocations of an activity callback, then `f` was invoked
with false, and that is all that was added. -/
def Bracketed (f : Nat) (w v : World) : Prop :=
  ∃ es, v.trace = w.trace ++ [Event.activity f true] ++ es ++ [Event.activity f false] ∧
    ∀ e ∈ es, Event.isActivity e = false

deriving instance DecidableEq for Except

/-- The elementary steps of the operations that only talk to the adapter:
they assign to no board and to no device. -/
structure IsPassive (R : World → World → Prop) : Prop where
  refl : ∀ w, R w w
  trans : ∀ {w v u}, R w v → R v u → R w u
  emit : ∀ w e, R w (w.emit e)
  call : ∀ w e, R w (w.call e).2
  now : ∀ w, R w w.now.2

/-- The registry, the boards and the devices are the same in both worlds. -/
def SameHeap (w v : World) : Prop :=
  v.activeBoards = w.activeBoards ∧ v.boards = w.boards ∧ v.nboards = w.nboards ∧
    v.devices = w.devices ∧ v.ndevices = w.ndevices

/-- The bookkeeping of boards and devices is consistent: every device points
to an allocated board; the active set of every allocated board holds exactly
the addresses of the devices of that board that are not closed; and no two
open devices of one board have the same address. -/
def Bookkeeping (w : World) : Prop :=
  (∀ h, h < w.ndevices → (w.devices h).board < w.nboards) ∧
  (∀ b a, b < w.nboards →
    (a ∈ (w.boards b).activeDevices ↔
      ∃ h, h < w.ndevices ∧ (w.devices h).board = b ∧ (w.devices h).addr = a ∧
        (w.devices h).isClosed = false)) ∧
  (∀ h1 h2, h1 < w.ndevices → h2 < w.ndevices →
    (w.devices h1).board = (w.devices h2).board →
    (w.devices h1).addr = (w.devices h2).addr →
    (w.devices h1).isClosed = false → (w.devices h2).isClosed = false → h1 = h2)

/-- What a successful `Board.NewDevice` at `addr` on the board `b` does to the
boards and devices: the address joins the active set of `b`, and a new open
device of `b` at `addr` is allocated at the next free address. -/
def Opened (b : Nat) (addr : Int) (w v : World) : Prop :=
  v.activeBoards = w.activeBoards ∧ v.nboards = w.nboards ∧ v.ndevices = w.ndevices + 1 ∧
  v.boards = Function.update w.boards b
    { w.boards b with activeDevices := mapSet (w.boards b).activeDevices addr } ∧
  ∃ d : Device, d.addr = addr ∧ d.board = b ∧ d.isClosed = false ∧
    v.devices = Function.update w.devices w.ndevices d

/-- What `Close` on the open device `h` does to the boards and devices: the
device is marked closed and its address leaves the active set of its board. -/
def ClosedOff (h : Nat) (w v : World) : Prop :=
  v.activeBoards = w.activeBoards ∧ v.nboards = w.nboards ∧ v.ndevices = w.ndevices ∧
  v.devices = Function.update w.devices h { w.devices h with isClosed := true } ∧
  v.boards = Function.update w.boards (w.devices h).board
    { w.boards (w.devices h).board with
      activeDevices :=
        mapDelete (w.boards (w.devices h).board).activeDevices (w.devices h).addr }

/-- Go `strconv.FormatInt(x, 16)`: the lower-case hexadecimal numeral, with a
minus sign for a negative number. -/
def formatInt16 (x : Int) : String :=
  if x < 0 then "-" ++ String.mk (Nat.toDigits 16 x.natAbs)
  else String.mk (Nat.toDigits 16 x.natAbs)

/-- The bytes of a text of ASCII characters. -/
def bytes (s : String) : List Nat :=
  s.toList.map Char.toNat

/-- Go `%q` on bytes that are printable ASCII other than the double quote and
the backslash: the text between two double quotes. -/
def quotePrintable (b : List Nat) : String :=
  String.singleton (Char.ofNat 34) ++ String.mk (b.map Char.ofNat) ++
    String.singleton (Char.ofNat 34)

/-! ## Concrete runs, used to instantiate the theorems -/

/-- An adapter that answers every call with `CMPL` and no error. -/
def okAdapter : Nat → Reply :=
  fun _ => { ret := 0x100, out := 0, regs := { ibsta := 0x100, iberr := 0, ibcnt := 0 } }

/-- An adapter that answers its first two calls with success and every later
call with `ERR` and `iberr = ENOL`. -/
def flakyAdapter : Nat → Reply :=
  fun n =>
    if n < 2 then { ret := 0x100, out := 0, regs := { ibsta := 0x100, iberr := 0, ibcnt := 0 } }
    else { ret := 0x8000, out := 0, regs := { ibsta := 0x8000, iberr := 2, ibcnt := 0 } }

/-- The registry after `NewBoard(0)` then `NewBoard(1)` from the start. -/
def twoBoards : World :=
  (NewBoard 1 [] (NewBoard 0 [] (World.init ⟨0, 0, 0⟩ okAdapter (fun n => n))).2).2

/-- Board 0 with one device, at address 5, over an adapter that never fails. -/
def oneDevice : World :=
  (Board.NewDevice gpibUser 0 5 []
    (NewBoard 0 [] (World.init ⟨0, 0, 0⟩ okAdapter (fun n => n))).2).2

/-- Board 0 with two devices, at addresses 5 and 6, the second with an
activity callback of its own. -/
def twoDevices : World :=
  (Board.NewDevice gpibUser 0 6 [Opt.Activity (some 9)] oneDevice).2

/-- Board 0 with one device, at address 5, over an adapter that fails from
its third call on: the next call, the `Ibonl` of `Close`, reports an error. -/
def offlineFails : World :=
  (Board.NewDevice gpibUser 0 5 []
    (NewBoard 0 [] (World.init ⟨0, 0, 0⟩ flakyAdapter (fun n => n))).2).2

/-- Board 0, claimed without options, and no device yet. -/
def plainBoard : World :=
  (NewBoard 0 [] (World.init ⟨0, 0, 0⟩ okAdapter (fun n => n))).2

/-- Board 0, claimed with the activity callback 7, and no device yet. -/
def lampBoard : World :=
  (NewBoard 0 [Opt.Activity (some 7)] (World.init ⟨0, 0, 0⟩ okAdapter (fun n => n))).2

/-- An adapter for a bus scan: the second call (the bus-line query) reports
all lines valid, and the calls number 6 and 10 (the probes of the addresses 5
and 9) signal a listener; every call succeeds. -/
def scanAdapter : Nat → Reply :=
  fun n =>
    { ret := 0x100
      out := if n = 1 then 0xff else if n = 6 ∨ n = 10 then 1 else 0
      regs := { ibsta := 0x100, iberr := 0, ibcnt := 0 } }

/-- Board 0 over `scanAdapter`, no device. -/
def scanBoard : World :=
  (NewBoard 0 [] (World.init ⟨0, 0, 0⟩ scanAdapter (fun n => n))).2

/-- An adapter like `scanAdapter` except that the call number 16 (the probe of
address 15) reports `ERR` with `iberr = ENOL`. -/
def brokenScanAdapter : Nat → Reply :=
  fun n =>
    if n = 16 then { ret := 0x8000, out := 0, regs := { ibsta := 0x8000, iberr := 2, ibcnt := 0 } }
    else scanAdapter n

/-- Board 0 over `brokenScanAdapter`, no device. -/
def brokenScanBoard : World :=
  (NewBoard 0 [] (World.init ⟨0, 0, 0⟩ brokenScanAdapter (fun n => n))).2

/-- An adapter whose bus-line queries report NRFD valid and asserted (0x404)
and whose calls all succeed. -/
def busyAdapter : Nat → Reply :=
  fun _ => { ret := 0x100, out := 0x404, regs := { ibsta := 0x100, iberr := 0, ibcnt := 0 } }

/-- Board 0 with one device at address 5, opened with a timeout of 120 ms,
over `busyAdapter` and a clock that advances 50 ms per reading. -/
def busyDevice : World :=
  (Board.NewDevice gpibUser 0 5 [Opt.Timeout (120 * Millisecond)]
    (NewBoard 0 [] (World.init ⟨0, 0, 0⟩ busyAdapter (fun n => 50 * Millisecond * n))).2).2

/-- Board 0 with one device at address 5, opened with the timeout 0 and the
activity callback 9, over `busyAdapter`. -/
def patientDevice : World :=
  (Board.NewDevice gpibUser 0 5 [Opt.Timeout 0, Opt.Activity (some 9)]
    (NewBoard 0 [] (World.init ⟨0, 0, 0⟩ busyAdapter (fun n => 50 * Millisecond * n))).2).2

/-- An adapter that reports `ERR` with `iberr = ENOL` to every call. -/
def errAdapter : Nat → Reply :=
  fun _ => { ret := 0x8000, out := 0, regs := { ibsta := 0x8000, iberr := 2, ibcnt := 0 } }

/-- Board 0, claimed with the activity callback 7, over `errAdapter`. -/
def deadBoard : World :=
  (NewBoard 0 [Opt.Activity (some 7)] (World.init ⟨0, 0, 0⟩ errAdapter (fun n => n))).2

/-- An adapter whose first call succeeds and whose later calls return -1 and
report `ERR` with `iberr = ENOL`: after a successful `Ibsre`, `Ibdev` fails. -/
def openFailsAdapter : Nat → Reply :=
  fun n =>
    if n = 0 then { ret := 0x100, out := 0, regs := { ibsta := 0x100, iberr := 0, ibcnt := 0 } }
    else { ret := -1, out := 0, regs := { ibsta := 0x8000, iberr := 2, ibcnt := 0 } }

/-- The process before any operation, over `openFailsAdapter`. -/
def openFailsStart : World :=
  World.init ⟨0, 0, 0⟩ openFailsAdapter (fun n => n)

/-- Board 0, claimed with the activity callback 7, over `openFailsAdapter`. -/
def openFailsBoard : World :=
  (NewBoard 0 [Opt.Activity (some 7)] openFailsStart).2

/-! ## Frame lemmas -/

theorem IsFrame.bracketed {R : World → World → Prop} (hR : IsFrame R) {α : Type}
    (a : Option Nat) (body : World → α × World) (hb : ∀ w, R w (body w).2) (w : World) :
    R w (withActivity a body w).2 := by
  cases a with
  | none => exact hb w
  | some f => exact hR.trans (hR.trans (hR.emit w _) (hb _)) (hR.emit _ _)

theorem IsFrame.opens {R : World → World → Prop} (hR : IsFrame R) (k : Consts)
    (b : Nat) (addr : Int) (o : options) (eos : Int) (w : World) :
    R w (openDevice k b addr o eos w).2 := by
  unfold Linuxgpib.openDevice
  dsimp only
  split
  · split
    · exact hR.call _ _
    · exact hR.call _ _
  · exact hR.trans (hR.call _ _) (hR.trans (hR.setActive _ b _) (hR.newDev _ _))

theorem IsFrame.boardNewDevice {R : World → World → Prop} (hR : IsFrame R) (k : Consts)
    (b : Nat) (addr : Int) (opts : List Opt) (w : World) :
    R w (Board.NewDevice k b addr opts w).2 := by
  unfold Board.NewDevice
  dsimp only
  split
  · exact hR.refl w
  · split
    · exact hR.refl w
    · apply hR.bracketed
      intro w1
      dsimp only
      split
      · split
        · exact hR.call _ _
        · exact hR.trans (hR.call _ _) (hR.opens _ _ _ _ _ _)
      · exact hR.opens _ _ _ _ _ _

theorem IsFrame.clearPolls {R : World → World → Prop} (hR : IsFrame R) (k : Consts)
    (d : Device) (cleared : Int) (fuel : Nat) :
    ∀ (w : World) (r : Option Error × World),
      clearLoop k d cleared fuel w = some r → R w r.2 := by
  induction fuel with
  | zero => intro w r h; simp [Linuxgpib.clearLoop] at h
  | succ n ih =>
    intro w r h
    unfold Linuxgpib.clearLoop at h
    dsimp only at h
    have hc : R w ((w.emit (Event.Sleep (50 * Millisecond))).call
        (Event.Iblines (w.boards d.board).index)).2 :=
      hR.trans (hR.emit _ _) (hR.call _ _)
    split at h
    · cases h; exact hc
    · split at h
      · cases h; exact hR.trans hc (hR.emit _ _)
      · split at h
        · cases h; exact hc
        · split at h
          · split at h
            · cases h; exact hR.trans hc (hR.now _)
            · exact hR.trans (hR.trans hc (hR.now _)) (ih _ _ h)
          · exact hR.trans hc (ih _ _ h)

theorem IsFrame.clears {R : World → World → Prop} (hR : IsFrame R) (k : Consts)
    (fuel h : Nat) (w : World) (r : Option Error × World)
    (hr : Device.Clear k fuel h w = some r) : R w r.2 := by
  unfold Device.Clear at hr
  dsimp only at hr
  split at hr
  · cases hr; exact hR.refl w
  · have h1 : R w (match (w.devices h).options.activity with
        | none => w
        | some f => w.emit (Event.activity f true)) := by
      split
      · exact hR.refl w
      · exact hR.emit _ _
    have hfin : ∀ x : Option Error × World, R x.2
        (match (w.devices h).options.activity with
          | none => x
          | some f => (x.1, x.2.emit (Event.activity f false))).2 := by
      intro x
      split
      · exact hR.refl _
      · exact hR.emit _ _
    split at hr
    · cases hr
      exact hR.trans (hR.trans h1 (hR.call _ _)) (hfin (_, _))
    · split at hr
      · cases hr
      · rename_i x hx
        cases hr
        exact hR.trans (hR.trans (hR.trans (hR.trans h1 (hR.call _ _)) (hR.now _))
          (hR.clearPolls _ _ _ _ _ _ hx)) (hfin _)

theorem IsFrame.closes {R : World → World → Prop} (hR : IsFrame R) (k : Consts)
    (h : Nat) (w : World) : R w (Device.Close k h w).2 := by
  unfold Device.Close
  dsimp only
  split
  · exact hR.refl w
  · apply hR.bracketed
    intro w1
    have h3 : R w1 (((w1.setDevice h { w1.devices h with isClosed := true }).setBoard
        (w.devices h).board
        { (w1.setDevice h { w1.devices h with isClosed := true }).boards (w.devices h).board with
          activeDevices := mapDelete
            ((w1.setDevice h { w1.devices h with isClosed := true }).boards
              (w.devices h).board).activeDevices (w.devices h).addr }).call
        (Event.Ibonl (w.devices h).ud 0)).2 :=
      hR.trans (hR.trans (hR.setClosed _ _) (hR.setActive _ _ _)) (hR.call _ _)
    split
    · exact h3
    · split
      · split
        · exact hR.trans h3 (hR.call _ _)
        · exact hR.trans h3 (hR.call _ _)
      · exact h3

theorem IsFrame.reads {R : World → World → Prop} (hR : IsFrame R) (k : Consts)
    (h len cap : Nat) (w : World) : R w (Device.Read k h len cap w).2 := by
  unfold Device.Read
  dsimp only
  split
  · exact hR.refl w
  · apply hR.bracketed
    intro w1
    dsimp only
    split
    · exact hR.refl _
    · split
      · exact hR.call _ _
      · split
        · exact hR.call _ _
        · exact hR.call _ _

theorem IsFrame.setsTimeout {R : World → World → Prop} (hR : IsFrame R) (k : Consts)
    (h : Nat) (t : Duration) (w : World) : R w (Device.SetTimeout k h t w).2 := by
  unfold Device.SetTimeout
  dsimp only
  split
  · exact hR.refl w
  · apply hR.bracketed
    intro w1
    dsimp only
    split
    · exact hR.call _ _
    · exact hR.call _ _

theorem IsFrame.polls {R : World → World → Prop} (hR : IsFrame R) (k : Consts)
    (h : Nat) (w : World) : R w (Device.Spoll k h w).2 := by
  unfold Device.Spoll
  dsimp only
  split
  · exact hR.refl w
  · apply hR.bracketed
    intro w1
    dsimp only
    split
    · exact hR.call _ _
    · exact hR.call _ _

theorem IsFrame.triggers {R : World → World → Prop} (hR : IsFrame R) (k : Consts)
    (h : Nat) (w : World) : R w (Device.Trigger k h w).2 := by
  unfold Device.Trigger
  dsimp only
  split
  · exact hR.refl w
  · apply hR.bracketed
    intro w1
    dsimp only
    split
    · exact hR.call _ _
    · exact hR.call _ _

theorem IsFrame.writes {R : World → World → Prop} (hR : IsFrame R) (k : Consts)
    (h : Nat) (buf : List Nat) (w : World) : R w (Device.Write k h buf w).2 := by
  unfold Device.Write
  dsimp only
  split
  · exact hR.refl w
  · apply hR.bracketed
    intro w1
    exact hR.call _ _

theorem IsFrame.probes {R : World → World → Prop} (hR : IsFrame R) (k : Consts)
    (index : Int) (n : Nat) :
    ∀ (i : Int) (ds : List Int) (w : World), R w (enumLoop k index n i ds w).2 := by
  induction n with
  | zero => intro i ds w; exact hR.refl w
  | succ n ih =>
    intro i ds w
    unfold Linuxgpib.enumLoop
    dsimp only
    split
    · exact hR.call _ _
    · split
      · exact hR.trans (hR.call _ _) (ih _ _ _)
      · exact hR.trans (hR.call _ _) (ih _ _ _)

theorem IsFrame.enumerates {R : World → World → Prop} (hR : IsFrame R) (k : Consts)
    (b : Nat) (w : World) : R w (Board.Enumerate k b w).2 := by
  unfold Board.Enumerate
  apply hR.bracketed
  intro w1
  dsimp only
  split
  · exact hR.call _ _
  · split
    · exact hR.trans (hR.call _ _) (hR.call _ _)
    · split
      · exact hR.trans (hR.call _ _) (hR.call _ _)
      · exact hR.trans (hR.trans (hR.call _ _) (hR.call _ _)) (hR.probes _ _ _ _ _ _)

theorem boardsKept_isFrame : IsFrame BoardsKept where
  refl := fun _ => ⟨rfl, rfl, fun _ => rfl⟩
  trans := fun h1 h2 =>
    ⟨h2.1.trans h1.1, h2.2.1.trans h1.2.1, fun b => (h2.2.2 b).trans (h1.2.2 b)⟩
  emit := fun _ _ => ⟨rfl, rfl, fun _ => rfl⟩
  call := fun _ _ => ⟨rfl, rfl, fun _ => rfl⟩
  now := fun _ => ⟨rfl, rfl, fun _ => rfl⟩
  setActive := by
    intro w b m
    refine ⟨rfl, rfl, fun c => ?_⟩
    by_cases hc : c = b
    · subst hc; simp [World.setBoard]
    · simp [World.setBoard, Function.update_noteq hc]
  setClosed := fun _ _ => ⟨rfl, rfl, fun _ => rfl⟩
  newDev := fun _ _ => ⟨rfl, rfl, fun _ => rfl⟩

theorem closedKept_isFrame : IsFrame ClosedKept where
  refl := fun _ => ⟨le_refl _, fun _ _ h => h⟩
  trans := fun h1 h2 =>
    ⟨le_trans h1.1 h2.1, fun h hl hc => h2.2 h (lt_of_lt_of_le hl h1.1) (h1.2 h hl hc)⟩
  emit := fun _ _ => ⟨le_refl _, fun _ _ h => h⟩
  call := fun _ _ => ⟨le_refl _, fun _ _ h => h⟩
  now := fun _ => ⟨le_refl _, fun _ _ h => h⟩
  setActive := fun _ _ _ => ⟨le_refl _, fun _ _ h => h⟩
  setClosed := by
    intro w h
    refine ⟨le_refl _, fun c _ hc => ?_⟩
    by_cases hh : c = h
    · subst hh; simp [World.setDevice]
    · simpa [World.setDevice, Function.update_noteq hh] using hc
  newDev := by
    intro w d
    refine ⟨Nat.le_succ _, fun c hl hc => ?_⟩
    have hne : c ≠ w.ndevices := Nat.ne_of_lt hl
    simpa [Function.update_noteq hne] using hc

/-- `NewBoard` touches no device. -/
theorem closedKept_NewBoard (index : Int) (opts : List Opt) (w : World) :
    ClosedKept w (NewBoard index opts w).2 := by
  unfold Linuxgpib.NewBoard
  split
  · exact closedKept_isFrame.refl w
  · exact ⟨le_refl _, fun _ _ h => h⟩

/-- Package-level `NewDevice` respects what both of its halves respect. -/
theorem closedKept_NewDevice (k : Consts) (board addr : Int) (opts : List Opt) (w : World) :
    ClosedKept w (NewDevice k board addr opts w).2 := by
  unfold Linuxgpib.NewDevice
  split
  · exact closedKept_NewBoard _ _ _
  · exact closedKept_isFrame.trans (closedKept_NewBoard _ _ _)
      (closedKept_isFrame.boardNewDevice _ _ _ _ _)

/-- A completed call never opens a closed device again. -/
theorem closedKept_of_step {k : Consts} {w v : World} (hs : Step k w v) : ClosedKept w v := by
  cases hs with
  | NewBoard index opts => exact closedKept_NewBoard _ _ _
  | NewDevice board addr opts => exact closedKept_NewDevice _ _ _ _ _
  | BoardNewDevice b addr opts _ => exact closedKept_isFrame.boardNewDevice _ _ _ _ _
  | Enumerate b _ => exact closedKept_isFrame.enumerates _ _ _
  | Clear fuel h r _ hr => exact closedKept_isFrame.clears _ _ _ _ _ hr
  | Close h _ => exact closedKept_isFrame.closes _ _ _
  | Read h len cap _ _ => exact closedKept_isFrame.reads _ _ _ _ _
  | SetTimeout h t _ => exact closedKept_isFrame.setsTimeout _ _ _ _
  | Spoll h _ => exact closedKept_isFrame.polls _ _ _
  | Trigger h _ => exact closedKept_isFrame.triggers _ _ _
  | Write h buf _ => exact closedKept_isFrame.writes _ _ _ _

theorem closedKept_of_steps {k : Consts} {w v : World} (hs : Steps k w v) : ClosedKept w v := by
  induction hs with
  | refl => exact closedKept_isFrame.refl w
  | tail _ hstep ih => exact closedKept_isFrame.trans ih (closedKept_of_step hstep)

/-! ## Timeout quantisation -/

/-- The first row found by the scan of a table sorted by threshold is a row
of least threshold among those not below `d`; when none is found every
threshold is below `d`. -/
theorem find_least (d : Int) (L : List (Int × Int))
    (hs : L.Pairwise (fun a b => a.1 ≤ b.1)) :
    match L.find? (fun c => decide (d ≤ c.1)) with
    | some e => e ∈ L ∧ d ≤ e.1 ∧ ∀ x ∈ L, d ≤ x.1 → e.1 ≤ x.1
    | none => ∀ x ∈ L, x.1 < d := by
  induction L with
  | nil => simp
  | cons a t ih =>
    rw [List.pairwise_cons] at hs
    by_cases ha : d ≤ a.1
    · rw [List.find?_cons_of_pos _ (by simpa using ha)]
      refine ⟨List.mem_cons_self _ _, ha, ?_⟩
      intro x hx _
      rcases List.mem_cons.mp hx with rfl | hx
      · exact le_refl _
      · exact hs.1 x hx
    · have ih2 := ih hs.2
      rw [List.find?_cons_of_neg _ (by simpa using ha)]
      cases hf : t.find? (fun c => decide (d ≤ c.1)) with
      | none =>
        rw [hf] at ih2
        intro x hx
        rcases List.mem_cons.mp hx with rfl | hx
        · exact not_le.mp ha
        · exact ih2 x hx
      | some e =>
        rw [hf] at ih2
        refine ⟨List.mem_cons_of_mem _ ih2.1, ih2.2.1, ?_⟩
        intro x hx hdx
        rcases List.mem_cons.mp hx with rfl | hx
        · exact absurd hdx ha
        · exact ih2.2.2 x hx hdx

/-- The ladder is sorted by magnitude. -/
theorem ladder_sorted (k : Consts) : (ladder k).Pairwise (fun a b => a.1 ≤ b.1) := by
  simp [ladder, Microsecond, Millisecond, Second]

/-- For a positive request the scan of `Timeout` is the scan of the ladder:
the row of `TNONE` is skipped, and falling through is the row of `T1000s`. -/
theorem Timeout_eq_scan (k : Consts) (d : Int) (hd : 0 < d) :
    Timeout k d =
      match (ladder k).find? (fun c => decide (d ≤ c.1)) with
      | some e => e.2
      | none => k.T1000s := by
  have h1 : timeoutTable k = (0, k.TNONE) :: (ladder k).dropLast := rfl
  have h2 : ladder k = (ladder k).dropLast ++ [(1000 * Second, k.T1000s)] := rfl
  have h0 : ¬ d ≤ 0 := not_le.mpr hd
  unfold Timeout
  rw [h1, List.find?_cons_of_neg _ (by simpa using h0)]
  conv_rhs => rw [h2, List.find?_append]
  cases (ladder k).dropLast.find? (fun c => decide (d ≤ c.1)) with
  | some e => rfl
  | none =>
    by_cases hl : d ≤ 1000 * Second
    · simp [List.find?_cons, hl]
    · simp [List.find?_cons, hl]

/-- Every magnitude of the ladder is at most 1000 s, and 1000 s is one. -/
theorem ladder_top (k : Consts) :
    (∀ x ∈ ladder k, x.1 ≤ 1000 * Second) ∧ (1000 * Second, k.T1000s) ∈ ladder k := by
  constructor
  · simp [ladder, Microsecond, Millisecond, Second]
  · simp [ladder]

/-- A positive request of at most 1000 s gets the constant of a ladder row of
least magnitude among those not below the request. -/
theorem Timeout_in_ladder (k : Consts) (d : Int) (hd : 0 < d) (hl : d ≤ 1000 * Second) :
    ∃ e ∈ ladder k, Timeout k d = e.2 ∧ d ≤ e.1 ∧ ∀ x ∈ ladder k, d ≤ x.1 → e.1 ≤ x.1 := by
  have hf := find_least d (ladder k) (ladder_sorted k)
  have hs := Timeout_eq_scan k d hd
  cases hc : (ladder k).find? (fun c => decide (d ≤ c.1)) with
  | none =>
    rw [hc] at hf
    have := hf _ (ladder_top k).2
    exact absurd hl (not_le.mpr this)
  | some e =>
    rw [hc] at hf hs
    exact ⟨e, hf.1, hs, hf.2.1, hf.2.2⟩

/-- A request above 1000 s gets `T1000s`. -/
theorem Timeout_above_ladder (k : Consts) (d : Int) (hl : 1000 * Second < d) :
    Timeout k d = k.T1000s := by
  have hd : 0 < d := lt_trans (by simp [Second]) hl
  have hf := find_least d (ladder k) (ladder_sorted k)
  have hs := Timeout_eq_scan k d hd
  cases hc : (ladder k).find? (fun c => decide (d ≤ c.1)) with
  | none => rw [hc] at hs; exact hs
  | some e =>
    rw [hc] at hf
    have := (ladder_top k).1 e hf.1
    exact absurd (le_trans hf.2.1 this) (not_le.mpr hl)

/-- A request that is not positive gets `TNONE`, the first row of the table. -/
theorem Timeout_nonpos (k : Consts) (d : Int) (hd : d ≤ 0) : Timeout k d = k.TNONE := by
  unfold Timeout timeoutTable
  rw [List.find?_cons_of_pos _ (by simpa using hd)]

/-- Claim C4: for every duration `d > 0`, `internal.Timeout(d)` is the constant
of a ladder row (10us, 30us, ..., 300s, 1000s) whose magnitude is the least
one not below `d` whenever `d` is at most 1000 s, and it is `T1000s`, the
constant of the largest magnitude, whenever `d` exceeds 1000 s. -/
theorem Timeout_smallest_ladder_value (k : Consts) (d : Int) (hd : 0 < d) :
    (d ≤ 1000 * Second →
      ∃ e ∈ ladder k, Timeout k d = e.2 ∧ d ≤ e.1 ∧ ∀ x ∈ ladder k, d ≤ x.1 → e.1 ≤ x.1) ∧
    (1000 * Second < d → Timeout k d = k.T1000s) :=
  ⟨Timeout_in_ladder k d hd, Timeout_above_ladder k d⟩

theorem Timeout_smallest_ladder_value_witness :
    (∃ e ∈ ladder gpibUser, Timeout gpibUser (2 * Second) = e.2 ∧ 2 * Second ≤ e.1 ∧
      ∀ x ∈ ladder gpibUser, 2 * Second ≤ x.1 → e.1 ≤ x.1) ∧
    Timeout gpibUser (2 * Second) = gpibUser.T3s :=
  ⟨(Timeout_smallest_ladder_value gpibUser (2 * Second) (by decide)).1 (by decide), by decide⟩

/-- Claim C5 fails above the ladder: with the header's values, a request of
1001 s gets a constant none of whose meanings is a timeout that is not
shorter than 1001 s (the constant is `T1000s`, 1000 s). -/
theorem Timeout_shorter_above_1000s :
    ¬ ∃ e ∈ denoted gpibUser,
      Timeout gpibUser (1001 * Second) = e.2 ∧ NotShorter e.1 (1001 * Second) := by
  decide

/-- Claim C5, amended: for every duration `d` of at most 1000 s, the timeout
denoted by the constant `internal.Timeout(d)` is not shorter than `d`, with
`TNONE` counting as infinite. -/
theorem Timeout_not_shorter (k : Consts) (d : Int) (hl : d ≤ 1000 * Second) :
    ∃ e ∈ denoted k, Timeout k d = e.2 ∧ NotShorter e.1 d := by
  by_cases hd : 0 < d
  · obtain ⟨e, he, h1, h2, _⟩ := Timeout_in_ladder k d hd hl
    refine ⟨(some e.1, e.2), ?_, h1, h2⟩
    exact List.mem_cons_of_mem _ (List.mem_map.mpr ⟨e, he, rfl⟩)
  · exact ⟨(none, k.TNONE), List.mem_cons_self _ _, Timeout_nonpos k d (not_lt.mp hd), trivial⟩

theorem Timeout_not_shorter_witness :
    ∃ e ∈ denoted gpibUser, Timeout gpibUser (5 * Second) = e.2 ∧ NotShorter e.1 (5 * Second) :=
  Timeout_not_shorter gpibUser (5 * Second) (by decide)

/-- Claim C6 fails on a negative request: `Timeout(-1ns)` is `TNONE` although
the request is not zero. -/
theorem Timeout_negative_is_TNONE :
    ¬ (Timeout gpibUser (-1) = gpibUser.TNONE ↔ (-1 : Int) = 0) := by
  decide

/-- Claim C6, amended: `internal.Timeout(d)` is `TNONE` if and only if `d` is
zero or negative, the constant `TNONE` being different from the constants of
the finite magnitudes. -/
theorem Timeout_TNONE_iff (k : Consts) (hk : ∀ e ∈ ladder k, e.2 ≠ k.TNONE) (d : Int) :
    Timeout k d = k.TNONE ↔ d ≤ 0 := by
  constructor
  · intro h
    by_contra hd
    have hd : 0 < d := not_le.mp hd
    by_cases hl : d ≤ 1000 * Second
    · obtain ⟨e, he, h1, _⟩ := Timeout_in_ladder k d hd hl
      exact hk e he (h1 ▸ h)
    · have := Timeout_above_ladder k d (not_le.mp hl)
      exact hk _ (ladder_top k).2 (this ▸ h)
  · exact Timeout_nonpos k d

theorem Timeout_TNONE_iff_witness :
    (∀ e ∈ ladder gpibUser, e.2 ≠ gpibUser.TNONE) ∧
    (Timeout gpibUser (-5) = gpibUser.TNONE ↔ (-5 : Int) ≤ 0) :=
  ⟨by decide, Timeout_TNONE_iff gpibUser (by decide) (-5)⟩

/-! ## Status decoding -/

/-- Claim C7: when the status word has the `TIMO` bit set, `internal.Err`
returns `TimeoutErr` whatever the `ERR` bit and the registers `iberr` and
`ibcnt` hold, and `TimeoutErr` is timeout-classified: its `Timeout()` method
returns true, so `os.IsTimeout` holds for it. -/
theorem Err_TIMO_precedence (k : Consts) (r : Regs) (ibsta : Int)
    (h : Int.land ibsta k.TIMO ≠ 0) :
    Err k r ibsta = some Error.TimeoutErr ∧
    Error.TimeoutErr.Timeout = some true ∧
    IsTimeout Error.TimeoutErr = true := by
  refine ⟨?_, rfl, rfl⟩
  unfold Err
  rw [if_pos h]

theorem Err_TIMO_precedence_witness :
    Int.land 0xC000 gpibUser.TIMO ≠ 0 ∧ Int.land 0xC000 gpibUser.ERR ≠ 0 ∧
    Err gpibUser ⟨0xC000, 12, 5⟩ 0xC000 = some Error.TimeoutErr :=
  ⟨by decide, by decide, (Err_TIMO_precedence gpibUser ⟨0xC000, 12, 5⟩ 0xC000 (by decide)).1⟩

/-- Claim C8 fails: with `ERR` set and `TIMO` clear, the two different unknown
codes 9 and 13 (neither is one of the 16 named codes) yield the same error,
so the code cannot be recovered from it. -/
theorem Err_unknown_codes_collide :
    Int.land 0x8000 gpibUser.ERR ≠ 0 ∧ Int.land 0x8000 gpibUser.TIMO = 0 ∧
    (9 : Int) ∉ (iberrStrings gpibUser).map Prod.fst ∧
    (13 : Int) ∉ (iberrStrings gpibUser).map Prod.fst ∧ (9 : Int) ≠ 13 ∧
    Err gpibUser ⟨0x8000, 9, 0⟩ 0x8000 = Err gpibUser ⟨0x8000, 13, 0⟩ 0x8000 := by
  decide

/-- Claim C8, amended: for a status word with `ERR` set and `TIMO` clear whose
error-code register holds none of the 16 named codes, `internal.Err` returns
`errors.New("UNKNOWN")`, an error that is the fixed text "UNKNOWN" and does
not carry the raw code. -/
theorem Err_unknown_code (k : Consts) (r : Regs) (ibsta : Int)
    (hT : Int.land ibsta k.TIMO = 0) (hE : Int.land ibsta k.ERR ≠ 0)
    (hU : r.iberr ∉ (iberrStrings k).map Prod.fst) :
    Err k r ibsta = some (Error.errorString "UNKNOWN") := by
  have hl : (iberrStrings k).lookup r.iberr = none := by
    rw [List.lookup_eq_none_iff]
    intro p hp
    simp only [bne_iff_ne, ne_eq]
    intro hq
    exact hU (List.mem_map.mpr ⟨p, hp, hq.symm⟩)
  have h1 : r.iberr ≠ k.EDVR := by
    intro h; exact hU (by simp [iberrStrings, h])
  have h2 : r.iberr ≠ k.EFSO := by
    intro h; exact hU (by simp [iberrStrings, h])
  simp [Err, hT, hE, h1, h2, formatIberr, hl]

theorem Err_unknown_code_witness :
    Err gpibUser ⟨0x8000, 9, 0⟩ 0x8000 = some (Error.errorString "UNKNOWN") :=
  Err_unknown_code gpibUser ⟨0x8000, 9, 0⟩ 0x8000 (by decide) (by decide) (by decide)

/-! ## The board registry -/

theorem boardsWF_init (regs : Regs) (adapter : Nat → Reply) (clock : Nat → Int) :
    BoardsWF (World.init regs adapter clock) :=
  ⟨fun _ hb => absurd hb (Nat.not_lt_zero _), fun _ _ hb => absurd hb (Nat.not_lt_zero _)⟩

theorem boardsWF_of_kept {w v : World} (hk : BoardsKept w v) (hw : BoardsWF w) : BoardsWF v := by
  obtain ⟨ha, hn, hi⟩ := hk
  refine ⟨fun b hb => ?_, fun b1 b2 h1 h2 he => ?_⟩
  · rw [hi, ha]; exact hw.1 b (hn ▸ hb)
  · rw [hi, hi] at he
    exact hw.2 b1 b2 (hn ▸ h1) (hn ▸ h2) he

theorem mem_mapSet (m : List Int) (key j : Int) : j ∈ mapSet m key ↔ j = key ∨ j ∈ m := by
  unfold mapSet
  split
  · constructor
    · exact Or.inr
    · rintro (rfl | h)
      · assumption
      · exact h
  · simp [or_comm]

theorem boardsWF_NewBoard (index : Int) (opts : List Opt) (w : World) (hw : BoardsWF w) :
    BoardsWF (NewBoard index opts w).2 := by
  unfold Linuxgpib.NewBoard
  split
  · exact hw
  · rename_i hfree
    have hfree : index ∉ w.activeBoards := by simpa [mapGet] using hfree
    have hold : ∀ b, b < w.nboards →
        (Function.update w.boards w.nboards
          { index := index, options := applyOpts opts newOptions, activeDevices := [] } b)
          = w.boards b :=
      fun b hb => Function.update_noteq (Nat.ne_of_lt hb) _ _
    refine ⟨fun b hb => ?_, fun b1 b2 h1 h2 he => ?_⟩
    · show (Function.update w.boards w.nboards _ b).index ∈ mapSet w.activeBoards index
      rcases Nat.lt_succ_iff_lt_or_eq.mp hb with hb | rfl
      · rw [hold b hb]
        exact (mem_mapSet _ _ _).mpr (Or.inr (hw.1 b hb))
      · rw [Function.update_same]
        exact (mem_mapSet _ _ _).mpr (Or.inl rfl)
    · change (Function.update w.boards w.nboards _ b1).index =
        (Function.update w.boards w.nboards _ b2).index at he
      rcases Nat.lt_succ_iff_lt_or_eq.mp h1 with h1 | rfl
      · rcases Nat.lt_succ_iff_lt_or_eq.mp h2 with h2 | rfl
        · rw [hold b1 h1, hold b2 h2] at he
          exact hw.2 b1 b2 h1 h2 he
        · rw [hold b1 h1, Function.update_same] at he
          have he2 : (w.boards b1).index = index := he
          exact absurd (he2 ▸ hw.1 b1 h1) hfree
      · rcases Nat.lt_succ_iff_lt_or_eq.mp h2 with h2 | h2
        · rw [hold b2 h2, Function.update_same] at he
          have he2 : index = (w.boards b2).index := he
          exact absurd (he2 ▸ hw.1 b2 h2) hfree
        · exact h2.symm

theorem boardsWF_NewDevice (k : Consts) (board addr : Int) (opts : List Opt) (w : World)
    (hw : BoardsWF w) : BoardsWF (NewDevice k board addr opts w).2 := by
  unfold Linuxgpib.NewDevice
  split
  · exact boardsWF_NewBoard _ _ _ hw
  · exact boardsWF_of_kept (boardsKept_isFrame.boardNewDevice _ _ _ _ _)
      (boardsWF_NewBoard _ _ _ hw)

theorem boardsWF_of_step {k : Consts} {w v : World} (hs : Step k w v) (hw : BoardsWF w) :
    BoardsWF v := by
  cases hs with
  | NewBoard index opts => exact boardsWF_NewBoard _ _ _ hw
  | NewDevice board addr opts => exact boardsWF_NewDevice _ _ _ _ _ hw
  | BoardNewDevice b addr opts _ =>
    exact boardsWF_of_kept (boardsKept_isFrame.boardNewDevice _ _ _ _ _) hw
  | Enumerate b _ => exact boardsWF_of_kept (boardsKept_isFrame.enumerates _ _ _) hw
  | Clear fuel h r _ hr => exact boardsWF_of_kept (boardsKept_isFrame.clears _ _ _ _ _ hr) hw
  | Close h _ => exact boardsWF_of_kept (boardsKept_isFrame.closes _ _ _) hw
  | Read h len cap _ _ => exact boardsWF_of_kept (boardsKept_isFrame.reads _ _ _ _ _) hw
  | SetTimeout h t _ => exact boardsWF_of_kept (boardsKept_isFrame.setsTimeout _ _ _ _) hw
  | Spoll h _ => exact boardsWF_of_kept (boardsKept_isFrame.polls _ _ _) hw
  | Trigger h _ => exact boardsWF_of_kept (boardsKept_isFrame.triggers _ _ _) hw
  | Write h buf _ => exact boardsWF_of_kept (boardsKept_isFrame.writes _ _ _ _) hw

theorem boardsWF_of_reachable {k : Consts} {w : World} (hr : Reachable k w) : BoardsWF w := by
  obtain ⟨regs, adapter, clock, hs⟩ := hr
  induction hs with
  | refl => exact boardsWF_init _ _ _
  | tail _ hstep ih => exact boardsWF_of_step hstep ih

/-- Claim C3: `NewBoard(i)` on an index that is not claimed succeeds, returns a
board of index `i` with no active device, and adds `i` and nothing else to
the registry; on a claimed index it returns the error "board in use" and no
board and changes nothing (no adapter call either). As no operation releases
an index, no two boards of a running process ever have the same index. -/
theorem NewBoard_claims_index (k : Consts) (i : Int) (opts : List Opt) :
    (∀ w : World, i ∉ w.activeBoards →
      (NewBoard i opts w).1 = Except.ok w.nboards ∧
      (NewBoard i opts w).2.nboards = w.nboards + 1 ∧
      ((NewBoard i opts w).2.boards w.nboards).index = i ∧
      ((NewBoard i opts w).2.boards w.nboards).activeDevices = [] ∧
      (∀ j, j ∈ (NewBoard i opts w).2.activeBoards ↔ j = i ∨ j ∈ w.activeBoards)) ∧
    (∀ w : World, i ∈ w.activeBoards →
      NewBoard i opts w =
        (Except.error (Error.errorString ("board in use: " ++ toString i)), w)) ∧
    (∀ w : World, Reachable k w → ∀ b1 b2, b1 < w.nboards → b2 < w.nboards →
      (w.boards b1).index = (w.boards b2).index → b1 = b2) := by
  refine ⟨fun w hfree => ?_, fun w hin => ?_, fun w hr => (boardsWF_of_reachable hr).2⟩
  · have hg : mapGet w.activeBoards i = false := by simpa [mapGet] using hfree
    unfold Linuxgpib.NewBoard
    rw [hg]
    refine ⟨rfl, rfl, ?_, ?_, fun j => mem_mapSet _ _ _⟩
    · simp
    · simp
  · have hg : mapGet w.activeBoards i = true := by simpa [mapGet] using hin
    unfold Linuxgpib.NewBoard
    rw [hg]
    rfl

theorem NewBoard_claims_index_witness :
    (NewBoard 2 [] twoBoards).1 = Except.ok 2 ∧
    NewBoard 1 [] twoBoards =
      (Except.error (Error.errorString ("board in use: " ++ toString (1 : Int))), twoBoards) ∧
    (twoBoards.boards 0).index ≠ (twoBoards.boards 1).index := by
  have h2 := NewBoard_claims_index gpibUser 2 []
  have h1 := NewBoard_claims_index gpibUser 1 []
  have hreach : Reachable gpibUser twoBoards :=
    ⟨_, _, _, Relation.ReflTransGen.tail
      (Relation.ReflTransGen.tail Relation.ReflTransGen.refl (Step.NewBoard _ 0 []))
      (Step.NewBoard _ 1 [])⟩
  exact ⟨(h2.1 twoBoards (by decide)).1, h1.2.1 twoBoards (by decide),
    fun he => absurd (h1.2.2 twoBoards hreach 0 1 (by decide) (by decide) he) (by decide)⟩

/-! ## Closed devices, duplicate addresses, and `Close` -/

theorem withActivity_fst {α : Type} (a : Option Nat) (body : World → α × World) (w : World) :
    (withActivity a body w).1 =
      (body (match a with
        | none => w
        | some f => w.emit (Event.activity f true))).1 := by
  cases a <;> rfl

theorem withActivity_snd {α : Type} (a : Option Nat) (body : World → α × World) (w : World) :
    (withActivity a body w).2 =
      match a with
      | none => (body w).2
      | some f => (body (w.emit (Event.activity f true))).2.emit (Event.activity f false) := by
  cases a <;> rfl

/-- On a closed device each of the seven operations returns "already closed"
at once and leaves the world as it is. -/
theorem closed_ops (k : Consts) (w : World) (h : Nat)
    (hc : (w.devices h).isClosed = true)
    (fuel len cap : Nat) (t : Duration) (buf : List Nat) :
    Device.Clear k fuel h w = some (some alreadyClosed, w) ∧
    Device.Close k h w = (some alreadyClosed, w) ∧
    Device.Read k h len cap w = (Outcome.ret (0, some alreadyClosed), w) ∧
    Device.Write k h buf w = ((0, some alreadyClosed), w) ∧
    Device.SetTimeout k h t w = (some alreadyClosed, w) ∧
    Device.Spoll k h w = ((0, some alreadyClosed), w) ∧
    Device.Trigger k h w = (some alreadyClosed, w) := by
  refine ⟨?_, ?_, ?_, ?_, ?_, ?_, ?_⟩
  · simp [Device.Clear, hc]
  · simp [Device.Close, hc]
  · simp [Device.Read, hc]
  · simp [Device.Write, hc]
  · simp [Device.SetTimeout, hc]
  · simp [Device.Spoll, hc]
  · simp [Device.Trigger, hc]

/-- What the body of `Close` leaves behind, whatever the adapter answers: the
device is marked closed and its address is out of the active set. -/
theorem Close_body_state (k : Consts) (w : World) (h : Nat) :
    ((Device.Close k h w).2.devices h).isClosed = true ∧
    ((w.devices h).isClosed = false →
      (w.devices h).addr ∉
        ((Device.Close k h w).2.boards (w.devices h).board).activeDevices) := by
  unfold Device.Close
  dsimp only
  split
  · rename_i hc
    exact ⟨hc, fun ho => absurd hc (by simp [ho])⟩
  · have hdel : ∀ (m : List Int) (x : Int), x ∉ mapDelete m x := by
      intro m x hx
      simp [mapDelete] at hx
    refine ⟨?_, fun _ => ?_⟩
    · rw [withActivity_snd]
      cases (w.devices h).options.activity <;> dsimp only <;>
        (repeat' split) <;>
        simp [World.call, World.emit, World.setBoard, World.setDevice]
    · rw [withActivity_snd]
      cases (w.devices h).options.activity <;> dsimp only <;>
        (repeat' split) <;>
        simp [World.call, World.emit, World.setBoard, World.setDevice, hdel]

/-- Claim C1: on a device on which `Close` has been called, in every world that
any number of later calls lead to, each of `Clear`, `Close`, `Read`, `Write`,
`SetTimeout`, `Spoll` and `Trigger` returns the error "already closed" (`Read`
and `Write` with `n = 0`, `Spoll` with status byte 0) and leaves the world
exactly as it was: no adapter call and no activity callback is added to the
trace, and the device and its board's active set are unchanged. `Clear`
returns so whatever the bound on its polling loop. -/
theorem closed_device_operations_fail (k : Consts) (w0 w : World) (h : Nat)
    (hh : h < w0.ndevices) (hlater : Steps k (Device.Close k h w0).2 w)
    (fuel len cap : Nat) (t : Duration) (buf : List Nat) :
    Device.Clear k fuel h w = some (some alreadyClosed, w) ∧
    Device.Close k h w = (some alreadyClosed, w) ∧
    Device.Read k h len cap w = (Outcome.ret (0, some alreadyClosed), w) ∧
    Device.Write k h buf w = ((0, some alreadyClosed), w) ∧
    Device.SetTimeout k h t w = (some alreadyClosed, w) ∧
    Device.Spoll k h w = ((0, some alreadyClosed), w) ∧
    Device.Trigger k h w = (some alreadyClosed, w) := by
  have h1 : h < (Device.Close k h w0).2.ndevices :=
    lt_of_lt_of_le hh (closedKept_isFrame.closes k h w0).1
  have h2 := (closedKept_of_steps hlater).2 h h1 (Close_body_state k w0 h).1
  exact closed_ops k w h h2 fuel len cap t buf

theorem closed_device_operations_fail_witness :
    0 < oneDevice.ndevices ∧
    Device.Trigger gpibUser 0 (NewBoard 1 [] (Device.Close gpibUser 0 oneDevice).2).2 =
      (some alreadyClosed, (NewBoard 1 [] (Device.Close gpibUser 0 oneDevice).2).2) :=
  ⟨by decide,
   (closed_device_operations_fail gpibUser oneDevice _ 0 (by decide)
      (Relation.ReflTransGen.tail Relation.ReflTransGen.refl (Step.NewBoard _ 1 []))
      0 0 0 0 []).2.2.2.2.2.2⟩

/-- Claim C2: `Board.NewDevice` at an address that is in the board's active set
returns an error and no device and leaves the world exactly as it was, so the
active set is unchanged and no adapter call (no `Ibsre`, no `Ibdev`) is made.
The error is "device already in use" unless the merged read-EOS option is
itself invalid, which is reported first. -/
theorem NewDevice_address_in_use (k : Consts) (w : World) (b : Nat) (addr : Int)
    (opts : List Opt) (hin : addr ∈ (w.boards b).activeDevices) :
    (∃ err, (Board.NewDevice k b addr opts w).1 = Except.error err) ∧
    (Board.NewDevice k b addr opts w).2 = w ∧
    (eosMode k (applyOpts opts (w.boards b).options).readEOS ≠ none →
      (Board.NewDevice k b addr opts w).1 =
        Except.error (Error.errorString ("device already in use: " ++ toString addr))) := by
  have hg : mapGet (w.boards b).activeDevices addr = true := by simpa [mapGet] using hin
  unfold Board.NewDevice cloneOptions
  dsimp only
  cases he : eosMode k (applyOpts opts (w.boards b).options).readEOS with
  | none => exact ⟨⟨_, rfl⟩, rfl, fun hne => absurd rfl hne⟩
  | some eos =>
    dsimp only
    rw [if_pos hg]
    exact ⟨⟨_, rfl⟩, rfl, fun _ => rfl⟩

theorem NewDevice_address_in_use_witness :
    (5 : Int) ∈ (oneDevice.boards 0).activeDevices ∧
    (Board.NewDevice gpibUser 0 5 [] oneDevice).1 =
      Except.error (Error.errorString ("device already in use: " ++ toString (5 : Int))) ∧
    (Board.NewDevice gpibUser 0 5 [] oneDevice).2 = oneDevice :=
  ⟨by decide,
   (NewDevice_address_in_use gpibUser oneDevice 0 5 [] (by decide)).2.2 (by decide),
   (NewDevice_address_in_use gpibUser oneDevice 0 5 [] (by decide)).2.1⟩

/-! ## `Close` on an open device -/

theorem mapDelete_length (m : List Int) (x : Int) :
    (mapDelete m x).length = 0 ↔ ∀ y ∈ m, y = x := by
  simp [mapDelete, List.filter_eq_nil_iff]

/-- The result and the trace of `Close` on an open device, by the answers of
the adapter to the offline call and to the remote-disable call. -/
theorem Close_open (k : Consts) (w : World) (h : Nat)
    (hopen : (w.devices h).isClosed = false) :
    (∀ err, Err k (w.adapter w.calls).regs (w.adapter w.calls).ret = some err →
      (Device.Close k h w).1 = some err ∧
      (Device.Close k h w).2.trace =
        w.trace ++ bracket (w.devices h).options.activity [Event.Ibonl (w.devices h).ud 0]) ∧
    (Err k (w.adapter w.calls).regs (w.adapter w.calls).ret = none →
      (∃ x ∈ (w.boards (w.devices h).board).activeDevices, x ≠ (w.devices h).addr) →
      (Device.Close k h w).1 = none ∧
      (Device.Close k h w).2.trace =
        w.trace ++ bracket (w.devices h).options.activity [Event.Ibonl (w.devices h).ud 0]) ∧
    (Err k (w.adapter w.calls).regs (w.adapter w.calls).ret = none →
      (∀ x ∈ (w.boards (w.devices h).board).activeDevices, x = (w.devices h).addr) →
      (Device.Close k h w).1 =
        (match Err k (w.adapter (w.calls + 1)).regs (w.adapter (w.calls + 1)).ret with
          | some _ => some (Error.errorString "ibsre failed")
          | none => none) ∧
      (Device.Close k h w).2.trace =
        w.trace ++ bracket (w.devices h).options.activity
          [Event.Ibonl (w.devices h).ud 0,
           Event.Ibsre (w.boards (w.devices h).board).index 0]) := by
  refine ⟨fun err he => ?_, fun he hx => ?_, fun he hx => ?_⟩
  · unfold Device.Close
    simp only [hopen, Bool.false_eq_true, if_false]
    rw [withActivity_fst, withActivity_snd]
    cases (w.devices h).options.activity <;>
      simp [World.call, World.emit, World.setBoard, World.setDevice, bracket, he]
  · have hl : ¬ (mapDelete (w.boards (w.devices h).board).activeDevices
        (w.devices h).addr).length = 0 := by
      rw [mapDelete_length]
      push_neg
      exact hx
    unfold Device.Close
    simp only [hopen, Bool.false_eq_true, if_false]
    rw [withActivity_fst, withActivity_snd]
    cases (w.devices h).options.activity <;>
      simp [World.call, World.emit, World.setBoard, World.setDevice, bracket, he, hl]
  · have hl : (mapDelete (w.boards (w.devices h).board).activeDevices
        (w.devices h).addr).length = 0 := (mapDelete_length _ _).mpr hx
    unfold Device.Close
    simp only [hopen, Bool.false_eq_true, if_false]
    rw [withActivity_fst, withActivity_snd]
    cases (w.devices h).options.activity <;>
      cases he2 : Err k (w.adapter (w.calls + 1)).regs (w.adapter (w.calls + 1)).ret <;>
      simp [World.call, World.emit, World.setBoard, World.setDevice, bracket, he, hl, he2]

/-- Claim C9: after `Close` on an open device the device is marked closed and
its address is not in its board's active set, whatever the adapter answers.
An error of the offline call `Ibonl` is returned as it is, and an error of
the remote-disable call `Ibsre` is returned as "ibsre failed". -/
theorem Close_always_closes (k : Consts) (w : World) (h : Nat)
    (hopen : (w.devices h).isClosed = false) :
    ((Device.Close k h w).2.devices h).isClosed = true ∧
    (w.devices h).addr ∉ ((Device.Close k h w).2.boards (w.devices h).board).activeDevices ∧
    (∀ err, Err k (w.adapter w.calls).regs (w.adapter w.calls).ret = some err →
      (Device.Close k h w).1 = some err) ∧
    (Err k (w.adapter w.calls).regs (w.adapter w.calls).ret = none →
      (∀ x ∈ (w.boards (w.devices h).board).activeDevices, x = (w.devices h).addr) →
      Err k (w.adapter (w.calls + 1)).regs (w.adapter (w.calls + 1)).ret ≠ none →
      (Device.Close k h w).1 = some (Error.errorString "ibsre failed")) := by
  refine ⟨(Close_body_state k w h).1, (Close_body_state k w h).2 hopen,
    fun err he => ((Close_open k w h hopen).1 err he).1, fun he hx h2 => ?_⟩
  rw [((Close_open k w h hopen).2.2 he hx).1]
  cases h3 : Err k (w.adapter (w.calls + 1)).regs (w.adapter (w.calls + 1)).ret with
  | none => exact absurd h3 h2
  | some e => rfl

theorem Close_always_closes_witness :
    (offlineFails.devices 0).isClosed = false ∧
    (Device.Close gpibUser 0 offlineFails).1 = some (Error.errorString "ENOL") ∧
    ((Device.Close gpibUser 0 offlineFails).2.devices 0).isClosed = true ∧
    (5 : Int) ∉ ((Device.Close gpibUser 0 offlineFails).2.boards 0).activeDevices :=
  ⟨by decide,
   (Close_always_closes gpibUser offlineFails 0 (by decide)).2.2.1 _ (by decide),
   (Close_always_closes gpibUser offlineFails 0 (by decide)).1,
   (Close_always_closes gpibUser offlineFails 0 (by decide)).2.1⟩

/-- Claim C10 fails when the offline call reports an error: the device at
address 5 is the only active device of board 0, `Ibonl` answers `ERR`, and
`Close` adds the `Ibonl` call and nothing else to the trace, so no
remote-disable call `Ibsre(_, 0)` is in it. -/
theorem Close_last_device_without_remote_disable :
    (offlineFails.devices 0).isClosed = false ∧
    (offlineFails.boards (offlineFails.devices 0).board).activeDevices =
      [(offlineFails.devices 0).addr] ∧
    (Device.Close gpibUser 0 offlineFails).2.trace =
      offlineFails.trace ++ [Event.Ibonl (offlineFails.devices 0).ud 0] ∧
    (∀ e ∈ (Device.Close gpibUser 0 offlineFails).2.trace, ∀ ud, e ≠ Event.Ibsre ud 0) := by
  refine ⟨by decide, by decide, by decide, ?_⟩
  intro e he ud
  have ht : (Device.Close gpibUser 0 offlineFails).2.trace =
      [Event.Ibvers, Event.Ibsre 0 1, Event.Ibdev 0 5 0 13 1 0, Event.Ibonl 256 0] := by
    decide
  rw [ht] at he
  simp at he
  rcases he with rfl | rfl | rfl | rfl <;> simp

/-- Claim C10, amended: when `Close` is called on an open device that is the
last active device of its board and the offline call `Ibonl` reports no
error, `Close` issues `Ibsre(board index, 0)` right after `Ibonl`; when other
devices of the board remain active it issues `Ibonl` and no remote-disable
call. -/
theorem Close_remote_disable (k : Consts) (w : World) (h : Nat)
    (hopen : (w.devices h).isClosed = false) :
    (Err k (w.adapter w.calls).regs (w.adapter w.calls).ret = none →
      (∀ x ∈ (w.boards (w.devices h).board).activeDevices, x = (w.devices h).addr) →
      (Device.Close k h w).2.trace =
        w.trace ++ bracket (w.devices h).options.activity
          [Event.Ibonl (w.devices h).ud 0,
           Event.Ibsre (w.boards (w.devices h).board).index 0]) ∧
    ((∃ x ∈ (w.boards (w.devices h).board).activeDevices, x ≠ (w.devices h).addr) →
      (Device.Close k h w).2.trace =
        w.trace ++ bracket (w.devices h).options.activity [Event.Ibonl (w.devices h).ud 0]) := by
  have hc := Close_open k w h hopen
  refine ⟨fun he hx => (hc.2.2 he hx).2, fun hx => ?_⟩
  cases he : Err k (w.adapter w.calls).regs (w.adapter w.calls).ret with
  | none => exact (hc.2.1 he hx).2
  | some err => exact (hc.1 err he).2

theorem Close_remote_disable_witness :
    (twoDevices.devices 1).isClosed = false ∧
    (Device.Close gpibUser 1 twoDevices).2.trace =
      twoDevices.trace ++
        [Event.activity 9 true, Event.Ibonl 256 0, Event.activity 9 false] ∧
    (Device.Close gpibUser 0 (Device.Close gpibUser 1 twoDevices).2).2.trace =
      (Device.Close gpibUser 1 twoDevices).2.trace ++
        [Event.Ibonl 256 0, Event.Ibsre 0 0] :=
  ⟨by decide,
   (Close_remote_disable gpibUser twoDevices 1 (by decide)).2 ⟨5, by decide, by decide⟩,
   (Close_remote_disable gpibUser (Device.Close gpibUser 1 twoDevices).2 0 (by decide)).1
     (by decide) (by decide)⟩

/-! ## `Board.Enumerate` -/

theorem range_succ_map {α : Type} (f : Nat → α) (n : Nat) :
    (List.range (n + 1)).map f = f 0 :: (List.range n).map (fun j => f (j + 1)) := by
  rw [List.range_succ_eq_map]
  simp [List.map_map, Function.comp]

theorem range_succ_filter_map {α : Type} (p : Nat → Bool) (f : Nat → α) (n : Nat) :
    ((List.range (n + 1)).filter p).map f =
      (if p 0 = true then [f 0] else []) ++
        ((List.range n).filter (fun j => p (j + 1))).map (fun j => f (j + 1)) := by
  rw [List.range_succ_eq_map]
  by_cases h0 : p 0 = true
  · simp [List.filter_cons, List.filter_map, List.map_map, h0]
    rfl
  · simp [List.filter_cons, List.filter_map, List.map_map, h0]
    rfl

theorem errAt_call (k : Consts) (w : World) (e : Event) (n : Nat) :
    errAt k (w.call e).2 n = errAt k w n := rfl

theorem outAt_call (w : World) (e : Event) (n : Nat) :
    outAt (w.call e).2 n = outAt w n := rfl

theorem calls_call (w : World) (e : Event) : (w.call e).2.calls = w.calls + 1 := rfl

theorem trace_call (w : World) (e : Event) : (w.call e).2.trace = w.trace ++ [e] := rfl

theorem Err_call (k : Consts) (w : World) (e : Event) :
    Err k (w.call e).2.regs (w.call e).1.ret = errAt k w w.calls := rfl

theorem out_call (w : World) (e : Event) : (w.call e).1.out = outAt w w.calls := rfl

/-- While every probe succeeds the loop of `Enumerate` runs to its end: it
probes `i, i + 1, ...` in that order and appends the addresses that answered. -/
theorem enumLoop_all_ok (k : Consts) (index : Int) (n : Nat) :
    ∀ (i : Int) (ds : List Int) (w : World),
      (∀ j, j < n → errAt k w (w.calls + j) = none) →
      (enumLoop k index n i ds w).1 =
        Except.ok (ds ++
          ((List.range n).filter (fun j => decide (outAt w (w.calls + j) ≠ 0))).map
            (fun (j : Nat) => i + (j : Int))) ∧
      (enumLoop k index n i ds w).2.trace =
        w.trace ++ (List.range n).map (fun (j : Nat) => Event.Ibln index (i + (j : Int)) 0) := by
  induction n with
  | zero => intro i ds w _; simp [enumLoop]
  | succ n ih =>
    intro i ds w h
    have h0 : errAt k w w.calls = none := h 0 (Nat.succ_pos n)
    have hrest : ∀ j, j < n →
        errAt k (w.call (Event.Ibln index i 0)).2
          ((w.call (Event.Ibln index i 0)).2.calls + j) = none := by
      intro j hj
      rw [errAt_call, calls_call, Nat.add_assoc, Nat.add_comm 1 j]
      exact h (j + 1) (Nat.succ_lt_succ hj)
    have hfun : (fun (j : Nat) => i + 1 + (j : Int)) = fun (j : Nat) => i + ((j + 1 : Nat) : Int) := by
      funext j; push_cast; ring
    have hfun2 : (fun (j : Nat) => Event.Ibln index (i + 1 + (j : Int)) 0) =
        fun (j : Nat) => Event.Ibln index (i + ((j + 1 : Nat) : Int)) 0 := by
      funext j; congr 1; push_cast; ring
    have hp : (fun j => decide (outAt (w.call (Event.Ibln index i 0)).2
          ((w.call (Event.Ibln index i 0)).2.calls + j) ≠ 0)) =
        fun j => decide (outAt w (w.calls + (j + 1)) ≠ 0) := by
      funext j
      rw [outAt_call, calls_call, Nat.add_assoc, Nat.add_comm 1 j]
    obtain ⟨a1, a2⟩ := ih (i + 1) (ds ++ [i]) _ hrest
    obtain ⟨b1, b2⟩ := ih (i + 1) ds _ hrest
    rw [hfun, hp] at a1 b1
    rw [hfun2, trace_call] at a2 b2
    rw [range_succ_map, range_succ_filter_map]
    unfold enumLoop
    dsimp only
    rw [Err_call, h0, out_call]
    dsimp only
    by_cases hf : outAt w w.calls ≠ 0
    · rw [if_pos hf, a1, a2]
      simp [hf]
    · rw [if_neg hf, b1, b2]
      simp [hf]

/-- When the probe number `m` (from 0) is the first to report an error, the
loop of `Enumerate` returns that error after `m + 1` probes. -/
theorem enumLoop_first_error (k : Consts) (index : Int) (err : Error) (n : Nat) :
    ∀ (m : Nat) (i : Int) (ds : List Int) (w : World), m < n →
      (∀ j, j < m → errAt k w (w.calls + j) = none) →
      errAt k w (w.calls + m) = some err →
      (enumLoop k index n i ds w).1 = Except.error err ∧
      (enumLoop k index n i ds w).2.trace =
        w.trace ++
          (List.range (m + 1)).map (fun (j : Nat) => Event.Ibln index (i + (j : Int)) 0) := by
  induction n with
  | zero => intro m i ds w hm; exact absurd hm (Nat.not_lt_zero _)
  | succ n ih =>
    intro m i ds w hm hok herr
    cases m with
    | zero =>
      have h0 : errAt k w w.calls = some err := herr
      unfold enumLoop
      dsimp only
      rw [Err_call, h0]
      simp [trace_call, List.range_succ]
    | succ m =>
      have h0 : errAt k w w.calls = none := hok 0 (Nat.succ_pos m)
      have hrest : ∀ j, j < m →
          errAt k (w.call (Event.Ibln index i 0)).2
            ((w.call (Event.Ibln index i 0)).2.calls + j) = none := by
        intro j hj
        rw [errAt_call, calls_call, Nat.add_assoc, Nat.add_comm 1 j]
        exact hok (j + 1) (Nat.succ_lt_succ hj)
      have herr2 : errAt k (w.call (Event.Ibln index i 0)).2
            ((w.call (Event.Ibln index i 0)).2.calls + m) = some err := by
        rw [errAt_call, calls_call, Nat.add_assoc, Nat.add_comm 1 m]
        exact herr
      have hfun2 : (fun (j : Nat) => Event.Ibln index (i + 1 + (j : Int)) 0) =
          fun (j : Nat) => Event.Ibln index (i + ((j + 1 : Nat) : Int)) 0 := by
        funext j; congr 1; push_cast; ring
      obtain ⟨a1, a2⟩ := ih m (i + 1) (ds ++ [i]) _ (Nat.lt_of_succ_lt_succ hm) hrest herr2
      obtain ⟨b1, b2⟩ := ih m (i + 1) ds _ (Nat.lt_of_succ_lt_succ hm) hrest herr2
      rw [hfun2, trace_call] at a2 b2
      rw [range_succ_map]
      unfold enumLoop
      dsimp only
      rw [Err_call, h0]
      dsimp only
      split
      · rw [a1, a2]; simp
      · rw [b1, b2]; simp

theorem errAt_emit (k : Consts) (w : World) (e : Event) (n : Nat) :
    errAt k (w.emit e) n = errAt k w n := rfl

theorem outAt_emit (w : World) (e : Event) (n : Nat) :
    outAt (w.emit e) n = outAt w n := rfl

theorem calls_emit (w : World) (e : Event) : (w.emit e).calls = w.calls := rfl

theorem trace_emit (w : World) (e : Event) : (w.emit e).trace = w.trace ++ [e] := rfl

theorem boards_emit (w : World) (e : Event) : (w.emit e).boards = w.boards := rfl

theorem boards_call (w : World) (e : Event) : (w.call e).2.boards = w.boards := rfl

theorem devices_emit (w : World) (e : Event) : (w.emit e).devices = w.devices := rfl

theorem devices_call (w : World) (e : Event) : (w.call e).2.devices = w.devices := rfl

/-- The addresses found are in strictly ascending order, and they are the
addresses whose probe wrote a non-zero `found_listener`. -/
theorem listeners_sorted (w : World) (base n : Nat) :
    (listeners w base n).Pairwise (fun a b => a < b) ∧
    ∀ a, a ∈ listeners w base n ↔ ∃ j : Nat, j < n ∧ a = 1 + (j : Int) ∧ outAt w (base + j) ≠ 0 := by
  constructor
  · unfold listeners
    rw [List.pairwise_map]
    refine List.Pairwise.imp ?_ ((List.pairwise_lt_range n).filter _)
    intro a b hab
    omega
  · intro a
    unfold listeners
    simp only [List.mem_map, List.mem_filter, List.mem_range, decide_eq_true_eq]
    constructor
    · rintro ⟨j, ⟨hj, ho⟩, rfl⟩
      exact ⟨j, hj, rfl, ho⟩
    · rintro ⟨j, hj, rfl, ho⟩
      exact ⟨j, ⟨hj, ho⟩, rfl⟩

/-- Claim C12: when the interface clear succeeds, the bus-line query succeeds
with NDAC-valid set, and all 30 probes succeed, `Board.Enumerate` issues
`Ibsic`, `Iblines` and then the probes `Ibln(index, 1, 0)`, ...,
`Ibln(index, 30, 0)` in that order (address 0 is not among them), and returns
the addresses whose probe signalled a listener; the list returned is strictly
ascending, so it has no duplicates. -/
theorem Enumerate_lists_listeners (k : Consts) (w : World) (b : Nat)
    (hsic : errAt k w w.calls = none)
    (hlines : errAt k w (w.calls + 1) = none)
    (hndac : Int.land (outAt w (w.calls + 1)) k.ValidNDAC ≠ 0)
    (hprobes : ∀ j, j < 30 → errAt k w (w.calls + 2 + j) = none) :
    (Board.Enumerate k b w).1 = Except.ok (listeners w (w.calls + 2) 30) ∧
    (Board.Enumerate k b w).2.trace =
      w.trace ++ bracket (w.boards b).options.activity
        ([Event.Ibsic (w.boards b).index, Event.Iblines (w.boards b).index] ++
          probes (w.boards b).index 30) ∧
    (listeners w (w.calls + 2) 30).Pairwise (fun a c => a < c) ∧
    (∀ a, a ∈ listeners w (w.calls + 2) 30 ↔
      ∃ j : Nat, j < 30 ∧ a = 1 + (j : Int) ∧ outAt w (w.calls + 2 + j) ≠ 0) := by
  refine ⟨?_, ?_, (listeners_sorted w _ 30).1, (listeners_sorted w _ 30).2⟩
  · unfold Board.Enumerate
    rw [withActivity_fst]
    cases (w.boards b).options.activity <;> dsimp only <;>
      simp only [Err_call, out_call, calls_call, errAt_call, outAt_call, errAt_emit, outAt_emit,
        calls_emit, boards_call, boards_emit, hsic, hlines, hndac, if_false] <;>
      (refine (enumLoop_all_ok k _ 30 1 [] _ ?_).1.trans ?_
       · intro j hj
         simpa only [errAt_call, calls_call, errAt_emit, calls_emit] using hprobes j hj
       · simp only [outAt_call, calls_call, outAt_emit, calls_emit, listeners, List.nil_append])
  · unfold Board.Enumerate
    rw [withActivity_snd]
    cases (w.boards b).options.activity <;> dsimp only <;>
      simp only [Err_call, out_call, calls_call, errAt_call, outAt_call, errAt_emit, outAt_emit,
        calls_emit, boards_call, boards_emit, hsic, hlines, hndac, if_false, trace_emit] <;>
      (rw [(enumLoop_all_ok k _ 30 1 [] _ ?_).2]
       · simp [trace_call, trace_emit, bracket, probes]
       · intro j hj
         simpa only [errAt_call, calls_call, errAt_emit, calls_emit] using hprobes j hj)

/-- Claim C13: a failing step of `Board.Enumerate` ends it at once with an error
and no address list. An error of `Ibsic` or of `Iblines` is returned after
that call; when `Iblines` reports the NDAC-valid flag unset the error is
"board does not support monitoring NDAC" and no listener probe is issued; and
when the probe of address `m + 1` (`m < 30`) is the first to report an error,
that error is returned, whatever the earlier probes found, and the probes
issued are those of the addresses `1, ..., m + 1` and no other. -/
theorem Enumerate_aborts (k : Consts) (w : World) (b : Nat) :
    (∀ err, errAt k w w.calls = some err →
      (Board.Enumerate k b w).1 = Except.error err ∧
      (Board.Enumerate k b w).2.trace =
        w.trace ++ bracket (w.boards b).options.activity [Event.Ibsic (w.boards b).index]) ∧
    (errAt k w w.calls = none → ∀ err, errAt k w (w.calls + 1) = some err →
      (Board.Enumerate k b w).1 = Except.error err ∧
      (Board.Enumerate k b w).2.trace =
        w.trace ++ bracket (w.boards b).options.activity
          [Event.Ibsic (w.boards b).index, Event.Iblines (w.boards b).index]) ∧
    (errAt k w w.calls = none → errAt k w (w.calls + 1) = none →
      Int.land (outAt w (w.calls + 1)) k.ValidNDAC = 0 →
      (Board.Enumerate k b w).1 =
        Except.error (Error.errorString "board does not support monitoring NDAC") ∧
      (Board.Enumerate k b w).2.trace =
        w.trace ++ bracket (w.boards b).options.activity
          [Event.Ibsic (w.boards b).index, Event.Iblines (w.boards b).index]) ∧
    (errAt k w w.calls = none → errAt k w (w.calls + 1) = none →
      Int.land (outAt w (w.calls + 1)) k.ValidNDAC ≠ 0 →
      ∀ m, m < 30 → (∀ j, j < m → errAt k w (w.calls + 2 + j) = none) →
      ∀ err, errAt k w (w.calls + 2 + m) = some err →
      (Board.Enumerate k b w).1 = Except.error err ∧
      (Board.Enumerate k b w).2.trace =
        w.trace ++ bracket (w.boards b).options.activity
          ([Event.Ibsic (w.boards b).index, Event.Iblines (w.boards b).index] ++
            probes (w.boards b).index (m + 1))) := by
  refine ⟨fun err hsic => ?_, fun hsic err hlines => ?_, fun hsic hlines hndac => ?_,
    fun hsic hlines hndac m hm hok err herr => ?_⟩
  · unfold Board.Enumerate
    rw [withActivity_fst, withActivity_snd]
    cases (w.boards b).options.activity <;>
      simp [Err_call, calls_emit, errAt_emit, boards_emit, hsic, bracket, trace_call, trace_emit]
  · unfold Board.Enumerate
    rw [withActivity_fst, withActivity_snd]
    cases (w.boards b).options.activity <;>
      simp [Err_call, calls_call, calls_emit, errAt_call, errAt_emit, boards_call, boards_emit,
        hsic, hlines, bracket, trace_call, trace_emit]
  · unfold Board.Enumerate
    rw [withActivity_fst, withActivity_snd]
    cases (w.boards b).options.activity <;>
      simp [Err_call, out_call, calls_call, calls_emit, errAt_call, errAt_emit, outAt_call,
        outAt_emit, boards_call, boards_emit, hsic, hlines, hndac, bracket, trace_call,
        trace_emit]
  · constructor
    · unfold Board.Enumerate
      rw [withActivity_fst]
      cases (w.boards b).options.activity <;> dsimp only <;>
        simp only [Err_call, out_call, calls_call, errAt_call, outAt_call, errAt_emit,
          outAt_emit, calls_emit, boards_call, boards_emit, hsic, hlines, hndac, if_false] <;>
        (refine (enumLoop_first_error k _ err 30 m 1 [] _ hm ?_ ?_).1
         · intro j hj
           simpa only [errAt_call, calls_call, errAt_emit, calls_emit] using hok j hj
         · simpa only [errAt_call, calls_call, errAt_emit, calls_emit] using herr)
    · unfold Board.Enumerate
      rw [withActivity_snd]
      cases (w.boards b).options.activity <;> dsimp only <;>
        simp only [Err_call, out_call, calls_call, errAt_call, outAt_call, errAt_emit,
          outAt_emit, calls_emit, boards_call, boards_emit, hsic, hlines, hndac, if_false,
          trace_emit] <;>
        (rw [(enumLoop_first_error k _ err 30 m 1 [] _ hm ?_ ?_).2]
         · simp [trace_call, trace_emit, bracket, probes]
         · intro j hj
           simpa only [errAt_call, calls_call, errAt_emit, calls_emit] using hok j hj
         · simpa only [errAt_call, calls_call, errAt_emit, calls_emit] using herr)

/-! ## The polling loop of `Device.Clear` -/

theorem boards_now (w : World) : w.now.2.boards = w.boards := rfl

theorem calls_now (w : World) : w.now.2.calls = w.calls := rfl

theorem trace_now (w : World) : w.now.2.trace = w.trace := rfl

theorem ticks_now (w : World) : w.now.2.ticks = w.ticks + 1 := rfl

theorem clock_now (w : World) : w.now.1 = w.clock w.ticks := rfl

theorem busyAt_next (k : Consts) (w : World) (n : Int) :
    busyAt k ((w.emit (Event.Sleep (50 * Millisecond))).call
      (Event.Iblines n)).2.now.2 = busyAt k w := rfl

theorem busyAt_next_call (k : Consts) (w : World) (n : Int) :
    busyAt k ((w.emit (Event.Sleep (50 * Millisecond))).call
      (Event.Iblines n)).2 = busyAt k w := rfl

/-- One round of the loop on a query that succeeds and reports NRFD valid and
asserted, with a non-zero timeout: the clock is read, and the loop ends with
`TimeoutErr` or goes on. -/
theorem clearLoop_busy_round (k : Consts) (d : Device) (cleared : Int) (fuel : Nat) (w : World)
    (hb : busyAt k w w.calls) (ht : d.options.timeout ≠ 0) :
    clearLoop k d cleared (fuel + 1) w =
      if w.clock w.ticks - cleared > d.options.timeout then
        some (some Error.TimeoutErr,
          ((w.emit (Event.Sleep (50 * Millisecond))).call
            (Event.Iblines (w.boards d.board).index)).2.now.2)
      else
        clearLoop k d cleared fuel
          ((w.emit (Event.Sleep (50 * Millisecond))).call
            (Event.Iblines (w.boards d.board).index)).2.now.2 := by
  obtain ⟨h1, h2, h3⟩ := hb
  have e1 : Err k ((w.emit (Event.Sleep (50 * Millisecond))).call
      (Event.Iblines (w.boards d.board).index)).2.regs
      ((w.emit (Event.Sleep (50 * Millisecond))).call
      (Event.Iblines (w.boards d.board).index)).1.ret = none := h1
  have e2 : ((w.emit (Event.Sleep (50 * Millisecond))).call
      (Event.Iblines (w.boards d.board).index)).1.out = outAt w w.calls := rfl
  rw [clearLoop]
  simp only [e1, e2]
  simp only [if_neg h2, if_neg h3, if_pos ht]
  rfl

/-- One round of the loop on such a query with a zero timeout: the loop goes
on without reading the clock. -/
theorem clearLoop_busy_round_zero (k : Consts) (d : Device) (cleared : Int) (fuel : Nat)
    (w : World) (hb : busyAt k w w.calls) (ht : d.options.timeout = 0) :
    clearLoop k d cleared (fuel + 1) w =
      clearLoop k d cleared fuel
        ((w.emit (Event.Sleep (50 * Millisecond))).call
          (Event.Iblines (w.boards d.board).index)).2 := by
  obtain ⟨h1, h2, h3⟩ := hb
  have e1 : Err k ((w.emit (Event.Sleep (50 * Millisecond))).call
      (Event.Iblines (w.boards d.board).index)).2.regs
      ((w.emit (Event.Sleep (50 * Millisecond))).call
      (Event.Iblines (w.boards d.board).index)).1.ret = none := h1
  have e2 : ((w.emit (Event.Sleep (50 * Millisecond))).call
      (Event.Iblines (w.boards d.board).index)).1.out = outAt w w.calls := rfl
  rw [clearLoop]
  simp only [e1, e2]
  simp only [if_neg h2, if_neg h3, if_neg (not_not.mpr ht)]

/-- One round of the loop on a query that succeeds and reports the NRFD-valid
flag unset: the 1 s sleep, and the loop ends without error. -/
theorem clearLoop_invalid_round (k : Consts) (d : Device) (cleared : Int) (fuel : Nat)
    (w : World) (hq : errAt k w w.calls = none)
    (hv : Int.land (outAt w w.calls) k.ValidNRFD = 0) :
    clearLoop k d cleared (fuel + 1) w =
      some (none,
        ((w.emit (Event.Sleep (50 * Millisecond))).call
          (Event.Iblines (w.boards d.board).index)).2.emit (Event.Sleep (1 * Second))) := by
  have e1 : Err k ((w.emit (Event.Sleep (50 * Millisecond))).call
      (Event.Iblines (w.boards d.board).index)).2.regs
      ((w.emit (Event.Sleep (50 * Millisecond))).call
      (Event.Iblines (w.boards d.board).index)).1.ret = none := hq
  have e2 : ((w.emit (Event.Sleep (50 * Millisecond))).call
      (Event.Iblines (w.boards d.board).index)).1.out = outAt w w.calls := rfl
  rw [clearLoop]
  simp only [e1, e2]
  simp only [if_pos hv]

/-- With a non-zero timeout and queries that keep reporting NRFD asserted, the
loop ends with `TimeoutErr` at the first round `m` (from 0) whose clock
reading is more than the timeout after `cleared`, after `m + 1` queries. -/
theorem clearLoop_times_out (k : Consts) (d : Device) (cleared : Int)
    (ht : d.options.timeout ≠ 0) (m : Nat) :
    ∀ (fuel : Nat) (w : World), m < fuel →
      (∀ j, j ≤ m → busyAt k w (w.calls + j)) →
      (∀ j, j < m → ¬ (w.clock (w.ticks + j) - cleared > d.options.timeout)) →
      w.clock (w.ticks + m) - cleared > d.options.timeout →
      ∃ v, clearLoop k d cleared fuel w = some (some Error.TimeoutErr, v) ∧
        v.trace = w.trace ++ polls (w.boards d.board).index (m + 1) := by
  induction m with
  | zero =>
    intro fuel w hf hb _ hx
    obtain ⟨f, rfl⟩ : ∃ f, fuel = f + 1 := ⟨fuel - 1, by omega⟩
    have hx0 : w.clock w.ticks - cleared > d.options.timeout := hx
    rw [clearLoop_busy_round k d cleared f w (hb 0 (le_refl _)) ht, if_pos hx0]
    exact ⟨_, rfl, by simp [polls, trace_now, trace_call, trace_emit]⟩
  | succ m ih =>
    intro fuel w hf hb hn hx
    obtain ⟨f, rfl⟩ : ∃ f, fuel = f + 1 := ⟨fuel - 1, by omega⟩
    have hn0 : ¬ (w.clock w.ticks - cleared > d.options.timeout) := hn 0 (Nat.succ_pos m)
    rw [clearLoop_busy_round k d cleared f w (hb 0 (Nat.zero_le _)) ht, if_neg hn0]
    obtain ⟨v, hv, htr⟩ := ih f _ (by omega)
      (fun j hj => by
        rw [busyAt_next, calls_now, calls_call, calls_emit, Nat.add_assoc, Nat.add_comm 1 j]
        exact hb (j + 1) (Nat.succ_le_succ hj))
      (fun j hj => by
        rw [ticks_now]
        show ¬ (w.clock (w.ticks + 1 + j) - cleared > d.options.timeout)
        rw [Nat.add_assoc, Nat.add_comm 1 j]
        exact hn (j + 1) (Nat.succ_lt_succ hj))
      (by
        rw [ticks_now]
        show w.clock (w.ticks + 1 + m) - cleared > d.options.timeout
        rw [Nat.add_assoc, Nat.add_comm 1 m]
        exact hx)
    refine ⟨v, hv, ?_⟩
    rw [htr]
    simp [polls, trace_now, trace_call, trace_emit, boards_now, boards_call, boards_emit]

/-- With a zero timeout and queries that keep reporting NRFD asserted, the
loop is still running after any number of rounds. -/
theorem clearLoop_unbounded (k : Consts) (d : Device) (cleared : Int)
    (ht : d.options.timeout = 0) (fuel : Nat) :
    ∀ w : World, (∀ j, busyAt k w (w.calls + j)) → clearLoop k d cleared fuel w = none := by
  induction fuel with
  | zero => intro w _; rfl
  | succ f ih =>
    intro w hb
    rw [clearLoop_busy_round_zero k d cleared f w (hb 0) ht]
    apply ih
    intro j
    rw [busyAt_next_call, calls_call, calls_emit, Nat.add_assoc, Nat.add_comm 1 j]
    exact hb (j + 1)

/-! ## `Device.Clear` -/

theorem entered_calls (a : Option Nat) (w : World) : (entered a w).calls = w.calls := by
  cases a <;> rfl

theorem entered_ticks (a : Option Nat) (w : World) : (entered a w).ticks = w.ticks := by
  cases a <;> rfl

theorem entered_clock (a : Option Nat) (w : World) : (entered a w).clock = w.clock := by
  cases a <;> rfl

theorem entered_adapter (a : Option Nat) (w : World) : (entered a w).adapter = w.adapter := by
  cases a <;> rfl

theorem entered_boards (a : Option Nat) (w : World) : (entered a w).boards = w.boards := by
  cases a <;> rfl

theorem entered_devices (a : Option Nat) (w : World) : (entered a w).devices = w.devices := by
  cases a <;> rfl

theorem entered_errAt (k : Consts) (a : Option Nat) (w : World) (n : Nat) :
    errAt k (entered a w) n = errAt k w n := by
  cases a <;> rfl

theorem entered_outAt (a : Option Nat) (w : World) (n : Nat) :
    outAt (entered a w) n = outAt w n := by
  cases a <;> rfl

theorem entered_busyAt (k : Consts) (a : Option Nat) (w : World) :
    busyAt k (entered a w) = busyAt k w := by
  cases a <;> rfl

theorem clock_call (w : World) (e : Event) : (w.call e).2.clock = w.clock := rfl

theorem ticks_call (w : World) (e : Event) : (w.call e).2.ticks = w.ticks := rfl

theorem clock_emit (w : World) (e : Event) : (w.emit e).clock = w.clock := rfl

theorem ticks_emit (w : World) (e : Event) : (w.emit e).ticks = w.ticks := rfl

/-- An operation whose body adds the events `es` adds `bracket a es`. -/
theorem departed_trace (a : Option Nat) (w v : World) (es : List Event)
    (h : v.trace = (entered a w).trace ++ es) :
    (departed a v).trace = w.trace ++ bracket a es := by
  cases a with
  | none => exact h
  | some f =>
    show v.trace ++ [Event.activity f false] = _
    rw [h]
    simp [entered, bracket, World.emit]

/-- On an open device whose clear command succeeds, `Clear` is the polling
loop, started after the command with the clock reading taken then, between
the two invocations of the activity callback. -/
theorem Clear_open (k : Consts) (fuel h : Nat) (w : World)
    (hopen : (w.devices h).isClosed = false) (hclr : errAt k w w.calls = none) :
    Device.Clear k fuel h w =
      (clearLoop k (w.devices h) (w.clock w.ticks) fuel
        ((entered (w.devices h).options.activity w).call
          (Event.Ibclr (w.devices h).ud)).2.now.2).map
        (fun r => (r.1, departed (w.devices h).options.activity r.2)) := by
  unfold Device.Clear
  simp only [hopen, Bool.false_eq_true, if_false]
  cases hact : (w.devices h).options.activity with
  | none =>
    simp only [entered, departed, Err_call, hclr, clock_now, clock_call, ticks_call]
    cases clearLoop k (w.devices h) (w.clock w.ticks) fuel
      (w.call (Event.Ibclr (w.devices h).ud)).2.now.2 <;> rfl
  | some f =>
    simp only [entered, departed, Err_call, errAt_emit, calls_emit, hclr, clock_now, clock_call,
      ticks_call, clock_emit, ticks_emit]
    cases clearLoop k (w.devices h) (w.clock w.ticks) fuel
      ((w.emit (Event.activity f true)).call (Event.Ibclr (w.devices h).ud)).2.now.2 <;> rfl

/-- Claim C14: on an open device whose clear command succeeds, while the
bus-line queries succeed and report NRFD valid and asserted: with a non-zero
configured timeout, `Clear` returns `TimeoutErr` at the first poll (number `m`,
from 0) at which the clock reads more than the timeout after the reading
taken when the clear command returned, having queried the bus lines `m + 1`
times, as soon as the bound on the loop allows `m + 1` rounds; with a zero
configured timeout `Clear` is still polling after any number of rounds, so it
never returns `TimeoutErr`. -/
theorem Clear_polling_timeout (k : Consts) (w : World) (h : Nat)
    (hopen : (w.devices h).isClosed = false) (hclr : errAt k w w.calls = none) :
    ((w.devices h).options.timeout ≠ 0 → ∀ m : Nat,
      (∀ j, j ≤ m → busyAt k w (w.calls + 1 + j)) →
      (∀ j, j < m →
        ¬ (w.clock (w.ticks + 1 + j) - w.clock w.ticks > (w.devices h).options.timeout)) →
      w.clock (w.ticks + 1 + m) - w.clock w.ticks > (w.devices h).options.timeout →
      ∀ fuel, m < fuel →
        ∃ v, Device.Clear k fuel h w = some (some Error.TimeoutErr, v) ∧
          v.trace = w.trace ++ bracket (w.devices h).options.activity
            (Event.Ibclr (w.devices h).ud ::
              polls (w.boards (w.devices h).board).index (m + 1))) ∧
    ((w.devices h).options.timeout = 0 →
      (∀ j, busyAt k w (w.calls + 1 + j)) →
      ∀ fuel, Device.Clear k fuel h w = none) := by
  constructor
  · intro ht m hb hn hx fuel hf
    rw [Clear_open k fuel h w hopen hclr]
    obtain ⟨v, hv, htr⟩ := clearLoop_times_out k (w.devices h) (w.clock w.ticks) ht m fuel
      ((entered (w.devices h).options.activity w).call (Event.Ibclr (w.devices h).ud)).2.now.2
      hf
      (fun j hj => by
        show busyAt k (entered (w.devices h).options.activity w)
          ((entered (w.devices h).options.activity w).calls + 1 + j)
        rw [entered_busyAt, entered_calls]; exact hb j hj)
      (fun j hj => by
        show ¬ ((entered (w.devices h).options.activity w).clock
          ((entered (w.devices h).options.activity w).ticks + 1 + j) - _ > _)
        rw [entered_clock, entered_ticks]; exact hn j hj)
      (by
        show (entered (w.devices h).options.activity w).clock
          ((entered (w.devices h).options.activity w).ticks + 1 + m) - _ > _
        rw [entered_clock, entered_ticks]; exact hx)
    rw [hv]
    refine ⟨_, rfl, ?_⟩
    apply departed_trace
    rw [htr]
    simp [trace_now, trace_call, boards_now, boards_call, entered_boards]
  · intro ht hb fuel
    rw [Clear_open k fuel h w hopen hclr]
    rw [clearLoop_unbounded k (w.devices h) (w.clock w.ticks) ht fuel]
    · rfl
    · intro j
      show busyAt k (entered (w.devices h).options.activity w)
        ((entered (w.devices h).options.activity w).calls + 1 + j)
      rw [entered_busyAt, entered_calls]; exact hb j

/-- Claim C15: on an open device whose clear command succeeds, when the first
bus-line query succeeds and reports the NRFD-valid flag unset, `Clear`
returns success after one 50 ms sleep, one bus-line query and the 1 s grace
sleep, whatever the NRFD line bit and the configured timeout are; one round of
the loop is all it takes. -/
theorem Clear_grace_sleep (k : Consts) (w : World) (h : Nat)
    (hopen : (w.devices h).isClosed = false) (hclr : errAt k w w.calls = none)
    (hq : errAt k w (w.calls + 1) = none)
    (hv : Int.land (outAt w (w.calls + 1)) k.ValidNRFD = 0) (fuel : Nat) :
    ∃ v, Device.Clear k (fuel + 1) h w = some (none, v) ∧
      v.trace = w.trace ++ bracket (w.devices h).options.activity
        [Event.Ibclr (w.devices h).ud, Event.Sleep (50 * Millisecond),
         Event.Iblines (w.boards (w.devices h).board).index, Event.Sleep (1 * Second)] := by
  rw [Clear_open k (fuel + 1) h w hopen hclr]
  rw [clearLoop_invalid_round k (w.devices h) (w.clock w.ticks) fuel
    ((entered (w.devices h).options.activity w).call (Event.Ibclr (w.devices h).ud)).2.now.2
    (by
      show errAt k (entered (w.devices h).options.activity w)
        ((entered (w.devices h).options.activity w).calls + 1) = none
      rw [entered_errAt, entered_calls]; exact hq)
    (by
      show Int.land (outAt (entered (w.devices h).options.activity w)
        ((entered (w.devices h).options.activity w).calls + 1)) k.ValidNRFD = 0
      rw [entered_outAt, entered_calls]; exact hv)]
  refine ⟨_, rfl, ?_⟩
  apply departed_trace
  simp [trace_now, trace_call, trace_emit, boards_now, boards_call, entered_boards]

/-! ## `Board.NewDevice`: remote enable and the activity callback -/

theorem ndevices_call (w : World) (e : Event) : (w.call e).2.ndevices = w.ndevices := rfl

theorem ndevices_emit (w : World) (e : Event) : (w.emit e).ndevices = w.ndevices := rfl

/-- The low-level open adds the `Ibdev` call to the trace and nothing else. -/
theorem openDevice_trace (k : Consts) (b : Nat) (addr : Int) (o : options) (eos : Int)
    (w : World) :
    (openDevice k b addr o eos w).2.trace =
      w.trace ++ [Event.Ibdev (w.boards b).index (k.GetPAD addr) (k.GetSAD addr)
        (Timeout k o.timeout) 1 eos] := by
  unfold openDevice
  dsimp only
  split
  · split <;> rfl
  · rfl

/-- Claim C16: past its precondition checks (the merged read-EOS option is
valid and the address is not in the active set), `Board.NewDevice` issues
`Ibsre(board index, 1)` exactly when the board's active set is empty: when it
is empty that call comes first, and `Ibdev` follows it only if it reports no
error; when it is not empty `Ibdev` is the only call. If `Ibsre` reports an
error, `NewDevice` returns "ibsre failed", issues no `Ibdev`, allocates no
device and leaves the active set empty. -/
theorem NewDevice_remote_enable (k : Consts) (w : World) (b : Nat) (addr : Int)
    (opts : List Opt) (eos : Int)
    (heos : eosMode k (applyOpts opts (w.boards b).options).readEOS = some eos)
    (hfree : addr ∉ (w.boards b).activeDevices) :
    ((w.boards b).activeDevices = [] →
      (∀ err, errAt k w w.calls = some err →
        (Board.NewDevice k b addr opts w).1 =
          Except.error (Error.errorString "ibsre failed") ∧
        (Board.NewDevice k b addr opts w).2.trace =
          w.trace ++ bracket (w.boards b).options.activity
            [Event.Ibsre (w.boards b).index 1] ∧
        ((Board.NewDevice k b addr opts w).2.boards b).activeDevices = [] ∧
        (Board.NewDevice k b addr opts w).2.ndevices = w.ndevices) ∧
      (errAt k w w.calls = none →
        (Board.NewDevice k b addr opts w).2.trace =
          w.trace ++ bracket (w.boards b).options.activity
            [Event.Ibsre (w.boards b).index 1,
             Event.Ibdev (w.boards b).index (k.GetPAD addr) (k.GetSAD addr)
               (Timeout k (applyOpts opts (w.boards b).options).timeout) 1 eos])) ∧
    ((w.boards b).activeDevices ≠ [] →
      (Board.NewDevice k b addr opts w).2.trace =
        w.trace ++ bracket (w.boards b).options.activity
          [Event.Ibdev (w.boards b).index (k.GetPAD addr) (k.GetSAD addr)
            (Timeout k (applyOpts opts (w.boards b).options).timeout) 1 eos]) := by
  have hg : mapGet (w.boards b).activeDevices addr = false := by simpa [mapGet] using hfree
  refine ⟨fun hempty => ⟨fun err herr => ?_, fun hok => ?_⟩, fun hne => ?_⟩
  · unfold Board.NewDevice cloneOptions
    simp only [heos, hg, Bool.false_eq_true, if_false]
    rw [withActivity_fst, withActivity_snd]
    cases (w.boards b).options.activity <;>
      simp [Err_call, calls_emit, errAt_emit, boards_emit, boards_call, hempty, herr, bracket,
        trace_call, trace_emit, ndevices_call, ndevices_emit]
  · unfold Board.NewDevice cloneOptions
    simp only [heos, hg, Bool.false_eq_true, if_false]
    rw [withActivity_snd]
    cases (w.boards b).options.activity <;>
      simp [Err_call, calls_emit, errAt_emit, boards_emit, boards_call, hempty, hok, bracket,
        trace_call, trace_emit, openDevice_trace]
  · have hl : ¬ (w.boards b).activeDevices.length = 0 := by
      rw [List.length_eq_zero]; exact hne
    unfold Board.NewDevice cloneOptions
    simp only [heos, hg, Bool.false_eq_true, if_false]
    rw [withActivity_snd]
    cases (w.boards b).options.activity <;>
      simp [boards_emit, hl, bracket, trace_emit, openDevice_trace]

/-! ## The activity callback around the device operations -/

theorem quiet_refl (w : World) : Quiet w w := ⟨[], by simp, by simp⟩

theorem quiet_trans {w v u : World} (h1 : Quiet w v) (h2 : Quiet v u) : Quiet w u := by
  obtain ⟨es1, t1, q1⟩ := h1
  obtain ⟨es2, t2, q2⟩ := h2
  refine ⟨es1 ++ es2, by rw [t2, t1, List.append_assoc], ?_⟩
  intro e he
  rcases List.mem_append.mp he with h | h
  · exact q1 e h
  · exact q2 e h

theorem quiet_emit (w : World) (e : Event) (he : Event.isActivity e = false) :
    Quiet w (w.emit e) :=
  ⟨[e], rfl, by simpa using he⟩

theorem quiet_call (w : World) (e : Event) (he : Event.isActivity e = false) :
    Quiet w (w.call e).2 :=
  ⟨[e], rfl, by simpa using he⟩

theorem quiet_now (w : World) : Quiet w w.now.2 := quiet_refl w

/-- The polling loop of `Clear` invokes no activity callback. -/
theorem quiet_clearLoop (k : Consts) (d : Device) (cleared : Int) (fuel : Nat) :
    ∀ (w : World) (r : Option Error × World),
      clearLoop k d cleared fuel w = some r → Quiet w r.2 := by
  induction fuel with
  | zero => intro w r h; simp [clearLoop] at h
  | succ n ih =>
    intro w r h
    unfold clearLoop at h
    dsimp only at h
    have hc : Quiet w ((w.emit (Event.Sleep (50 * Millisecond))).call
        (Event.Iblines (w.boards d.board).index)).2 :=
      quiet_trans (quiet_emit _ _ (by rfl)) (quiet_call _ _ (by rfl))
    split at h
    · cases h; exact hc
    · split at h
      · cases h; exact quiet_trans hc (quiet_emit _ _ (by rfl))
      · split at h
        · cases h; exact hc
        · split at h
          · split at h
            · cases h; exact quiet_trans hc (quiet_now _)
            · exact quiet_trans (quiet_trans hc (quiet_now _)) (ih _ _ h)
          · exact quiet_trans hc (ih _ _ h)

/-- A body that invokes no callback, run between the two invocations of `f`. -/
theorem bracketed_of_quiet (f : Nat) (w v : World)
    (h : Quiet (w.emit (Event.activity f true)) v) :
    Bracketed f w (v.emit (Event.activity f false)) := by
  obtain ⟨es, t, q⟩ := h
  refine ⟨es, ?_, q⟩
  rw [trace_emit, t, trace_emit]

/-- One round of the loop on a query that fails or does not report NRFD valid
and asserted: the loop ends in that round. -/
theorem clearLoop_idle_round (k : Consts) (d : Device) (cleared : Int) (fuel : Nat) (w : World)
    (hb : ¬ busyAt k w w.calls) :
    ∃ r, clearLoop k d cleared (fuel + 1) w = some r := by
  have e1 : Err k ((w.emit (Event.Sleep (50 * Millisecond))).call
      (Event.Iblines (w.boards d.board).index)).2.regs
      ((w.emit (Event.Sleep (50 * Millisecond))).call
      (Event.Iblines (w.boards d.board).index)).1.ret = errAt k w w.calls := rfl
  have e2 : ((w.emit (Event.Sleep (50 * Millisecond))).call
      (Event.Iblines (w.boards d.board).index)).1.out = outAt w w.calls := rfl
  rw [clearLoop]
  simp only [e1, e2]
  cases hq : errAt k w w.calls with
  | some err => exact ⟨_, rfl⟩
  | none =>
    dsimp only
    by_cases hv : Int.land (outAt w w.calls) k.ValidNRFD = 0
    · rw [if_pos hv]; exact ⟨_, rfl⟩
    · rw [if_neg hv]
      by_cases hn : Int.land (outAt w w.calls) k.BusNRFD = 0
      · rw [if_pos hn]; exact ⟨_, rfl⟩
      · exact absurd ⟨hq, hv, hn⟩ hb

/-- The loop ends as soon as its bound allows, when at some round `m` (from 0)
the query fails or does not report NRFD valid and asserted, or the timeout is
non-zero and the clock reads more than the timeout after `cleared`. -/
theorem clearLoop_ends (k : Consts) (d : Device) (cleared : Int) (m : Nat) :
    ∀ (fuel : Nat) (w : World), m < fuel →
      (¬ busyAt k w (w.calls + m) ∨
        (d.options.timeout ≠ 0 ∧ w.clock (w.ticks + m) - cleared > d.options.timeout)) →
      ∃ r, clearLoop k d cleared fuel w = some r := by
  induction m with
  | zero =>
    intro fuel w hf hs
    obtain ⟨f, rfl⟩ : ∃ f, fuel = f + 1 := ⟨fuel - 1, by omega⟩
    by_cases hb : busyAt k w w.calls
    · rcases hs with hs | ⟨ht, hx⟩
      · exact absurd hb hs
      · have hx0 : w.clock w.ticks - cleared > d.options.timeout := hx
        rw [clearLoop_busy_round k d cleared f w hb ht, if_pos hx0]
        exact ⟨_, rfl⟩
    · exact clearLoop_idle_round k d cleared f w hb
  | succ m ih =>
    intro fuel w hf hs
    obtain ⟨f, rfl⟩ : ∃ f, fuel = f + 1 := ⟨fuel - 1, by omega⟩
    by_cases hb : busyAt k w w.calls
    · by_cases ht : d.options.timeout = 0
      · rw [clearLoop_busy_round_zero k d cleared f w hb ht]
        apply ih f _ (by omega)
        rcases hs with hs | ⟨ht2, _⟩
        · left
          rw [busyAt_next_call, calls_call, calls_emit, Nat.add_assoc, Nat.add_comm 1 m]
          exact hs
        · exact absurd ht ht2
      · rw [clearLoop_busy_round k d cleared f w hb ht]
        by_cases hx : w.clock w.ticks - cleared > d.options.timeout
        · rw [if_pos hx]; exact ⟨_, rfl⟩
        · rw [if_neg hx]
          apply ih f _ (by omega)
          rcases hs with hs | ⟨ht2, hx2⟩
          · left
            rw [busyAt_next, calls_now, calls_call, calls_emit, Nat.add_assoc, Nat.add_comm 1 m]
            exact hs
          · right
            refine ⟨ht2, ?_⟩
            rw [ticks_now]
            show w.clock (w.ticks + 1 + m) - cleared > d.options.timeout
            rw [Nat.add_assoc, Nat.add_comm 1 m]
            exact hx2
    · exact clearLoop_idle_round k d cleared f w hb

/-- While every query succeeds and reports NRFD valid and asserted, and the
timeout is zero or no clock reading is more than the timeout after `cleared`,
the loop is still running after any number of rounds. -/
theorem clearLoop_goes_on (k : Consts) (d : Device) (cleared : Int) (fuel : Nat) :
    ∀ w : World,
      (∀ m, busyAt k w (w.calls + m) ∧
        ¬ (d.options.timeout ≠ 0 ∧ w.clock (w.ticks + m) - cleared > d.options.timeout)) →
      clearLoop k d cleared fuel w = none := by
  induction fuel with
  | zero => intro w _; rfl
  | succ f ih =>
    intro w hs
    by_cases ht : d.options.timeout = 0
    · rw [clearLoop_busy_round_zero k d cleared f w (hs 0).1 ht]
      apply ih
      intro m
      refine ⟨?_, fun hx => hx.1 ht⟩
      rw [busyAt_next_call, calls_call, calls_emit, Nat.add_assoc, Nat.add_comm 1 m]
      exact (hs (m + 1)).1
    · have hx : ¬ (w.clock w.ticks - cleared > d.options.timeout) :=
        fun hx => (hs 0).2 ⟨ht, hx⟩
      rw [clearLoop_busy_round k d cleared f w (hs 0).1 ht, if_neg hx]
      apply ih
      intro m
      constructor
      · rw [busyAt_next, calls_now, calls_call, calls_emit, Nat.add_assoc, Nat.add_comm 1 m]
        exact (hs (m + 1)).1
      · rw [ticks_now]
        show ¬ (d.options.timeout ≠ 0 ∧
          w.clock (w.ticks + 1 + m) - cleared > d.options.timeout)
        rw [Nat.add_assoc, Nat.add_comm 1 m]
        exact (hs (m + 1)).2

/-- A result of the loop does not depend on the bound: a larger bound gives
the same result. -/
theorem clearLoop_fuel_mono (k : Consts) (d : Device) (cleared : Int) (fuel : Nat) :
    ∀ (w : World) (r : Option Error × World) (fuel2 : Nat), fuel ≤ fuel2 →
      clearLoop k d cleared fuel w = some r → clearLoop k d cleared fuel2 w = some r := by
  induction fuel with
  | zero => intro w r fuel2 _ h; simp [clearLoop] at h
  | succ f ih =>
    intro w r fuel2 hf h
    obtain ⟨g, rfl⟩ : ∃ g, fuel2 = g + 1 := ⟨fuel2 - 1, by omega⟩
    have hg : f ≤ g := by omega
    unfold clearLoop at h ⊢
    dsimp only at h ⊢
    split
    · rename_i e he
      simp only [he] at h
      exact h
    · rename_i he
      simp only [he] at h
      split
      · rename_i hv
        rw [if_pos hv] at h; exact h
      · rename_i hv
        rw [if_neg hv] at h
        split
        · rename_i hn
          rw [if_pos hn] at h; exact h
        · rename_i hn
          rw [if_neg hn] at h
          split
          · rename_i ht
            rw [if_pos ht] at h
            split
            · rename_i hx
              rw [if_pos hx] at h; exact h
            · rename_i hx
              rw [if_neg hx] at h
              exact ih _ _ _ hg h
          · rename_i ht
            rw [if_neg ht] at h
            exact ih _ _ _ hg h

/-- On an open device whose clear command reports an error, `Clear` returns
that error without entering the polling loop, whatever the bound. -/
theorem Clear_command_fails (k : Consts) (fuel h : Nat) (w : World)
    (hopen : (w.devices h).isClosed = false) (err : Error)
    (hclr : errAt k w w.calls = some err) :
    Device.Clear k fuel h w =
      some (some err, departed (w.devices h).options.activity
        ((entered (w.devices h).options.activity w).call (Event.Ibclr (w.devices h).ud)).2) := by
  unfold Device.Clear
  simp only [hopen, Bool.false_eq_true, if_false]
  cases hact : (w.devices h).options.activity with
  | none => simp only [entered, departed, Err_call, hclr]
  | some f => simp only [entered, departed, Err_call, errAt_emit, calls_emit, hclr]

/-- `Clear` on an open device returns exactly when the clear command reports
an error or some round of the polling loop ends it: its query fails or does
not report NRFD valid and asserted, or the timeout is non-zero and the clock
reads more than the timeout after the reading taken when the clear command
returned. In the second case a bound above the number of that round is
enough. -/
theorem Clear_returns (k : Consts) (w : World) (h : Nat)
    (hopen : (w.devices h).isClosed = false) :
    (errAt k w w.calls ≠ none → ∀ fuel, ∃ r, Device.Clear k fuel h w = some r) ∧
    (∀ m, (¬ busyAt k w (w.calls + 1 + m) ∨
        ((w.devices h).options.timeout ≠ 0 ∧
          w.clock (w.ticks + 1 + m) - w.clock w.ticks > (w.devices h).options.timeout)) →
      ∀ fuel, m < fuel → ∃ r, Device.Clear k fuel h w = some r) ∧
    (errAt k w w.calls = none →
      (∀ m, busyAt k w (w.calls + 1 + m) ∧
        ¬ ((w.devices h).options.timeout ≠ 0 ∧
          w.clock (w.ticks + 1 + m) - w.clock w.ticks > (w.devices h).options.timeout)) →
      ∀ fuel, Device.Clear k fuel h w = none) := by
  refine ⟨fun hclr fuel => ?_, fun m hs fuel hf => ?_, fun hclr hs fuel => ?_⟩
  · cases he : errAt k w w.calls with
    | none => exact absurd he hclr
    | some err => exact ⟨_, Clear_command_fails k fuel h w hopen err he⟩
  · cases he : errAt k w w.calls with
    | some err => exact ⟨_, Clear_command_fails k fuel h w hopen err he⟩
    | none =>
      rw [Clear_open k fuel h w hopen he]
      obtain ⟨r, hr⟩ := clearLoop_ends k (w.devices h) (w.clock w.ticks) m fuel
        ((entered (w.devices h).options.activity w).call (Event.Ibclr (w.devices h).ud)).2.now.2
        hf
        (by
          show ¬ busyAt k (entered (w.devices h).options.activity w)
              ((entered (w.devices h).options.activity w).calls + 1 + m) ∨
            ((w.devices h).options.timeout ≠ 0 ∧
              (entered (w.devices h).options.activity w).clock
                ((entered (w.devices h).options.activity w).ticks + 1 + m) - _ > _)
          rw [entered_busyAt, entered_calls, entered_clock, entered_ticks]
          exact hs)
      rw [hr]
      exact ⟨_, rfl⟩
  · rw [Clear_open k fuel h w hopen hclr]
    rw [clearLoop_goes_on k (w.devices h) (w.clock w.ticks) fuel]
    · rfl
    · intro m
      show busyAt k (entered (w.devices h).options.activity w)
          ((entered (w.devices h).options.activity w).calls + 1 + m) ∧
        ¬ ((w.devices h).options.timeout ≠ 0 ∧
          (entered (w.devices h).options.activity w).clock
            ((entered (w.devices h).options.activity w).ticks + 1 + m) - _ > _)
      rw [entered_busyAt, entered_calls, entered_clock, entered_ticks]
      exact hs m

/-- A result of `Clear` does not depend on the bound on its loop. -/
theorem Clear_fuel_mono (k : Consts) (w : World) (h : Nat) (fuel fuel2 : Nat)
    (r : Option Error × World) (hf : fuel ≤ fuel2)
    (hr : Device.Clear k fuel h w = some r) : Device.Clear k fuel2 h w = some r := by
  cases hc : (w.devices h).isClosed with
  | true =>
    unfold Device.Clear at hr ⊢
    simp only [hc, if_true] at hr ⊢
    exact hr
  | false =>
    cases he : errAt k w w.calls with
    | some err =>
      rw [Clear_command_fails k fuel h w hc err he] at hr
      rw [Clear_command_fails k fuel2 h w hc err he]
      exact hr
    | none =>
      rw [Clear_open k fuel h w hc he] at hr
      rw [Clear_open k fuel2 h w hc he]
      obtain ⟨r0, h0, h1⟩ := Option.map_eq_some'.mp hr
      rw [clearLoop_fuel_mono k (w.devices h) (w.clock w.ticks) fuel _ r0 fuel2 hf h0]
      rw [Option.map_some', h1]

/-- On an open device with the activity callback `f` configured, a `Clear`
that returns has added to the trace the invocation of `f` with true, then its
adapter calls and sleeps, then the invocation of `f` with false. -/
theorem Clear_bracketed (k : Consts) (w : World) (h f : Nat)
    (hopen : (w.devices h).isClosed = false)
    (hact : (w.devices h).options.activity = some f)
    (fuel : Nat) (r : Option Error × World) (hr : Device.Clear k fuel h w = some r) :
    Bracketed f w r.2 := by
  unfold Device.Clear at hr
  simp only [hopen, Bool.false_eq_true, if_false, hact] at hr
  split at hr
  · cases hr
    exact bracketed_of_quiet f w _ (quiet_call _ _ (by rfl))
  · split at hr
    · cases hr
    · rename_i x hx
      cases hr
      exact bracketed_of_quiet f w _
        (quiet_trans (quiet_trans (quiet_call _ _ (by rfl)) (quiet_now _))
          (quiet_clearLoop _ _ _ _ _ _ hx))

/-- Claim C18, amended: on an open device with the activity callback `f`
configured, each of `Close`, `Read`, `Write`, `SetTimeout`, `Spoll` and
`Trigger` returns (or, for `Read`, panics) having added to the trace the
invocation of `f` with true, then its adapter calls and sleeps, none of them
an invocation of a callback, then the invocation of `f` with false, whatever
the adapter answers. `Clear` does the same whenever it returns, and its result
does not depend on the bound on its loop. It returns, whatever that bound,
when the clear command reports an error; it returns as soon as the bound
allows round `m` (from 0) when in that round the bus-line query fails or does
not report NRFD valid and asserted, or the timeout is non-zero and the clock
reads more than the timeout after the reading taken when the clear command
returned. When the clear command succeeds and no round is such a round,
`Clear` never returns and the invocation with false never happens. -/
theorem device_ops_bracket_activity (k : Consts) (w : World) (h f : Nat)
    (hopen : (w.devices h).isClosed = false)
    (hact : (w.devices h).options.activity = some f) :
    (∀ fuel r, Device.Clear k fuel h w = some r →
      Bracketed f w r.2 ∧ ∀ fuel2, fuel ≤ fuel2 → Device.Clear k fuel2 h w = some r) ∧
    (errAt k w w.calls ≠ none →
      ∀ fuel, ∃ r, Device.Clear k fuel h w = some r ∧ Bracketed f w r.2) ∧
    (∀ m, (¬ busyAt k w (w.calls + 1 + m) ∨
        ((w.devices h).options.timeout ≠ 0 ∧
          w.clock (w.ticks + 1 + m) - w.clock w.ticks > (w.devices h).options.timeout)) →
      ∀ fuel, m < fuel → ∃ r, Device.Clear k fuel h w = some r ∧ Bracketed f w r.2) ∧
    (errAt k w w.calls = none →
      (∀ m, busyAt k w (w.calls + 1 + m) ∧
        ¬ ((w.devices h).options.timeout ≠ 0 ∧
          w.clock (w.ticks + 1 + m) - w.clock w.ticks > (w.devices h).options.timeout)) →
      ∀ fuel, Device.Clear k fuel h w = none) ∧
    Bracketed f w (Device.Close k h w).2 ∧
    (∀ len cap, Bracketed f w (Device.Read k h len cap w).2) ∧
    (∀ buf, Bracketed f w (Device.Write k h buf w).2) ∧
    (∀ t, Bracketed f w (Device.SetTimeout k h t w).2) ∧
    Bracketed f w (Device.Spoll k h w).2 ∧
    Bracketed f w (Device.Trigger k h w).2 := by
  refine ⟨fun fuel r hr => ⟨Clear_bracketed k w h f hopen hact fuel r hr,
      fun fuel2 hf => Clear_fuel_mono k w h fuel fuel2 r hf hr⟩,
    fun hclr fuel => ?_, fun m hs fuel hf => ?_, (Clear_returns k w h hopen).2.2,
    ?_, fun len cap => ?_, fun buf => ?_, fun t => ?_, ?_, ?_⟩
  · obtain ⟨r, hr⟩ := (Clear_returns k w h hopen).1 hclr fuel
    exact ⟨r, hr, Clear_bracketed k w h f hopen hact fuel r hr⟩
  · obtain ⟨r, hr⟩ := (Clear_returns k w h hopen).2.1 m hs fuel hf
    exact ⟨r, hr, Clear_bracketed k w h f hopen hact fuel r hr⟩
  · unfold Device.Close
    simp only [hopen, Bool.false_eq_true, if_false, hact]
    rw [withActivity_snd]
    dsimp only
    apply bracketed_of_quiet
    have h3 : ∀ v : World, v.trace = (w.emit (Event.activity f true)).trace →
        ∀ e, Event.isActivity e = false → Quiet (w.emit (Event.activity f true)) (v.call e).2 :=
      fun v hv e he => ⟨[e], by rw [trace_call, hv], by simpa using he⟩
    split
    · exact h3 _ rfl _ (by rfl)
    · split
      · split
        · exact quiet_trans (h3 _ rfl _ (by rfl)) (quiet_call _ _ (by rfl))
        · exact quiet_trans (h3 _ rfl _ (by rfl)) (quiet_call _ _ (by rfl))
      · exact h3 _ rfl _ (by rfl)
  · unfold Device.Read
    simp only [hopen, Bool.false_eq_true, if_false, hact]
    rw [withActivity_snd]
    dsimp only
    apply bracketed_of_quiet
    split
    · exact quiet_refl _
    · split
      · exact quiet_call _ _ (by rfl)
      · split
        · exact quiet_call _ _ (by rfl)
        · exact quiet_call _ _ (by rfl)
  · unfold Device.Write
    simp only [hopen, Bool.false_eq_true, if_false, hact]
    rw [withActivity_snd]
    exact bracketed_of_quiet f w _ (quiet_call _ _ (by rfl))
  · unfold Device.SetTimeout
    simp only [hopen, Bool.false_eq_true, if_false, hact]
    rw [withActivity_snd]
    dsimp only
    apply bracketed_of_quiet
    split
    · exact quiet_call _ _ (by rfl)
    · exact quiet_call _ _ (by rfl)
  · unfold Device.Spoll
    simp only [hopen, Bool.false_eq_true, if_false, hact]
    rw [withActivity_snd]
    dsimp only
    apply bracketed_of_quiet
    split
    · exact quiet_call _ _ (by rfl)
    · exact quiet_call _ _ (by rfl)
  · unfold Device.Trigger
    simp only [hopen, Bool.false_eq_true, if_false, hact]
    rw [withActivity_snd]
    dsimp only
    apply bracketed_of_quiet
    split
    · exact quiet_call _ _ (by rfl)
    · exact quiet_call _ _ (by rfl)

theorem Enumerate_lists_listeners_witness :
    (Board.Enumerate gpibUser 0 scanBoard).1 = Except.ok [5, 9] ∧
    (Board.Enumerate gpibUser 0 scanBoard).2.trace =
      scanBoard.trace ++ ([Event.Ibsic 0, Event.Iblines 0] ++ probes 0 30) :=
  ⟨(Enumerate_lists_listeners gpibUser scanBoard 0 (by decide) (by decide) (by decide)
      (by decide)).1.trans (by decide),
   (Enumerate_lists_listeners gpibUser scanBoard 0 (by decide) (by decide) (by decide)
      (by decide)).2.1⟩

theorem Enumerate_aborts_witness :
    (Board.Enumerate gpibUser 0 plainBoard).1 =
      Except.error (Error.errorString "board does not support monitoring NDAC") ∧
    (Board.Enumerate gpibUser 0 plainBoard).2.trace =
      plainBoard.trace ++ [Event.Ibsic 0, Event.Iblines 0] ∧
    outAt brokenScanBoard (brokenScanBoard.calls + 2 + 4) ≠ 0 ∧
    (Board.Enumerate gpibUser 0 brokenScanBoard).1 =
      Except.error (Error.errorString "ENOL") ∧
    (Board.Enumerate gpibUser 0 brokenScanBoard).2.trace =
      brokenScanBoard.trace ++ ([Event.Ibsic 0, Event.Iblines 0] ++ probes 0 15) :=
  ⟨((Enumerate_aborts gpibUser plainBoard 0).2.2.1 (by decide) (by decide) (by decide)).1,
   ((Enumerate_aborts gpibUser plainBoard 0).2.2.1 (by decide) (by decide) (by decide)).2,
   by decide,
   ((Enumerate_aborts gpibUser brokenScanBoard 0).2.2.2 (by decide) (by decide) (by decide)
      14 (by decide) (by decide) (Error.errorString "ENOL") (by decide)).1,
   ((Enumerate_aborts gpibUser brokenScanBoard 0).2.2.2 (by decide) (by decide) (by decide)
      14 (by decide) (by decide) (Error.errorString "ENOL") (by decide)).2⟩

theorem busyAdapter_busy (w : World) (hw : w.adapter = busyAdapter) (n : Nat) :
    busyAt gpibUser w n := by
  simp only [busyAt, errAt, outAt, hw, busyAdapter]
  decide

theorem Clear_polling_timeout_witness :
    (∃ v, Device.Clear gpibUser 3 0 busyDevice = some (some Error.TimeoutErr, v) ∧
      v.trace = busyDevice.trace ++ (Event.Ibclr 256 :: polls 0 3)) ∧
    Device.Clear gpibUser 1000 0 patientDevice = none :=
  ⟨(Clear_polling_timeout gpibUser busyDevice 0 (by decide) (by decide)).1 (by decide) 2
      (by decide) (by decide) (by decide) 3 (by decide),
   (Clear_polling_timeout gpibUser patientDevice 0 (by decide) (by decide)).2 (by decide)
      (fun j => busyAdapter_busy patientDevice rfl _) 1000⟩

theorem Clear_grace_sleep_witness :
    ∃ v, Device.Clear gpibUser 1 0 oneDevice = some (none, v) ∧
      v.trace = oneDevice.trace ++
        [Event.Ibclr 256, Event.Sleep (50 * Millisecond), Event.Iblines 0,
         Event.Sleep (1 * Second)] :=
  Clear_grace_sleep gpibUser oneDevice 0 (by decide) (by decide) (by decide) (by decide) 0

theorem NewDevice_remote_enable_witness :
    (Board.NewDevice gpibUser 0 6 [] deadBoard).1 =
      Except.error (Error.errorString "ibsre failed") ∧
    (Board.NewDevice gpibUser 0 6 [] deadBoard).2.trace =
      deadBoard.trace ++
        [Event.activity 7 true, Event.Ibsre 0 1, Event.activity 7 false] ∧
    (Board.NewDevice gpibUser 0 6 [] oneDevice).2.trace =
      oneDevice.trace ++ [Event.Ibdev 0 6 0 13 1 0] :=
  ⟨(((NewDevice_remote_enable gpibUser deadBoard 0 6 [] 0 (by decide) (by decide)).1
      (by decide)).1 (Error.errorString "ENOL") (by decide)).1,
   (((NewDevice_remote_enable gpibUser deadBoard 0 6 [] 0 (by decide) (by decide)).1
      (by decide)).1 (Error.errorString "ENOL") (by decide)).2.1,
   (NewDevice_remote_enable gpibUser oneDevice 0 6 [] 0 (by decide) (by decide)).2
      (by decide)⟩

/-- Claim C18 fails for a `Clear` that never returns: the device 0 of
`patientDevice` is open, has the activity callback 9 and the timeout 0, and
every bus-line query reports NRFD valid and asserted. `Clear` invokes the
callback with true, issues the clear command and enters the polling loop, and
the loop is still running after any number of rounds: `Clear` has no result,
so the invocation with false never happens. -/
theorem Clear_unending_skips_closing_callback :
    (patientDevice.devices 0).isClosed = false ∧
    (patientDevice.devices 0).options.activity = some 9 ∧
    (patientDevice.devices 0).options.timeout = 0 ∧
    ((patientDevice.emit (Event.activity 9 true)).call (Event.Ibclr 256)).2.now.2.trace =
      patientDevice.trace ++ [Event.activity 9 true, Event.Ibclr 256] ∧
    (∀ fuel, clearLoop gpibUser (patientDevice.devices 0) (patientDevice.clock patientDevice.ticks)
      fuel ((patientDevice.emit (Event.activity 9 true)).call (Event.Ibclr 256)).2.now.2 = none) ∧
    (∀ fuel, Device.Clear gpibUser fuel 0 patientDevice = none) ∧
    ¬ ∃ fuel r, Device.Clear gpibUser fuel 0 patientDevice = some r ∧
      Bracketed 9 patientDevice r.2 := by
  have hnone : ∀ fuel, Device.Clear gpibUser fuel 0 patientDevice = none :=
    (Clear_returns gpibUser patientDevice 0 (by decide)).2.2 (by decide)
      (fun m => ⟨busyAdapter_busy patientDevice rfl _, fun hx => hx.1 (by decide)⟩)
  refine ⟨by decide, by decide, by decide, by decide, fun fuel => ?_, hnone, ?_⟩
  · exact clearLoop_unbounded gpibUser _ _ (by decide) fuel _
      (fun j => busyAdapter_busy _ rfl _)
  · rintro ⟨fuel, r, hr, _⟩
    rw [hnone fuel] at hr
    cases hr

theorem device_ops_bracket_activity_witness :
    (twoDevices.devices 1).options.activity = some 9 ∧
    Bracketed 9 twoDevices (Device.Trigger gpibUser 1 twoDevices).2 ∧
    ∃ r, Device.Clear gpibUser 1 1 twoDevices = some r ∧ Bracketed 9 twoDevices r.2 :=
  ⟨by decide,
   (device_ops_bracket_activity gpibUser twoDevices 1 9 (by decide)
      (by decide)).2.2.2.2.2.2.2.2.2,
   (device_ops_bracket_activity gpibUser twoDevices 1 9 (by decide) (by decide)).2.2.1 0
      (Or.inl (by decide)) 1 (by decide)⟩

/-! ## Where the code departs from its documentation -/

/-- `SetTimeout` assigns to no device. -/
theorem SetTimeout_devices (k : Consts) (h : Nat) (t : Duration) (w : World) :
    (Device.SetTimeout k h t w).2.devices = w.devices := by
  unfold Device.SetTimeout
  dsimp only
  split
  · rfl
  · rw [withActivity_snd]
    cases (w.devices h).options.activity <;> dsimp only <;> split <;> rfl

/-- Claim C11 fails on the code: on a device opened with a timeout of 120 ms,
`SetTimeout(10ms)` succeeds and passes `Timeout(10ms)` to `Ibtmo`, but the
stored timeout is still 120 ms; a later `Clear` whose first poll comes 50 ms
after the clear command, more than the 10 ms just set, is still polling after
that poll, and times out at the third poll only, by the old 120 ms. -/
theorem SetTimeout_keeps_stored_timeout :
    (busyDevice.devices 0).isClosed = false ∧
    (Device.SetTimeout gpibUser 0 (10 * Millisecond) busyDevice).1 = none ∧
    (Device.SetTimeout gpibUser 0 (10 * Millisecond) busyDevice).2.trace =
      busyDevice.trace ++ [Event.Ibtmo 256 (Timeout gpibUser (10 * Millisecond))] ∧
    ((Device.SetTimeout gpibUser 0 (10 * Millisecond) busyDevice).2.devices 0).options.timeout
      = 120 * Millisecond ∧
    (Device.Clear gpibUser 1 0
      (Device.SetTimeout gpibUser 0 (10 * Millisecond) busyDevice).2).isNone = true ∧
    ((Device.Clear gpibUser 3 0
      (Device.SetTimeout gpibUser 0 (10 * Millisecond) busyDevice).2).map (fun r => r.1))
        = some (some Error.TimeoutErr) := by
  decide

/-- Claim C17 fails on the code: `Board.NewDevice` consults the board's
callback, not the one of the merged options. With no board-level callback and
the per-device option `Activity(9)`, the device gets the callback 9 but the
open (`Ibsre`, `Ibdev`) runs without any invocation of it; with the
board-level callback 7 and the per-device option `Activity(9)`, it is 7 that
is invoked around the open. -/
theorem NewDevice_invokes_board_callback :
    ((Board.NewDevice gpibUser 0 5 [Opt.Activity (some 9)] plainBoard).1 = Except.ok 0 ∧
     ((Board.NewDevice gpibUser 0 5 [Opt.Activity (some 9)] plainBoard).2.devices 0
        ).options.activity = some 9 ∧
     (Board.NewDevice gpibUser 0 5 [Opt.Activity (some 9)] plainBoard).2.trace =
        plainBoard.trace ++ [Event.Ibsre 0 1, Event.Ibdev 0 5 0 13 1 0]) ∧
    ((Board.NewDevice gpibUser 0 5 [Opt.Activity (some 9)] lampBoard).1 = Except.ok 0 ∧
     ((Board.NewDevice gpibUser 0 5 [Opt.Activity (some 9)] lampBoard).2.devices 0
        ).options.activity = some 9 ∧
     (Board.NewDevice gpibUser 0 5 [Opt.Activity (some 9)] lampBoard).2.trace =
        lampBoard.trace ++
          [Event.activity 7 true, Event.Ibsre 0 1, Event.Ibdev 0 5 0 13 1 0,
           Event.activity 7 false]) := by
  decide

/-! ## Log lines and status words -/

/-- Claim C19: for every byte slice `b`, `formatLog(b)` is the quoted rendering
of all of `b` when `len(b) <= 60`, and the quoted rendering of the first 40
bytes of `b` followed by "...(N bytes total)" with `N = len(b)` when
`len(b) > 60`; so a 60-byte input is rendered in full and a 61-byte input is
cut to its 40-byte prefix. -/
theorem formatLog_truncates (quote : List Nat → String) (b : List Nat) :
    (b.length ≤ 60 → formatLog quote b = quote b) ∧
    (60 < b.length →
      formatLog quote b =
        quote (b.take 40) ++ "...(" ++ toString b.length ++ " bytes total)") := by
  constructor
  · intro h
    unfold formatLog maxLogData
    rw [if_neg (Nat.not_lt.mpr h)]
  · intro h
    unfold formatLog maxLogData minLogHide
    rw [if_pos h]

theorem formatLog_truncates_witness :
    formatLog quotePrintable
        (bytes "0123456789----------0123456789----------0123456789----------") =
      quotePrintable (bytes "0123456789----------0123456789----------0123456789----------") ∧
    formatLog quotePrintable
        (bytes "0123456789----------0123456789----------0123456789----------0") =
      quotePrintable (bytes "0123456789----------0123456789----------") ++
        "...(61 bytes total)" :=
  ⟨(formatLog_truncates quotePrintable
      (bytes "0123456789----------0123456789----------0123456789----------")).1 (by decide),
   ((formatLog_truncates quotePrintable
      (bytes "0123456789----------0123456789----------0123456789----------0")).2
        (by decide)).trans (by decide)⟩

/-- Claim C20 fails: with the header's values, the status word with exactly the
`ERR` and `TIMO` bits set (0xC000) is rendered "ERR TIMO", not "TIMO ERR". -/
theorem FormatIbsta_ERR_TIMO_order :
    FormatIbsta gpibUser (Int.lor gpibUser.ERR gpibUser.TIMO) = "ERR TIMO" ∧
    FormatIbsta gpibUser (Int.lor gpibUser.ERR gpibUser.TIMO) ≠ "TIMO ERR" := by
  decide

/-- Claim C20, amended: `internal.FormatIbsta` applied to a status word in which
only the `ERR` and `TIMO` bits are set returns exactly the string "ERR TIMO":
the names come in the order of the scan, from the last entry of `ibstaCodes`
(`ERR`) down. -/
theorem FormatIbsta_only_ERR_TIMO (k : Consts) (ibsta : Int)
    (hE : Int.land ibsta k.ERR ≠ 0) (hT : Int.land ibsta k.TIMO ≠ 0)
    (hne : k.TIMO ≠ k.ERR)
    (ho : ∀ c ∈ (ibstaCodes k).take 14, Int.land ibsta c = 0) :
    FormatIbsta k ibsta = "ERR TIMO" := by
  have hd : ∀ c ∈ (ibstaCodes k).take 14, (k.ERR == c) = false ∧ (k.TIMO == c) = false := by
    intro c hc
    constructor
    · rw [beq_eq_false_iff_ne]
      intro h; exact hE (h ▸ ho c hc)
    · rw [beq_eq_false_iff_ne]
      intro h; exact hT (h ▸ ho c hc)
  have hne2 : (k.ERR == k.TIMO) = false := by
    rw [beq_eq_false_iff_ne]
    exact fun h => hne h.symm
  simp only [ibstaCodes, List.take, List.mem_cons, List.mem_singleton, forall_eq_or_imp,
    forall_eq, List.not_mem_nil, false_implies, implies_true, and_true] at ho hd
  obtain ⟨h1, h2, h3, h4, h5, h6, h7, h8, h9, h10, h11, h12, h13, h14⟩ := ho
  obtain ⟨⟨e1, t1⟩, ⟨e2, t2⟩, ⟨e3, t3⟩, ⟨e4, t4⟩, ⟨e5, t5⟩, ⟨e6, t6⟩, ⟨e7, t7⟩, ⟨e8, t8⟩,
    ⟨e9, t9⟩, ⟨e10, t10⟩, ⟨e11, t11⟩, ⟨e12, t12⟩, ⟨e13, t13⟩, ⟨e14, t14⟩⟩ := hd
  have hLE : (ibstaStrings k).lookup k.ERR = some "ERR" := by
    simp [ibstaStrings, List.lookup, e1, e2, e3, e4, e5, e6, e7, e8, e9, e10, e11, e12, e13,
      e14, hne2]
  have hLT : (ibstaStrings k).lookup k.TIMO = some "TIMO" := by
    simp [ibstaStrings, List.lookup, t1, t2, t3, t4, t5, t6, t7, t8, t9, t10, t11, t12, t13,
      t14]
  have hf : (ibstaCodes k).reverse.filter (fun code => decide (Int.land ibsta code ≠ 0)) =
      [k.ERR, k.TIMO] := by
    simp [ibstaCodes, List.filter, hE, hT, h1, h2, h3, h4, h5, h6, h7, h8, h9, h10, h11, h12,
      h13, h14]
  unfold FormatIbsta
  rw [hf]
  simp only [List.map, hLE, hLT, Option.getD_some]
  decide

theorem FormatIbsta_only_ERR_TIMO_witness :
    FormatIbsta gpibUser 0xC000 = "ERR TIMO" :=
  FormatIbsta_only_ERR_TIMO gpibUser 0xC000 (by decide) (by decide) (by decide) (by decide)


/-! ## Bus lines -/

/-- When no valid bit is set, `FormatIblines` returns the hexadecimal numeral
of the word and nothing else: the slice is never empty. -/
theorem FormatIblines_no_valid_bit (hex : Int → String) (iblines : Int)
    (h : ∀ l ∈ iblinesTable, Int.land l.1 iblines = 0) :
    FormatIblines hex iblines = hex iblines := by
  have hf : iblinesTable.filter (fun l => decide (Int.land l.1 iblines ≠ 0)) = [] := by
    rw [List.filter_eq_nil_iff]
    intro l hl
    simp [h l hl]
  unfold FormatIblines
  simp only [hf, List.map_nil, List.append_nil, List.length_singleton]
  simp [String.intercalate, String.intercalate.go]

/-- Claim C21 fails on the code: for the words 0 and 0xff00, in which none of the
8 valid bits is set, `FormatIblines` returns the hexadecimal numeral of the
word ("0", "ff00"), not "unavailable": the slice starts with that numeral, so
the test `len(s) == 0` never holds. -/
theorem FormatIblines_never_unavailable :
    (∀ l ∈ iblinesTable, Int.land l.1 0 = 0) ∧
    (∀ l ∈ iblinesTable, Int.land l.1 0xff00 = 0) ∧
    FormatIblines formatInt16 0 = "0" ∧
    FormatIblines formatInt16 0xff00 = "ff00" ∧
    FormatIblines formatInt16 0 ≠ "unavailable" ∧
    FormatIblines formatInt16 0xff00 ≠ "unavailable" := by
  decide

/-! ## Operations that assign to no board and to no device -/

theorem IsPassive.bracketedBody {R : World → World → Prop} (hR : IsPassive R) {α : Type}
    (a : Option Nat) (body : World → α × World) (hb : ∀ w, R w (body w).2) (w : World) :
    R w (withActivity a body w).2 := by
  cases a with
  | none => exact hb w
  | some f => exact hR.trans (hR.trans (hR.emit w _) (hb _)) (hR.emit _ _)

theorem IsPassive.clearLoopKeeps {R : World → World → Prop} (hR : IsPassive R) (k : Consts)
    (d : Device) (cleared : Int) (fuel : Nat) :
    ∀ (w : World) (r : Option Error × World),
      clearLoop k d cleared fuel w = some r → R w r.2 := by
  induction fuel with
  | zero => intro w r h; simp [clearLoop] at h
  | succ n ih =>
    intro w r h
    unfold clearLoop at h
    dsimp only at h
    have hc : R w ((w.emit (Event.Sleep (50 * Millisecond))).call
        (Event.Iblines (w.boards d.board).index)).2 :=
      hR.trans (hR.emit _ _) (hR.call _ _)
    split at h
    · cases h; exact hc
    · split at h
      · cases h; exact hR.trans hc (hR.emit _ _)
      · split at h
        · cases h; exact hc
        · split at h
          · split at h
            · cases h; exact hR.trans hc (hR.now _)
            · exact hR.trans (hR.trans hc (hR.now _)) (ih _ _ h)
          · exact hR.trans hc (ih _ _ h)

theorem IsPassive.ClearKeeps {R : World → World → Prop} (hR : IsPassive R) (k : Consts)
    (fuel h : Nat) (w : World) (r : Option Error × World)
    (hr : Device.Clear k fuel h w = some r) : R w r.2 := by
  unfold Device.Clear at hr
  dsimp only at hr
  split at hr
  · cases hr; exact hR.refl w
  · have h1 : R w (match (w.devices h).options.activity with
        | none => w
        | some f => w.emit (Event.activity f true)) := by
      split
      · exact hR.refl w
      · exact hR.emit _ _
    have hfin : ∀ x : Option Error × World, R x.2
        (match (w.devices h).options.activity with
          | none => x
          | some f => (x.1, x.2.emit (Event.activity f false))).2 := by
      intro x
      split
      · exact hR.refl _
      · exact hR.emit _ _
    split at hr
    · cases hr
      exact hR.trans (hR.trans h1 (hR.call _ _)) (hfin (_, _))
    · split at hr
      · cases hr
      · rename_i x hx
        cases hr
        exact hR.trans (hR.trans (hR.trans (hR.trans h1 (hR.call _ _)) (hR.now _))
          (hR.clearLoopKeeps _ _ _ _ _ _ hx)) (hfin _)

theorem IsPassive.ReadKeeps {R : World → World → Prop} (hR : IsPassive R) (k : Consts)
    (h len cap : Nat) (w : World) : R w (Device.Read k h len cap w).2 := by
  unfold Device.Read
  dsimp only
  split
  · exact hR.refl w
  · apply hR.bracketedBody
    intro w1
    dsimp only
    split
    · exact hR.refl _
    · split
      · exact hR.call _ _
      · split
        · exact hR.call _ _
        · exact hR.call _ _

theorem IsPassive.SetTimeoutKeeps {R : World → World → Prop} (hR : IsPassive R) (k : Consts)
    (h : Nat) (t : Duration) (w : World) : R w (Device.SetTimeout k h t w).2 := by
  unfold Device.SetTimeout
  dsimp only
  split
  · exact hR.refl w
  · apply hR.bracketedBody
    intro w1
    dsimp only
    split
    · exact hR.call _ _
    · exact hR.call _ _

theorem IsPassive.SpollKeeps {R : World → World → Prop} (hR : IsPassive R) (k : Consts)
    (h : Nat) (w : World) : R w (Device.Spoll k h w).2 := by
  unfold Device.Spoll
  dsimp only
  split
  · exact hR.refl w
  · apply hR.bracketedBody
    intro w1
    dsimp only
    split
    · exact hR.call _ _
    · exact hR.call _ _

theorem IsPassive.TriggerKeeps {R : World → World → Prop} (hR : IsPassive R) (k : Consts)
    (h : Nat) (w : World) : R w (Device.Trigger k h w).2 := by
  unfold Device.Trigger
  dsimp only
  split
  · exact hR.refl w
  · apply hR.bracketedBody
    intro w1
    dsimp only
    split
    · exact hR.call _ _
    · exact hR.call _ _

theorem IsPassive.WriteKeeps {R : World → World → Prop} (hR : IsPassive R) (k : Consts)
    (h : Nat) (buf : List Nat) (w : World) : R w (Device.Write k h buf w).2 := by
  unfold Device.Write
  dsimp only
  split
  · exact hR.refl w
  · apply hR.bracketedBody
    intro w1
    exact hR.call _ _

theorem IsPassive.enumLoopKeeps {R : World → World → Prop} (hR : IsPassive R) (k : Consts)
    (index : Int) (n : Nat) :
    ∀ (i : Int) (ds : List Int) (w : World), R w (enumLoop k index n i ds w).2 := by
  induction n with
  | zero => intro i ds w; exact hR.refl w
  | succ n ih =>
    intro i ds w
    unfold enumLoop
    dsimp only
    split
    · exact hR.call _ _
    · split
      · exact hR.trans (hR.call _ _) (ih _ _ _)
      · exact hR.trans (hR.call _ _) (ih _ _ _)

theorem IsPassive.EnumerateKeeps {R : World → World → Prop} (hR : IsPassive R) (k : Consts)
    (b : Nat) (w : World) : R w (Board.Enumerate k b w).2 := by
  unfold Board.Enumerate
  apply hR.bracketedBody
  intro w1
  dsimp only
  split
  · exact hR.call _ _
  · split
    · exact hR.trans (hR.call _ _) (hR.call _ _)
    · split
      · exact hR.trans (hR.call _ _) (hR.call _ _)
      · exact hR.trans (hR.trans (hR.call _ _) (hR.call _ _)) (hR.enumLoopKeeps _ _ _ _ _ _)

theorem sameHeap_isPassive : IsPassive SameHeap where
  refl := fun _ => ⟨rfl, rfl, rfl, rfl, rfl⟩
  trans := fun h1 h2 =>
    ⟨h2.1.trans h1.1, h2.2.1.trans h1.2.1, h2.2.2.1.trans h1.2.2.1,
      h2.2.2.2.1.trans h1.2.2.2.1, h2.2.2.2.2.trans h1.2.2.2.2⟩
  emit := fun _ _ => ⟨rfl, rfl, rfl, rfl, rfl⟩
  call := fun _ _ => ⟨rfl, rfl, rfl, rfl, rfl⟩
  now := fun _ => ⟨rfl, rfl, rfl, rfl, rfl⟩

theorem bookkeeping_of_sameHeap {w v : World} (hs : SameHeap w v) (hw : Bookkeeping w) :
    Bookkeeping v := by
  obtain ⟨_, hb, hnb, hd, hnd⟩ := hs
  unfold Bookkeeping
  rw [hb, hnb, hd, hnd]
  exact hw

/-! ## What the operations do to the boards and devices -/

theorem opened_of_sameHeap_left {b : Nat} {addr : Int} {w u v : World}
    (h1 : SameHeap w u) (h2 : Opened b addr u v) : Opened b addr w v := by
  obtain ⟨a1, a2, a3, a4, a5⟩ := h1
  unfold Opened at h2 ⊢
  rw [a1, a2, a3, a4, a5] at h2
  exact h2

theorem opened_of_sameHeap_right {b : Nat} {addr : Int} {w u v : World}
    (h1 : Opened b addr w u) (h2 : SameHeap u v) : Opened b addr w v := by
  obtain ⟨a1, a2, a3, a4, a5⟩ := h2
  unfold Opened at h1 ⊢
  rw [a1, a2, a3, a4, a5]
  exact h1

/-- The low-level open either fails and assigns nothing, or returns the next
free device address and does the bookkeeping of a new device. -/
theorem openDevice_heap (k : Consts) (b : Nat) (addr : Int) (o : options) (eos : Int)
    (w : World) :
    ((∃ err, (openDevice k b addr o eos w).1 = Except.error err) ∧
      SameHeap w (openDevice k b addr o eos w).2) ∨
    ((openDevice k b addr o eos w).1 = Except.ok w.ndevices ∧
      Opened b addr w (openDevice k b addr o eos w).2) := by
  unfold openDevice
  dsimp only
  split
  · left
    split
    · exact ⟨⟨_, rfl⟩, sameHeap_isPassive.call _ _⟩
    · exact ⟨⟨_, rfl⟩, sameHeap_isPassive.call _ _⟩
  · right
    exact ⟨rfl, rfl, rfl, rfl, rfl, ⟨_, rfl, rfl, rfl, rfl⟩⟩

/-- `Board.NewDevice` either fails and assigns nothing, or returns the next
free device address and does the bookkeeping of a new device at an address
that was not in the active set. -/
theorem NewDevice_heap (k : Consts) (b : Nat) (addr : Int) (opts : List Opt) (w : World) :
    ((∃ err, (Board.NewDevice k b addr opts w).1 = Except.error err) ∧
      SameHeap w (Board.NewDevice k b addr opts w).2) ∨
    (addr ∉ (w.boards b).activeDevices ∧
      (Board.NewDevice k b addr opts w).1 = Except.ok w.ndevices ∧
      Opened b addr w (Board.NewDevice k b addr opts w).2) := by
  unfold Board.NewDevice
  dsimp only
  split
  · exact Or.inl ⟨⟨_, rfl⟩, sameHeap_isPassive.refl w⟩
  · split
    · exact Or.inl ⟨⟨_, rfl⟩, sameHeap_isPassive.refl w⟩
    · rename_i eos heos hfree
      have hfree2 : addr ∉ (w.boards b).activeDevices := by simpa [mapGet] using hfree
      have hop : ∀ w2 u : World, SameHeap w w2 →
          SameHeap (openDevice k b addr (applyOpts opts (cloneOptions (w.boards b).options))
            eos w2).2 u →
          ((∃ err, (openDevice k b addr (applyOpts opts (cloneOptions (w.boards b).options))
              eos w2).1 = Except.error err) ∧ SameHeap w u) ∨
          (addr ∉ (w.boards b).activeDevices ∧
            (openDevice k b addr (applyOpts opts (cloneOptions (w.boards b).options))
              eos w2).1 = Except.ok w.ndevices ∧ Opened b addr w u) := by
        intro w2 u hs2 hu
        rcases openDevice_heap k b addr (applyOpts opts (cloneOptions (w.boards b).options))
          eos w2 with ⟨he, hh⟩ | ⟨ho, hh⟩
        · exact Or.inl ⟨he, sameHeap_isPassive.trans (sameHeap_isPassive.trans hs2 hh) hu⟩
        · right
          rw [hs2.2.2.2.2] at ho
          exact ⟨hfree2, ho, opened_of_sameHeap_right (opened_of_sameHeap_left hs2 hh) hu⟩
      rw [withActivity_fst, withActivity_snd]
      cases (w.boards b).options.activity with
      | none =>
        dsimp only
        split
        · split
          · exact Or.inl ⟨⟨_, rfl⟩, sameHeap_isPassive.call _ _⟩
          · exact hop _ _ (sameHeap_isPassive.call _ _) (sameHeap_isPassive.refl _)
        · exact hop _ _ (sameHeap_isPassive.refl _) (sameHeap_isPassive.refl _)
      | some f =>
        dsimp only
        split
        · split
          · exact Or.inl ⟨⟨_, rfl⟩, sameHeap_isPassive.trans
              (sameHeap_isPassive.trans (sameHeap_isPassive.emit _ _)
                (sameHeap_isPassive.call _ _)) (sameHeap_isPassive.emit _ _)⟩
          · exact hop _ _ (sameHeap_isPassive.trans (sameHeap_isPassive.emit _ _)
              (sameHeap_isPassive.call _ _)) (sameHeap_isPassive.emit _ _)
        · exact hop _ _ (sameHeap_isPassive.emit _ _) (sameHeap_isPassive.emit _ _)

/-- `Close` assigns nothing on a closed device, and on an open one it marks
the device closed and takes its address out of the active set of its board. -/
theorem Close_heap (k : Consts) (h : Nat) (w : World) :
    ((w.devices h).isClosed = true ∧ SameHeap w (Device.Close k h w).2) ∨
    ((w.devices h).isClosed = false ∧ ClosedOff h w (Device.Close k h w).2) := by
  unfold Device.Close
  dsimp only
  split
  · rename_i hc
    exact Or.inl ⟨hc, sameHeap_isPassive.refl w⟩
  · rename_i hc
    right
    refine ⟨by simpa using hc, ?_⟩
    rw [withActivity_snd]
    cases (w.devices h).options.activity <;> dsimp only <;> (repeat' split) <;>
      exact ⟨rfl, rfl, rfl, rfl, rfl⟩

/-! ## The bookkeeping invariant -/

theorem mem_mapDelete (m : List Int) (key a : Int) :
    a ∈ mapDelete m key ↔ a ∈ m ∧ a ≠ key := by
  simp [mapDelete]

theorem bookkeeping_init (regs : Regs) (adapter : Nat → Reply) (clock : Nat → Int) :
    Bookkeeping (World.init regs adapter clock) :=
  ⟨fun _ hh => absurd hh (Nat.not_lt_zero _), fun _ _ hb => absurd hb (Nat.not_lt_zero _),
    fun _ _ hh => absurd hh (Nat.not_lt_zero _)⟩

/-- `NewBoard` returns an error and changes nothing, or returns the next free
board address and allocates there a board without active devices. -/
theorem NewBoard_heap (index : Int) (opts : List Opt) (w : World) :
    ((∃ err, (NewBoard index opts w).1 = Except.error err) ∧ (NewBoard index opts w).2 = w) ∨
    ((NewBoard index opts w).1 = Except.ok w.nboards ∧
      (NewBoard index opts w).2.nboards = w.nboards + 1 ∧
      (NewBoard index opts w).2.ndevices = w.ndevices ∧
      (NewBoard index opts w).2.devices = w.devices ∧
      ((NewBoard index opts w).2.boards w.nboards).activeDevices = [] ∧
      ∀ b, b ≠ w.nboards → (NewBoard index opts w).2.boards b = w.boards b) := by
  unfold NewBoard
  split
  · exact Or.inl ⟨⟨_, rfl⟩, rfl⟩
  · right
    refine ⟨rfl, rfl, rfl, rfl, ?_, fun b hb => ?_⟩
    · show (Function.update w.boards w.nboards _ w.nboards).activeDevices = []
      rw [Function.update_same]
    · show Function.update w.boards w.nboards _ b = w.boards b
      exact Function.update_noteq hb _ _

theorem bookkeeping_NewBoard (index : Int) (opts : List Opt) (w : World)
    (hw : Bookkeeping w) : Bookkeeping (NewBoard index opts w).2 := by
  rcases NewBoard_heap index opts w with ⟨_, hs⟩ | ⟨_, hn, hnd, hd, hnew, hold⟩
  · rw [hs]; exact hw
  · obtain ⟨i3, i1, i2⟩ := hw
    refine ⟨fun h hh => ?_, fun b a hb => ?_, fun h1 h2 l1 l2 => ?_⟩
    · rw [hd, hn]
      rw [hnd] at hh
      exact Nat.lt_succ_of_lt (i3 h hh)
    · rw [hn] at hb
      rw [hd, hnd]
      rcases Nat.lt_succ_iff_lt_or_eq.mp hb with hb | rfl
      · rw [hold b (Nat.ne_of_lt hb)]
        exact i1 b a hb
      · rw [hnew]
        constructor
        · intro ha; cases ha
        · rintro ⟨h, hh, hbd, _⟩
          exact absurd (hbd ▸ i3 h hh) (Nat.lt_irrefl _)
    · rw [hnd] at l1 l2
      rw [hd]
      exact i2 h1 h2 l1 l2

theorem bookkeeping_of_opened {b : Nat} {addr : Int} {w v : World} (hb : b < w.nboards)
    (hfree : addr ∉ (w.boards b).activeDevices) (ho : Opened b addr w v)
    (hw : Bookkeeping w) : Bookkeeping v := by
  obtain ⟨_, hn, hnd, hbs, d, da, db, dc, hds⟩ := ho
  obtain ⟨i3, i1, i2⟩ := hw
  have hold : ∀ h, h < w.ndevices → v.devices h = w.devices h := by
    intro h hh
    rw [hds, Function.update_noteq (Nat.ne_of_lt hh)]
  have hnew : v.devices w.ndevices = d := by rw [hds, Function.update_same]
  refine ⟨fun h hh => ?_, fun c a hc => ?_, fun h1 h2 l1 l2 e1 e2 o1 o2 => ?_⟩
  · rw [hn]
    rw [hnd] at hh
    rcases Nat.lt_succ_iff_lt_or_eq.mp hh with hh | rfl
    · rw [hold h hh]; exact i3 h hh
    · rw [hnew, db]; exact hb
  · rw [hn] at hc
    rw [hnd, hbs]
    by_cases hcb : c = b
    · subst hcb
      rw [Function.update_same]
      show a ∈ mapSet (w.boards c).activeDevices addr ↔ _
      rw [mem_mapSet]
      constructor
      · rintro (rfl | ha)
        · exact ⟨w.ndevices, Nat.lt_succ_self _, by rw [hnew, db], by rw [hnew, da],
            by rw [hnew, dc]⟩
        · obtain ⟨h, hh, x1, x2, x3⟩ := (i1 c a hc).mp ha
          exact ⟨h, Nat.lt_succ_of_lt hh, by rw [hold h hh, x1], by rw [hold h hh, x2],
            by rw [hold h hh, x3]⟩
      · rintro ⟨h, hh, x1, x2, x3⟩
        rcases Nat.lt_succ_iff_lt_or_eq.mp hh with hh | rfl
        · rw [hold h hh] at x1 x2 x3
          exact Or.inr ((i1 c a hc).mpr ⟨h, hh, x1, x2, x3⟩)
        · rw [hnew, da] at x2
          exact Or.inl x2.symm
    · rw [Function.update_noteq hcb]
      constructor
      · intro ha
        obtain ⟨h, hh, x1, x2, x3⟩ := (i1 c a hc).mp ha
        exact ⟨h, Nat.lt_succ_of_lt hh, by rw [hold h hh, x1], by rw [hold h hh, x2],
          by rw [hold h hh, x3]⟩
      · rintro ⟨h, hh, x1, x2, x3⟩
        rcases Nat.lt_succ_iff_lt_or_eq.mp hh with hh | rfl
        · rw [hold h hh] at x1 x2 x3
          exact (i1 c a hc).mpr ⟨h, hh, x1, x2, x3⟩
        · rw [hnew, db] at x1
          exact absurd x1.symm hcb
  · rw [hnd] at l1 l2
    rcases Nat.lt_succ_iff_lt_or_eq.mp l1 with l1 | rfl
    · rcases Nat.lt_succ_iff_lt_or_eq.mp l2 with l2 | rfl
      · rw [hold h1 l1, hold h2 l2] at e1 e2
        rw [hold h1 l1] at o1
        rw [hold h2 l2] at o2
        exact i2 h1 h2 l1 l2 e1 e2 o1 o2
      · rw [hold h1 l1, hnew] at e1 e2
        rw [hold h1 l1] at o1
        rw [db] at e1
        rw [da] at e2
        exact absurd ((i1 b addr hb).mpr ⟨h1, l1, e1, e2, o1⟩) hfree
    · rcases Nat.lt_succ_iff_lt_or_eq.mp l2 with l2 | h2e
      · rw [hnew, hold h2 l2] at e1 e2
        rw [hold h2 l2] at o2
        rw [db] at e1
        rw [da] at e2
        exact absurd ((i1 b addr hb).mpr ⟨h2, l2, e1.symm, e2.symm, o2⟩) hfree
      · exact h2e.symm

theorem bookkeeping_of_closedOff {h : Nat} {w v : World} (hh : h < w.ndevices)
    (hopen : (w.devices h).isClosed = false) (hc : ClosedOff h w v)
    (hw : Bookkeeping w) : Bookkeeping v := by
  obtain ⟨_, hn, hnd, hds, hbs⟩ := hc
  obtain ⟨i3, i1, i2⟩ := hw
  have hold : ∀ x, x ≠ h → v.devices x = w.devices x := by
    intro x hx
    rw [hds, Function.update_noteq hx]
  have hnew : v.devices h = { w.devices h with isClosed := true } := by
    rw [hds, Function.update_same]
  have hopn : ∀ x, (v.devices x).isClosed = false → x ≠ h := by
    intro x hx hxe
    rw [hxe, hnew] at hx
    cases hx
  have hbrd : ∀ x, (v.devices x).board = (w.devices x).board := by
    intro x
    by_cases hx : x = h
    · rw [hx, hnew]
    · rw [hold x hx]
  refine ⟨fun x hx => ?_, fun c a hc => ?_, fun h1 h2 l1 l2 e1 e2 o1 o2 => ?_⟩
  · rw [hn, hbrd]
    rw [hnd] at hx
    exact i3 x hx
  · rw [hn] at hc
    rw [hnd, hbs]
    by_cases hcb : c = (w.devices h).board
    · subst hcb
      rw [Function.update_same]
      show a ∈ mapDelete (w.boards (w.devices h).board).activeDevices (w.devices h).addr ↔ _
      rw [mem_mapDelete]
      constructor
      · rintro ⟨ha, hne⟩
        obtain ⟨x, hx, x1, x2, x3⟩ := (i1 _ a hc).mp ha
        have hxh : x ≠ h := by
          intro e; rw [e] at x2; exact hne x2.symm
        exact ⟨x, hx, by rw [hold x hxh, x1], by rw [hold x hxh, x2], by rw [hold x hxh, x3]⟩
      · rintro ⟨x, hx, x1, x2, x3⟩
        have hxh : x ≠ h := hopn x x3
        rw [hold x hxh] at x1 x2 x3
        refine ⟨(i1 _ a hc).mpr ⟨x, hx, x1, x2, x3⟩, ?_⟩
        intro hae
        exact hxh (i2 x h hx hh x1 (x2.trans hae) x3 hopen)
    · rw [Function.update_noteq hcb]
      constructor
      · intro ha
        obtain ⟨x, hx, x1, x2, x3⟩ := (i1 c a hc).mp ha
        have hxh : x ≠ h := by
          intro e; rw [e] at x1; exact hcb x1.symm
        exact ⟨x, hx, by rw [hold x hxh, x1], by rw [hold x hxh, x2], by rw [hold x hxh, x3]⟩
      · rintro ⟨x, hx, x1, x2, x3⟩
        have hxh : x ≠ h := hopn x x3
        rw [hold x hxh] at x1 x2 x3
        exact (i1 c a hc).mpr ⟨x, hx, x1, x2, x3⟩
  · rw [hnd] at l1 l2
    have n1 := hopn h1 o1
    have n2 := hopn h2 o2
    rw [hold h1 n1, hold h2 n2] at e1 e2
    rw [hold h1 n1] at o1
    rw [hold h2 n2] at o2
    exact i2 h1 h2 l1 l2 e1 e2 o1 o2

theorem bookkeeping_BoardNewDevice (k : Consts) (b : Nat) (addr : Int) (opts : List Opt)
    (w : World) (hb : b < w.nboards) (hw : Bookkeeping w) :
    Bookkeeping (Board.NewDevice k b addr opts w).2 := by
  rcases NewDevice_heap k b addr opts w with ⟨_, hs⟩ | ⟨hfree, _, ho⟩
  · exact bookkeeping_of_sameHeap hs hw
  · exact bookkeeping_of_opened hb hfree ho hw

theorem bookkeeping_Close (k : Consts) (h : Nat) (w : World) (hh : h < w.ndevices)
    (hw : Bookkeeping w) : Bookkeeping (Device.Close k h w).2 := by
  rcases Close_heap k h w with ⟨_, hs⟩ | ⟨hopen, hc⟩
  · exact bookkeeping_of_sameHeap hs hw
  · exact bookkeeping_of_closedOff hh hopen hc hw

theorem bookkeeping_NewDevice (k : Consts) (board addr : Int) (opts : List Opt) (w : World)
    (hw : Bookkeeping w) : Bookkeeping (NewDevice k board addr opts w).2 := by
  unfold NewDevice
  split
  · exact bookkeeping_NewBoard _ _ _ hw
  · rename_i b hb
    rcases NewBoard_heap board opts w with ⟨⟨err, he⟩, _⟩ | ⟨ho, hn, _⟩
    · rw [he] at hb; cases hb
    · rw [ho] at hb
      cases hb
      exact bookkeeping_BoardNewDevice k _ addr [] _ (by rw [hn]; exact Nat.lt_succ_self _)
        (bookkeeping_NewBoard _ _ _ hw)

theorem bookkeeping_of_step {k : Consts} {w v : World} (hs : Step k w v)
    (hw : Bookkeeping w) : Bookkeeping v := by
  cases hs with
  | NewBoard index opts => exact bookkeeping_NewBoard _ _ _ hw
  | NewDevice board addr opts => exact bookkeeping_NewDevice _ _ _ _ _ hw
  | BoardNewDevice b addr opts hb => exact bookkeeping_BoardNewDevice _ _ _ _ _ hb hw
  | Enumerate b _ =>
    exact bookkeeping_of_sameHeap (sameHeap_isPassive.EnumerateKeeps _ _ _) hw
  | Clear fuel h r _ hr =>
    exact bookkeeping_of_sameHeap (sameHeap_isPassive.ClearKeeps _ _ _ _ _ hr) hw
  | Close h hh => exact bookkeeping_Close _ _ _ hh hw
  | Read h len cap _ _ =>
    exact bookkeeping_of_sameHeap (sameHeap_isPassive.ReadKeeps _ _ _ _ _) hw
  | SetTimeout h t _ =>
    exact bookkeeping_of_sameHeap (sameHeap_isPassive.SetTimeoutKeeps _ _ _ _) hw
  | Spoll h _ => exact bookkeeping_of_sameHeap (sameHeap_isPassive.SpollKeeps _ _ _) hw
  | Trigger h _ => exact bookkeeping_of_sameHeap (sameHeap_isPassive.TriggerKeeps _ _ _) hw
  | Write h buf _ => exact bookkeeping_of_sameHeap (sameHeap_isPassive.WriteKeeps _ _ _ _) hw

theorem bookkeeping_of_reachable {k : Consts} {w : World} (hr : Reachable k w) :
    Bookkeeping w := by
  obtain ⟨regs, adapter, clock, hs⟩ := hr
  induction hs with
  | refl => exact bookkeeping_init _ _ _
  | tail _ hstep ih => exact bookkeeping_of_step hstep ih

/-- With a valid read-EOS option, an address that is not in the active set and
an adapter that reports no error to `Ibsre` and returns a unit descriptor
other than -1 from `Ibdev`, `Board.NewDevice` returns a new device. -/
theorem NewDevice_succeeds (k : Consts) (w : World) (b : Nat) (addr : Int) (opts : List Opt)
    (eos : Int)
    (heos : eosMode k (applyOpts opts (w.boards b).options).readEOS = some eos)
    (hfree : addr ∉ (w.boards b).activeDevices)
    (hsre : errAt k w w.calls = none)
    (h0 : (w.adapter w.calls).ret ≠ -1) (h1 : (w.adapter (w.calls + 1)).ret ≠ -1) :
    (Board.NewDevice k b addr opts w).1 = Except.ok w.ndevices := by
  have hg : mapGet (w.boards b).activeDevices addr = false := by simpa [mapGet] using hfree
  have hsre2 : Err k (w.adapter w.calls).regs (w.adapter w.calls).ret = none := hsre
  unfold Board.NewDevice cloneOptions
  simp only [heos, hg, Bool.false_eq_true, if_false]
  rw [withActivity_fst]
  by_cases hl : (w.boards b).activeDevices.length = 0
  · cases (w.boards b).options.activity <;>
      simp [boards_emit, hl, hsre2, openDevice, World.call, World.emit, h1]
  · cases (w.boards b).options.activity <;>
      simp [boards_emit, hl, openDevice, World.call, World.emit, h0]

/-- Claim C22: in every world that a process can reach, whatever the adapter
answered, the active set of every board holds exactly the addresses of the
devices that `NewDevice` returned for that board and that are not closed, and
no two open devices of one board have the same address. An address of a board
all of whose devices are closed (such as the address of a closed device that
was not opened again) can be opened again: `Board.NewDevice` at it returns a
new device when the read-EOS option is valid and the adapter reports no error
to `Ibsre` and returns a unit descriptor other than -1 from `Ibdev`. -/
theorem active_set_is_open_devices (k : Consts) (w : World) (hr : Reachable k w) :
    (∀ b a, b < w.nboards →
      (a ∈ (w.boards b).activeDevices ↔
        ∃ h, h < w.ndevices ∧ (w.devices h).board = b ∧ (w.devices h).addr = a ∧
          (w.devices h).isClosed = false)) ∧
    (∀ h1 h2, h1 < w.ndevices → h2 < w.ndevices →
      (w.devices h1).board = (w.devices h2).board →
      (w.devices h1).addr = (w.devices h2).addr →
      (w.devices h1).isClosed = false → (w.devices h2).isClosed = false → h1 = h2) ∧
    (∀ b a opts eos, b < w.nboards →
      (∀ h, h < w.ndevices → (w.devices h).board = b → (w.devices h).addr = a →
        (w.devices h).isClosed = true) →
      eosMode k (applyOpts opts (w.boards b).options).readEOS = some eos →
      errAt k w w.calls = none →
      (w.adapter w.calls).ret ≠ -1 → (w.adapter (w.calls + 1)).ret ≠ -1 →
      (Board.NewDevice k b a opts w).1 = Except.ok w.ndevices) := by
  have hb := bookkeeping_of_reachable hr
  refine ⟨hb.2.1, hb.2.2, fun b a opts eos hlt hclosed heos hsre h0 h1 => ?_⟩
  have hfree : a ∉ (w.boards b).activeDevices := by
    intro ha
    obtain ⟨h, hh, x1, x2, x3⟩ := (hb.2.1 b a hlt).mp ha
    rw [hclosed h hh x1 x2] at x3
    cases x3
  exact NewDevice_succeeds k w b a opts eos heos hfree hsre h0 h1

theorem oneDevice_closed_reachable :
    Reachable gpibUser (Device.Close gpibUser 0 oneDevice).2 :=
  ⟨_, _, _, Relation.ReflTransGen.tail
    (Relation.ReflTransGen.tail
      (Relation.ReflTransGen.tail Relation.ReflTransGen.refl (Step.NewBoard _ 0 []))
      (Step.BoardNewDevice _ 0 5 [] (by decide)))
    (Step.Close _ 0 (by decide))⟩

theorem twoDevices_reachable : Reachable gpibUser twoDevices :=
  ⟨_, _, _, Relation.ReflTransGen.tail
    (Relation.ReflTransGen.tail
      (Relation.ReflTransGen.tail Relation.ReflTransGen.refl (Step.NewBoard _ 0 []))
      (Step.BoardNewDevice _ 0 5 [] (by decide)))
    (Step.BoardNewDevice _ 0 6 [Opt.Activity (some 9)] (by decide))⟩

theorem active_set_is_open_devices_witness :
    ((6 : Int) ∈ (twoDevices.boards 0).activeDevices ↔
      ∃ h, h < twoDevices.ndevices ∧ (twoDevices.devices h).board = 0 ∧
        (twoDevices.devices h).addr = 6 ∧ (twoDevices.devices h).isClosed = false) ∧
    ((Device.Close gpibUser 0 oneDevice).2.devices 0).isClosed = true ∧
    (Board.NewDevice gpibUser 0 5 [] (Device.Close gpibUser 0 oneDevice).2).1 =
      Except.ok 1 :=
  ⟨(active_set_is_open_devices gpibUser twoDevices twoDevices_reachable).1 0 6 (by decide),
   by decide,
   (active_set_is_open_devices gpibUser _ oneDevice_closed_reachable).2.2 0 5 [] 0
     (by decide) (by decide) (by decide) (by decide) (by decide) (by decide)⟩

/-! ## The registry is never released -/

theorem registry_grows_NewBoard (i index : Int) (opts : List Opt) (w : World)
    (hi : i ∈ w.activeBoards) : i ∈ (NewBoard index opts w).2.activeBoards := by
  unfold NewBoard
  split
  · exact hi
  · exact (mem_mapSet _ _ _).mpr (Or.inr hi)

theorem registry_claims_NewBoard (i : Int) (opts : List Opt) (w : World) :
    i ∈ (NewBoard i opts w).2.activeBoards := by
  unfold NewBoard
  split
  · rename_i h
    simpa [mapGet] using h
  · exact (mem_mapSet _ _ _).mpr (Or.inl rfl)

theorem registry_NewDevice (k : Consts) (board addr : Int) (opts : List Opt) (w : World) :
    (NewDevice k board addr opts w).2.activeBoards = (NewBoard board opts w).2.activeBoards := by
  unfold NewDevice
  split
  · rfl
  · exact (boardsKept_isFrame.boardNewDevice _ _ _ _ _).1

theorem registry_grows_step {k : Consts} {w v : World} (hs : Step k w v) (i : Int)
    (hi : i ∈ w.activeBoards) : i ∈ v.activeBoards := by
  cases hs with
  | NewBoard index opts => exact registry_grows_NewBoard _ _ _ _ hi
  | NewDevice board addr opts =>
    rw [registry_NewDevice]; exact registry_grows_NewBoard _ _ _ _ hi
  | BoardNewDevice b addr opts _ =>
    rw [(boardsKept_isFrame.boardNewDevice _ _ _ _ _).1]; exact hi
  | Enumerate b _ => rw [(boardsKept_isFrame.enumerates _ _ _).1]; exact hi
  | Clear fuel h r _ hr => rw [(boardsKept_isFrame.clears _ _ _ _ _ hr).1]; exact hi
  | Close h _ => rw [(boardsKept_isFrame.closes _ _ _).1]; exact hi
  | Read h len cap _ _ => rw [(boardsKept_isFrame.reads _ _ _ _ _).1]; exact hi
  | SetTimeout h t _ => rw [(boardsKept_isFrame.setsTimeout _ _ _ _).1]; exact hi
  | Spoll h _ => rw [(boardsKept_isFrame.polls _ _ _).1]; exact hi
  | Trigger h _ => rw [(boardsKept_isFrame.triggers _ _ _).1]; exact hi
  | Write h buf _ => rw [(boardsKept_isFrame.writes _ _ _ _).1]; exact hi

theorem registry_grows_steps {k : Consts} {w v : World} (hs : Steps k w v) (i : Int)
    (hi : i ∈ w.activeBoards) : i ∈ v.activeBoards := by
  induction hs with
  | refl => exact hi
  | tail _ hstep ih => exact registry_grows_step hstep i ih

/-- Claim C23: no operation removes an index from the registry. After
`NewBoard(i)`, and after a package-level `NewDevice(i, addr)` whatever its
outcome (also when it failed at the device-open step), the index `i` is in the
registry; it stays there through any number of later calls (also the `Close`
of every device of that board); and while it is there every `NewBoard(i)` and
every package-level `NewDevice(i, addr)` returns "board in use" and changes
nothing. -/
theorem registry_is_never_released (k : Consts) (i : Int) :
    (∀ (w : World) (opts : List Opt), i ∈ (NewBoard i opts w).2.activeBoards) ∧
    (∀ (w : World) (addr : Int) (opts : List Opt),
      i ∈ (NewDevice k i addr opts w).2.activeBoards) ∧
    (∀ w v : World, i ∈ w.activeBoards → Steps k w v →
      i ∈ v.activeBoards ∧
      (∀ opts : List Opt, NewBoard i opts v =
        (Except.error (Error.errorString ("board in use: " ++ toString i)), v)) ∧
      (∀ (addr : Int) (opts : List Opt), NewDevice k i addr opts v =
        (Except.error (Error.errorString ("board in use: " ++ toString i)), v))) := by
  refine ⟨fun w opts => registry_claims_NewBoard i opts w, fun w addr opts => ?_,
    fun w v hi hs => ?_⟩
  · rw [registry_NewDevice]
    exact registry_claims_NewBoard i opts w
  · have hv := registry_grows_steps hs i hi
    have hg : mapGet v.activeBoards i = true := by simpa [mapGet] using hv
    have hnb : ∀ opts : List Opt, NewBoard i opts v =
        (Except.error (Error.errorString ("board in use: " ++ toString i)), v) := by
      intro opts
      unfold NewBoard
      rw [hg]
      rfl
    refine ⟨hv, hnb, fun addr opts => ?_⟩
    unfold NewDevice
    rw [hnb opts]

theorem registry_is_never_released_witness :
    (NewDevice gpibUser 0 5 [] openFailsStart).1 = Except.error (Error.errorString "ENOL") ∧
    NewBoard 0 [] (NewDevice gpibUser 0 5 [] openFailsStart).2 =
      (Except.error (Error.errorString ("board in use: " ++ toString (0 : Int))),
        (NewDevice gpibUser 0 5 [] openFailsStart).2) ∧
    NewDevice gpibUser 0 5 [] (Device.Close gpibUser 0 oneDevice).2 =
      (Except.error (Error.errorString ("board in use: " ++ toString (0 : Int))),
        (Device.Close gpibUser 0 oneDevice).2) :=
  ⟨by decide,
   ((registry_is_never_released gpibUser 0).2.2 _ _
      ((registry_is_never_released gpibUser 0).2.1 openFailsStart 5 [])
      Relation.ReflTransGen.refl).2.1 [],
   ((registry_is_never_released gpibUser 0).2.2 _ _
      ((registry_is_never_released gpibUser 0).1 (World.init ⟨0, 0, 0⟩ okAdapter (fun n => n)) [])
      (Relation.ReflTransGen.tail
        (Relation.ReflTransGen.tail Relation.ReflTransGen.refl
          (Step.BoardNewDevice _ 0 5 [] (by decide)))
        (Step.Close _ 0 (by decide)))).2.2 5 []⟩

/-! ## A failed open is not rolled back -/

/-- Claim C24: when `Board.NewDevice` (past its checks) finds the active set
empty, `Ibsre(index, 1)` reports no error and `Ibdev` then returns -1,
`NewDevice` returns an error (the one decoded from the registers, or "ibdev
failed without setting an error") and no device; the calls it made are
`Ibsre(index, 1)` and `Ibdev`, with no remote-disable call after them; no
device is allocated and the active set is still empty. -/
theorem NewDevice_failed_open_keeps_remote (k : Consts) (w : World) (b : Nat) (addr : Int)
    (opts : List Opt) (eos : Int)
    (heos : eosMode k (applyOpts opts (w.boards b).options).readEOS = some eos)
    (hempty : (w.boards b).activeDevices = [])
    (hsre : errAt k w w.calls = none)
    (hdev : (w.adapter (w.calls + 1)).ret = -1) :
    (Board.NewDevice k b addr opts w).1 =
      Except.error
        (match Err k (w.adapter (w.calls + 1)).regs (w.adapter (w.calls + 1)).regs.ibsta with
          | some err => err
          | none => Error.errorString "ibdev failed without setting an error") ∧
    (Board.NewDevice k b addr opts w).2.trace =
      w.trace ++ bracket (w.boards b).options.activity
        [Event.Ibsre (w.boards b).index 1,
         Event.Ibdev (w.boards b).index (k.GetPAD addr) (k.GetSAD addr)
           (Timeout k (applyOpts opts (w.boards b).options).timeout) 1 eos] ∧
    (∀ e ∈ bracket (w.boards b).options.activity
        [Event.Ibsre (w.boards b).index 1,
         Event.Ibdev (w.boards b).index (k.GetPAD addr) (k.GetSAD addr)
           (Timeout k (applyOpts opts (w.boards b).options).timeout) 1 eos],
      ∀ ud, e ≠ Event.Ibsre ud 0) ∧
    ((Board.NewDevice k b addr opts w).2.boards b).activeDevices = [] ∧
    (Board.NewDevice k b addr opts w).2.ndevices = w.ndevices := by
  have hg : mapGet (w.boards b).activeDevices addr = false := by simp [mapGet, hempty]
  have hsre2 : Err k (w.adapter w.calls).regs (w.adapter w.calls).ret = none := hsre
  have hres : (Board.NewDevice k b addr opts w).1 =
      Except.error
        (match Err k (w.adapter (w.calls + 1)).regs (w.adapter (w.calls + 1)).regs.ibsta with
          | some err => err
          | none => Error.errorString "ibdev failed without setting an error") := by
    unfold Board.NewDevice cloneOptions
    simp only [heos, hg, Bool.false_eq_true, if_false]
    rw [withActivity_fst]
    cases (w.boards b).options.activity <;>
      cases he : Err k (w.adapter (w.calls + 1)).regs (w.adapter (w.calls + 1)).regs.ibsta <;>
      simp [boards_emit, hempty, hsre2, openDevice, World.call, World.emit, hdev, he]
  have hheap : SameHeap w (Board.NewDevice k b addr opts w).2 := by
    rcases NewDevice_heap k b addr opts w with ⟨_, hs⟩ | ⟨_, hok, _⟩
    · exact hs
    · rw [hres] at hok
      cases hok
  refine ⟨hres, ?_, ?_, ?_, ?_⟩
  · unfold Board.NewDevice cloneOptions
    simp only [heos, hg, Bool.false_eq_true, if_false]
    rw [withActivity_snd]
    cases (w.boards b).options.activity <;>
      simp [Err_call, calls_emit, errAt_emit, boards_emit, boards_call, hempty, hsre, bracket,
        trace_call, trace_emit, openDevice_trace]
  · intro e he ud
    cases hact : (w.boards b).options.activity <;> rw [hact] at he <;>
      simp [bracket] at he <;> rcases he with rfl | rfl | rfl | rfl <;> simp
  · rw [hheap.2.1]
    exact hempty
  · exact hheap.2.2.2.2

theorem NewDevice_failed_open_keeps_remote_witness :
    (Board.NewDevice gpibUser 0 5 [] openFailsBoard).1 =
      Except.error (Error.errorString "ENOL") ∧
    (Board.NewDevice gpibUser 0 5 [] openFailsBoard).2.trace =
      openFailsBoard.trace ++
        [Event.activity 7 true, Event.Ibsre 0 1, Event.Ibdev 0 5 0 13 1 0,
         Event.activity 7 false] ∧
    ((Board.NewDevice gpibUser 0 5 [] openFailsBoard).2.boards 0).activeDevices = [] ∧
    (Board.NewDevice gpibUser 0 5 [] openFailsBoard).2.ndevices = 0 :=
  ⟨(NewDevice_failed_open_keeps_remote gpibUser openFailsBoard 0 5 [] 0 (by decide) (by decide)
      (by decide) (by decide)).1.trans (by decide),
   (NewDevice_failed_open_keeps_remote gpibUser openFailsBoard 0 5 [] 0 (by decide) (by decide)
      (by decide) (by decide)).2.1.trans (by decide),
   (NewDevice_failed_open_keeps_remote gpibUser openFailsBoard 0 5 [] 0 (by decide) (by decide)
      (by decide) (by decide)).2.2.2.1,
   (NewDevice_failed_open_keeps_remote gpibUser openFailsBoard 0 5 [] 0 (by decide) (by decide)
      (by decide) (by decide)).2.2.2.2.trans (by decide)⟩

end Linuxgpib
